import Mathlib

/-!
# GLTest: scoring pipeline and render-loop bookkeeping

A shallow embedding of the scoring code of `main.go` and `send.go`, of the render
loops of `tests/butterfly.go` and `tests/triangles.go`, and of `createGeometry`.

Modelling conventions.

* A `float64` value is the rational (`ℚ`) it denotes exactly; there is no infinity
  and no NaN.  The scoring code and the render loop are embedded with `+`, `*` and
  `/` as the exact operations.  Where a property depends on the rounding of the
  machine, the operation is embedded a second time with that rounding
  (`roundFloat64`, `ParseFloat64`, `totalFrameTime64`, `avgFPS64`, `minFPS64`).
* A CSV file is the list of records the `encoding/csv` reader lexes from it,
  each record a list of field strings.  `ReadAll` keeps the one check of the
  reader that depends on the records themselves: with the default
  `FieldsPerRecord = 0` every record must have as many fields as the first.
* Go's `map` iteration order is unspecified; the loops over the `tests` map take
  the iteration order as an argument.
* Numbers cross files and process boundaries as text: `FormatFloat`, `Itoa` and
  `ParseFloat` work on the characters of the strings.
* A render loop is run over a list of passes, each pass carrying the clock readings
  the loop body takes, in seconds since the start of the test.
-/

namespace GLTest

/-! ## strconv.ParseFloat on decimal notation -/

/-- Value of a decimal digit character. -/
def digitVal (c : Char) : Nat := c.toNat - 48

/-- Value of a run of decimal digits, most significant first. -/
def parseDigits (cs : List Char) : Nat :=
  cs.foldl (fun acc c => acc * 10 + digitVal c) 0

/-- Unsigned decimal mantissa: `ddd`, `ddd.ddd`, `ddd.` or `.ddd`, with at least
one digit.  `none` is a syntax error. -/
def parseUnsigned (cs : List Char) : Option ℚ :=
  let ip := cs.takeWhile (fun c => c != '.')
  match cs.dropWhile (fun c => c != '.') with
  | [] =>
    if ip.length > 0 ∧ ip.all Char.isDigit then some (parseDigits ip : ℚ) else none
  | _ :: fp =>
    if (ip.length > 0 ∨ fp.length > 0) ∧ ip.all Char.isDigit ∧ fp.all Char.isDigit then
      some ((parseDigits ip : ℚ) + (parseDigits fp : ℚ) / (10 : ℚ) ^ fp.length)
    else none

/-- Model of `v, _ := strconv.ParseFloat(s, 64)` for decimal notation with an optional
sign and no exponent.  On a syntax error `strconv.ParseFloat` returns 0 together
with an error that every caller in this repository discards, so the model returns
0.  Exponent, hexadecimal, infinity and NaN spellings are outside the model (they
are read as syntax errors).  The result is the exact value of the decimal;
`ParseFloat64` rounds it to the `float64` the caller receives. -/
def ParseFloat (s : String) : ℚ :=
  match s.data with
  | [] => 0
  | c :: cs =>
    if c = '-' then (parseUnsigned cs).elim 0 (fun v => -v)
    else if c = '+' then (parseUnsigned cs).getD 0
    else (parseUnsigned (c :: cs)).getD 0

/-! ## Record logs -/

deriving instance DecidableEq for Except

/-- One CSV record: its fields. -/
abbrev Row := List String

/-- State of a record-log file on disk as the scorer meets it. -/
inductive CsvFile where
  /-- `os.Open` fails. -/
  | unopenable
  /-- The file opens and the CSV reader lexes these records from it. -/
  | records (rs : List Row)
deriving DecidableEq

/-- Model of `reader.ReadAll()` for a reader with default `FieldsPerRecord`
(zero): the first record fixes the field count and a later record with a
different count makes the whole read fail. -/
def ReadAll : List Row → Option (List Row)
  | [] => some []
  | first :: rest =>
    if rest.all (fun r => r.length == first.length) then some (first :: rest) else none

/-- What the scorer can observe of its surroundings. -/
structure Env where
  /-- Whether `os.Executable()` succeeds. -/
  executableOk : Bool
  /-- The file `tests/<testName>.csv`. -/
  file : String → CsvFile

/-- Failures of the scoring functions. -/
inductive ScoreError where
  | executable
  | openFailed (testName : String)
  | readFailed (testName : String)
  | insufficientData (testName : String)
deriving DecidableEq

/-- The struct `BenchmarkResults` of `main.go` and `send.go`. -/
structure BenchmarkResults where
  ButterflyScore : ℚ := 0
  TrianglesScore : ℚ := 0
  OceanScore : ℚ := 0
  TotalScore : ℚ := 0
deriving DecidableEq

/-- The `tests` map literal of `parseResultsAndCalculateScore`, as its list of
key-value pairs. -/
def tests : List (String × ℚ) :=
  [("butterfly", 16384000), ("ocean", 6), ("triangles", 10000000)]

/-- The three running sums of the averaging loop. -/
structure Sums where
  avgFpsSum : ℚ := 0
  minFpsSum : ℚ := 0
  avgLoadSum : ℚ := 0
deriving DecidableEq

namespace MainGo

/-- Body of `for _, row := range rows` in `main.go`. -/
def sumRow (acc : Sums) (row : Row) : Sums :=
  if row.length < 5 then acc
  else
    let avgFps := ParseFloat (row.getD 3 "")
    let minFps := ParseFloat (row.getD 4 "")
    let particles := ParseFloat (row.getD 2 "")
    { avgFpsSum := acc.avgFpsSum + avgFps
      minFpsSum := acc.minFpsSum + minFps
      avgLoadSum := acc.avgLoadSum + particles }

/-- The `switch testName` that stores a score. -/
def saveResult (results : BenchmarkResults) (testName : String) (score : ℚ) :
    BenchmarkResults :=
  if testName = "butterfly" then { results with ButterflyScore := score }
  else if testName = "triangles" then { results with TrianglesScore := score }
  else if testName = "ocean" then { results with OceanScore := score }
  else results

/-- The part of the loop body after `ReadAll` succeeded with `rows`. -/
def scoreRows (results : BenchmarkResults) (testName : String) (normalizeFactor : ℚ)
    (rows : List Row) : Except ScoreError BenchmarkResults :=
  if rows.length ≤ 1 then .error (.insufficientData testName)
  else
    let rows := rows.drop 1
    let sums := rows.foldl sumRow {}
    let rowCount : ℚ := (rows.length : ℚ)
    if rowCount > 0 then
      let avgFps := sums.avgFpsSum / rowCount
      let minFps := sums.minFpsSum / rowCount
      let avgLoad := sums.avgLoadSum / rowCount
      let score := ((avgFps * 0.7 + minFps * 0.3) * avgLoad) / normalizeFactor
      .ok (saveResult results testName score)
    else .ok results

/-- One iteration of `for testName, normalizeFactor := range tests` in `main.go`. -/
def processTest (env : Env) (results : BenchmarkResults) (test : String × ℚ) :
    Except ScoreError BenchmarkResults :=
  match env.file test.1 with
  | .unopenable => .error (.openFailed test.1)
  | .records rs =>
    match ReadAll rs with
    | none => .error (.readFailed test.1)
    | some rows => scoreRows results test.1 test.2 rows

/-- The function `parseResultsAndCalculateScore` of `main.go`.  `order` is the order
in which the `tests` map is iterated.  On an error Go also returns the partly
filled struct, which the caller discards. -/
def parseResultsAndCalculateScore (env : Env) (order : List (String × ℚ)) :
    Except ScoreError BenchmarkResults :=
  if env.executableOk then
    match order.foldlM (processTest env) {} with
    | .error e => .error e
    | .ok results =>
      .ok { results with
            TotalScore := results.ButterflyScore + results.TrianglesScore + results.OceanScore }
  else .error .executable

end MainGo

namespace SendGo

/-- Body of `for _, row := range rows` in `parseResultsAndCalculateScore` of `send.go`. -/
def sumRow (acc : Sums) (row : Row) : Sums :=
  if row.length < 5 then acc
  else
    let avgFps := ParseFloat (row.getD 3 "")
    let minFps := ParseFloat (row.getD 4 "")
    let particles := ParseFloat (row.getD 2 "")
    { avgFpsSum := acc.avgFpsSum + avgFps
      minFpsSum := acc.minFpsSum + minFps
      avgLoadSum := acc.avgLoadSum + particles }

/-- The `switch testName` of `send.go` that stores a score. -/
def saveResult (results : BenchmarkResults) (testName : String) (score : ℚ) :
    BenchmarkResults :=
  if testName = "butterfly" then { results with ButterflyScore := score }
  else if testName = "triangles" then { results with TrianglesScore := score }
  else if testName = "ocean" then { results with OceanScore := score }
  else results

/-- The part of the loop body of `send.go` after `ReadAll` succeeded with `rows`. -/
def scoreRows (results : BenchmarkResults) (testName : String) (normalizeFactor : ℚ)
    (rows : List Row) : Except ScoreError BenchmarkResults :=
  if rows.length ≤ 1 then .error (.insufficientData testName)
  else
    let rows := rows.drop 1
    let sums := rows.foldl sumRow {}
    let rowCount : ℚ := (rows.length : ℚ)
    if rowCount > 0 then
      let avgFps := sums.avgFpsSum / rowCount
      let minFps := sums.minFpsSum / rowCount
      let avgLoad := sums.avgLoadSum / rowCount
      let score := ((avgFps * 0.7 + minFps * 0.3) * avgLoad) / normalizeFactor
      .ok (saveResult results testName score)
    else .ok results

/-- One iteration of `for testName, normalizeFactor := range tests` in `send.go`. -/
def processTest (env : Env) (results : BenchmarkResults) (test : String × ℚ) :
    Except ScoreError BenchmarkResults :=
  match env.file test.1 with
  | .unopenable => .error (.openFailed test.1)
  | .records rs =>
    match ReadAll rs with
    | none => .error (.readFailed test.1)
    | some rows => scoreRows results test.1 test.2 rows

/-- The function `parseResultsAndCalculateScore` of `send.go`, with the iteration
order of its `tests` map as an argument. -/
def parseResultsAndCalculateScore (env : Env) (order : List (String × ℚ)) :
    Except ScoreError BenchmarkResults :=
  if env.executableOk then
    match order.foldlM (processTest env) {} with
    | .error e => .error e
    | .ok results =>
      .ok { results with
            TotalScore := results.ButterflyScore + results.TrianglesScore + results.OceanScore }
  else .error .executable

end SendGo

/-! ## Reading of the specification's words -/

/-- Column `k` of the data rows, each field read as a number. -/
def column (k : Nat) (data : List Row) : List ℚ :=
  data.map (fun row => ParseFloat (row.getD k ""))

/-- Unweighted arithmetic mean. -/
def mean (xs : List ℚ) : ℚ := xs.sum / (xs.length : ℚ)

/-- The score field of `results` that belongs to the test called `testName`. -/
def BenchmarkResults.scoreOf (results : BenchmarkResults) (testName : String) : ℚ :=
  if testName = "butterfly" then results.ButterflyScore
  else if testName = "triangles" then results.TrianglesScore
  else if testName = "ocean" then results.OceanScore
  else 0

/-! ## Auxiliary closed forms -/

/-- The rows the scorer gets from the log of `testName`; empty when the log cannot be
opened or read. -/
def rowsOf (env : Env) (testName : String) : List Row :=
  match env.file testName with
  | .unopenable => []
  | .records rs => (ReadAll rs).getD []

/-- The log of `testName` opens, reads, and has a row after its first. -/
def LogOk (env : Env) (testName : String) : Prop :=
  ∃ rs rows, env.file testName = .records rs ∧ ReadAll rs = some rows ∧ 1 < rows.length

/-- The score formula of the loop body applied to the rows of a log. -/
def rawScore (normalizeFactor : ℚ) (rows : List Row) : ℚ :=
  let data := rows.drop 1
  let sums := data.foldl MainGo.sumRow {}
  ((sums.avgFpsSum / (data.length : ℚ) * 0.7 + sums.minFpsSum / (data.length : ℚ) * 0.3)
      * (sums.avgLoadSum / (data.length : ℚ))) / normalizeFactor

/-- The struct a successful run returns. -/
def finalResults (env : Env) : BenchmarkResults :=
  let b := rawScore 16384000 (rowsOf env "butterfly")
  let t := rawScore 10000000 (rowsOf env "triangles")
  let o := rawScore 6 (rowsOf env "ocean")
  ⟨b, t, o, b + t + o⟩

/-- The pure update one loop iteration performs on a log that is fine. -/
def saveStep (env : Env) (r : BenchmarkResults) (t : String × ℚ) : BenchmarkResults :=
  MainGo.saveResult r t.1 (rawScore t.2 (rowsOf env t.1))

/-- The data rows the averaging loop does not skip. -/
def wellFormed (data : List Row) : List Row :=
  data.filter (fun row => decide (5 ≤ row.length))

/-! ## Decimal rounding and formatting -/

/-- Nearest integer, a tie going to the even neighbour: the rounding `strconv` applies
to the exact decimal expansion when it formats with a fixed number of digits. -/
def roundHalfEven (x : ℚ) : ℤ :=
  let q := ⌊x⌋
  let frac := x - q
  if frac < 1 / 2 then q
  else if 1 / 2 < frac then q + 1
  else if q % 2 = 0 then q else q + 1

/-- The number `x` rounded to `prec` decimal places. -/
def roundTo (prec : Nat) (x : ℚ) : ℚ :=
  (roundHalfEven (x * 10 ^ prec) : ℚ) / 10 ^ prec

/-- The `width` low decimal digits of `n`, most significant first, zero padded. -/
def fixedDigits : Nat → Nat → List Char
  | 0, _ => []
  | width + 1, n => fixedDigits width (n / 10) ++ [Nat.digitChar (n % 10)]

/-- Text of the number `n / 10 ^ prec` with exactly `prec` digits after the point
and a minus sign when `neg`. -/
def formatScaled (neg : Bool) (n : Nat) (prec : Nat) : List Char :=
  let body := Nat.toDigits 10 (n / 10 ^ prec) ++
    (if prec = 0 then [] else '.' :: fixedDigits prec (n % 10 ^ prec))
  if neg then '-' :: body else body

/-- Model of `strconv.FormatFloat(f, 'f', prec, 64)`: `f` rounded to `prec` decimal
places, a tie going to the even neighbour, written without exponent.  The argument
is the exact value of the `float64`: a Go constant such as `0.65` denotes
`roundFloat64 (65/100)`, which lies above 65/100 and is written `0.7`. -/
def FormatFloat (f : ℚ) (prec : Nat) : String :=
  String.mk (formatScaled (decide (f < 0)) (roundHalfEven (|f| * 10 ^ prec)).toNat prec)

/-- Model of `fmt.Sprintf("%f", f)`: the verb `%f` has default precision 6. -/
def SprintfF (f : ℚ) : String := FormatFloat f 6

/-- Model of `strconv.Itoa`. -/
def Itoa (i : Int) : String :=
  if i < 0 then String.mk ('-' :: Nat.toDigits 10 (-i).toNat)
  else String.mk (Nat.toDigits 10 i.toNat)

/-! ## The render loops of `tests/butterfly.go` and `tests/triangles.go`

The two loops are the same text except for the third field of a data row: the
butterfly loop writes `len(particles)`, the triangles loop `particleCounts[currentStage]`.
Clock readings are seconds since `testStart`. -/

/-- Which of the two test programs a loop belongs to. -/
inductive TestKind where
  | butterfly
  | triangles
deriving DecidableEq

/-- The constants of one test program. -/
structure Config where
  kind : TestKind
  stageTime : ℚ
  testDuration : ℚ
  particleCounts : List Nat
  header : Row

namespace Butterfly

/-- Constants of `tests/butterfly.go`. -/
def config : Config :=
  { kind := .butterfly
    stageTime := 10
    testDuration := 120
    particleCounts := [8000, 16000, 32000, 64000, 128000, 256000, 512000, 1024000,
      2048000, 4096000, 8192000, 16384000]
    header := ["Time (s)", "Stage", "Particles", "Avg FPS", "Min FPS"] }

end Butterfly

namespace Triangles

/-- Constants of `tests/triangles.go`. -/
def config : Config :=
  { kind := .triangles
    stageTime := 10
    testDuration := 60
    particleCounts := [10000, 50000, 100000, 500000, 1000000, 10000000]
    header := ["Time (s)", "Stage", "Points", "Avg FPS", "Min FPS"] }

end Triangles

/-- Run-time panics of the loop. -/
inductive Panic where
  /-- `particleCounts[i]` with `i` out of range. -/
  | particleCountsIndex
  /-- `frameTimes[0]` on an empty slice, in `maxFrameTime`. -/
  | frameTimesIndex
deriving DecidableEq

/-- Go slice indexing by an `int`: `none` stands for the out-of-range panic. -/
def index? (xs : List Nat) (i : Int) : Option Nat :=
  if i < 0 then none else xs[i.toNat]?

/-- Conversion `int(x)` of a `float64`: truncation toward zero. -/
def truncToInt (x : ℚ) : Int := if 0 ≤ x then ⌊x⌋ else ⌈x⌉

/-- The function `maxFrameTime`; `none` is the panic of `frameTimes[0]` on an empty
slice. -/
def maxFrameTime : List ℚ → Option ℚ
  | [] => none
  | first :: rest =>
    some ((first :: rest).foldl (fun max ft => if ft > max then ft else max) first)

/-- The loop `for _, ft := range frameTimes { totalFrameTime += ft }`. -/
def totalFrameTime (frameTimes : List ℚ) : ℚ :=
  frameTimes.foldl (fun total ft => total + ft) 0

/-- The value `avgFPS := float64(len(frameTimes)) / totalFrameTime`, sum and quotient
exact; `avgFPS64` is the same value with every operation rounded. -/
def avgFPS (frameTimes : List ℚ) : ℚ :=
  (frameTimes.length : ℚ) / totalFrameTime frameTimes

/-- The value `minFPS := 1.0 / maxFrameTime(frameTimes)`, the quotient exact;
`minFPS64` is the same value with the quotient rounded. -/
def minFPS (frameTimes : List ℚ) : Option ℚ :=
  (maxFrameTime frameTimes).map (fun m => 1 / m)

/-- The five values one `writer.Write` of the loop puts in a data row. -/
structure Record where
  timeElapsed : ℚ
  stage : Int
  workload : Int
  avgFPS : ℚ
  minFPS : ℚ
deriving DecidableEq

/-- The data row written for a record. -/
def Record.toRow (r : Record) : Row :=
  [FormatFloat r.timeElapsed 1, Itoa r.stage, Itoa r.workload,
   FormatFloat r.avgFPS 1, FormatFloat r.minFPS 1]

/-! ### Rounding of `float64` operations

The definitions above read the operations on `float64` as exact.  The machine rounds
the exact result of each operation to the nearest `float64`; the definitions below
carry that rounding. -/

/-- The `float64` nearest to the exact number `x`, a tie going to the even significand:
the rounding the machine applies to the exact result of every `float64` operation and
`strconv.ParseFloat` to the decimal it reads.  `|x|` is scaled by the power of two that
brings it into `[2^52, 2^53)`, rounded to an integer (the 53-bit significand) and scaled
back.  The exponent is unbounded: the function is the machine's rounding wherever the
result is a normal number or zero, and does not carry overflow to infinity or the
coarser spacing of subnormal numbers (magnitudes below `2^-1022`). -/
def roundFloat64 (x : ℚ) : ℚ :=
  if x = 0 then 0
  else
    let e : ℤ := Int.log 2 |x| - 52
    let m : ℤ := roundHalfEven (|x| / 2 ^ e)
    (if x < 0 then -1 else 1) * (m : ℚ) * 2 ^ e

/-- Model of `v, _ := strconv.ParseFloat(s, 64)` with the rounding of the result: the
`float64` nearest to the decimal number the text spells. -/
def ParseFloat64 (s : String) : ℚ := roundFloat64 (ParseFloat s)

/-- The loop `for _, ft := range frameTimes { totalFrameTime += ft }`, every addition
rounded to `float64`. -/
def totalFrameTime64 (frameTimes : List ℚ) : ℚ :=
  frameTimes.foldl (fun total ft => roundFloat64 (total + ft)) 0

/-- The value `avgFPS := float64(len(frameTimes)) / totalFrameTime` as the machine
computes it: the conversion of the length, the sum and the quotient are each rounded
to `float64`.  A zero sum, on which the machine gives an infinity or NaN, is outside
the model. -/
def avgFPS64 (frameTimes : List ℚ) : ℚ :=
  roundFloat64 (roundFloat64 (frameTimes.length : ℚ) / totalFrameTime64 frameTimes)

/-- The value `minFPS := 1.0 / maxFrameTime(frameTimes)` as the machine computes it:
the comparisons of `maxFrameTime` are exact, the quotient is rounded to `float64`.
A largest duration of zero, on which the machine gives an infinity, is outside the
model. -/
def minFPS64 (frameTimes : List ℚ) : Option ℚ :=
  (maxFrameTime frameTimes).map (fun m => roundFloat64 (1 / m))

/-- The `float64` that the decimal `0.1` denotes. -/
def tenth : ℚ := 3602879701896397 / 36028797018963968

/-- The variables of the main test loop. -/
structure LoopState where
  frameTimes : List ℚ
  currentStage : Int
  /-- Size of the current data set: `len(particles)` in the butterfly loop, the number
  of points of the current geometry in the triangles loop. -/
  workload : Nat
  lastRecordTime : ℚ
  /-- Rows handed to the CSV writer so far, header first. -/
  rows : List Row
deriving DecidableEq

/-- The clock readings and the window status of one pass through the loop. -/
structure Frame where
  /-- `window.ShouldClose()` in the loop condition. -/
  shouldClose : Bool
  /-- `time.Since(testStart).Seconds()` in the loop condition. -/
  loopTime : ℚ
  /-- `time.Since(frameStart).Seconds()`. -/
  frameTime : ℚ
  /-- `time.Since(testStart).Seconds()` after the frame. -/
  timeElapsed : ℚ
  /-- The clock when `time.Since(lastRecordTime)` is evaluated. -/
  checkTime : ℚ
  /-- The clock at `lastRecordTime = time.Now()`. -/
  recordTime : ℚ
deriving DecidableEq

/-- One flush: the slice `frameTimes` it read and the record it wrote. -/
structure Flush where
  window : List ℚ
  record : Record
deriving DecidableEq

/-- State at the start of the main test: header written, stage 0, data set of size
`particleCounts[0]`. -/
def initState (cfg : Config) : Except Panic LoopState :=
  match index? cfg.particleCounts 0 with
  | none => .error .particleCountsIndex
  | some n =>
    .ok { frameTimes := [], currentStage := 0, workload := n, lastRecordTime := 0,
          rows := [cfg.header] }

/-- The stage-update step: `newStage := int(timeElapsed / stageTime)` and the `if`
that follows it.  Returns the stage index and the size of the data set. -/
def stageUpdate (cfg : Config) (currentStage : Int) (workload : Nat) (timeElapsed : ℚ) :
    Except Panic (Int × Nat) :=
  let newStage := truncToInt (timeElapsed / cfg.stageTime)
  if newStage ≠ currentStage ∧ newStage < (cfg.particleCounts.length : Int) then
    match index? cfg.particleCounts newStage with
    | none => .error .particleCountsIndex
    | some n => .ok (newStage, n)
  else .ok (currentStage, workload)

/-- The third field of a data row. -/
def workloadField (cfg : Config) (currentStage : Int) (workload : Nat) : Except Panic Int :=
  match cfg.kind with
  | .butterfly => .ok (workload : Int)
  | .triangles =>
    match index? cfg.particleCounts currentStage with
    | none => .error .particleCountsIndex
    | some n => .ok (n : Int)

/-- The loop body from `frameTimes = append(frameTimes, frameTime)` to the end of the
iteration.  Returns the new state and the flush, if one was made. -/
def step (cfg : Config) (s : LoopState) (f : Frame) :
    Except Panic (LoopState × Option Flush) :=
  let frameTimes := s.frameTimes ++ [f.frameTime]
  match stageUpdate cfg s.currentStage s.workload f.timeElapsed with
  | .error e => .error e
  | .ok (currentStage, workload) =>
    if f.checkTime - s.lastRecordTime ≥ 0.5 then
      match maxFrameTime frameTimes with
      | none => .error .frameTimesIndex
      | some m =>
        match workloadField cfg currentStage workload with
        | .error e => .error e
        | .ok w =>
          let record : Record :=
            { timeElapsed := f.timeElapsed, stage := currentStage + 1, workload := w,
              avgFPS := avgFPS frameTimes, minFPS := 1 / m }
          .ok ({ frameTimes := [], currentStage := currentStage, workload := workload,
                 lastRecordTime := f.recordTime, rows := s.rows ++ [record.toRow] },
               some { window := frameTimes, record := record })
    else
      .ok ({ s with frameTimes := frameTimes, currentStage := currentStage,
                    workload := workload }, none)

/-- The loop `for !window.ShouldClose() && time.Since(testStart).Seconds() < testDuration`
run over the given passes; it ends at the first pass whose condition fails, or when the
passes are used up.  Returns the last state and the flushes made, oldest first. -/
def runLoop (cfg : Config) (s : LoopState) : List Frame → Except Panic (LoopState × List Flush)
  | [] => .ok (s, [])
  | f :: rest =>
    if !f.shouldClose ∧ f.loopTime < cfg.testDuration then
      match step cfg s f with
      | .error e => .error e
      | .ok (s', fl) =>
        match runLoop cfg s' rest with
        | .error e => .error e
        | .ok (s'', fls) => .ok (s'', fl.toList ++ fls)
    else .ok (s, [])

/-- The stage-update step applied to a sequence of elapsed times, one pass after the
other; returns the stage index that is active after each pass. -/
def stageRun (cfg : Config) (currentStage : Int) (workload : Nat) :
    List ℚ → Except Panic (List Int)
  | [] => .ok []
  | timeElapsed :: rest =>
    match stageUpdate cfg currentStage workload timeElapsed with
    | .error e => .error e
    | .ok (stage, load) =>
      match stageRun cfg stage load rest with
      | .error e => .error e
      | .ok stages => .ok (stage :: stages)

/-! ### The function `createGeometry` of `tests/triangles.go`

`int` is unbounded here except where it is converted to `uint32`; `float32` values are
rationals; the limits of the allocator are not modelled. -/

/-- Conversion `uint32(i)` of an `int`: the value modulo `2 ^ 32`. -/
def toUint32 (i : Int) : Nat := (i % 4294967296).toNat

/-- Ways `createGeometry` ends without returning its two slices. -/
inductive GeometryError where
  /-- Panic of `make([]float32, 0, numPoints*3)` on a negative capacity. -/
  | capOutOfRange
  /-- The index loop was cut off before its condition failed. -/
  | fuelExhausted
deriving DecidableEq

/-- The slice `vertices` after the first `count` passes of
`for i := 0; i < numPoints; i++`; `rand k` is the value the `k`-th call of
`rand.Float32()` returns. -/
def vertexLoop (rand : Nat → ℚ) : Nat → List ℚ
  | 0 => []
  | i + 1 =>
    let x := (rand (3 * i) - 0.5) * 10.0
    let y := (rand (3 * i + 1) - 0.5) * 10.0
    let z := (rand (3 * i + 2) - 0.5) * 10.0
    vertexLoop rand i ++ [x, y, z]

/-- The loop `for i := 0; i < numPoints-2; i += 3` continued from the loop variable `i`
and the slice `indices`, for at most `fuel` passes; `none` when the passes are used up
while the condition still holds. -/
def indexLoop (numPoints : Int) : Nat → Int → List Nat → Option (List Nat)
  | 0, i, indices => if i < numPoints - 2 then none else some indices
  | fuel + 1, i, indices =>
    if i < numPoints - 2 then
      indexLoop numPoints fuel (i + 3)
        (indices ++ [toUint32 i, toUint32 (i + 1), toUint32 (i + 2)])
    else some indices

/-- The function `createGeometry`: the vertex slice and the index slice. -/
def createGeometry (rand : Nat → ℚ) (numPoints : Int) :
    Except GeometryError (List ℚ × List Nat) :=
  if numPoints * 3 < 0 then .error .capOutOfRange
  else
    let vertices := vertexLoop rand numPoints.toNat
    match indexLoop numPoints (numPoints.toNat + 1) 0 [] with
    | none => .error .fuelExhausted
    | some indices => .ok (vertices, indices)

/-! ## Hand-over from `main.go` to `send.go` -/

namespace MainGo

/-- The argument vector of the `send.exe` process that `main.go` starts with
`exec.Command(sendPath, ...)`: the program path followed by the four scores printed
with `%f` and the three hardware strings. -/
def sendArgs (sendPath : String) (results : BenchmarkResults)
    (gpuName vramSize openGLVersion : String) : List String :=
  [sendPath, SprintfF results.ButterflyScore, SprintfF results.TrianglesScore,
   SprintfF results.OceanScore, SprintfF results.TotalScore, gpuName, vramSize, openGLVersion]

end MainGo

/-- The struct `FpsEntry` of `send.go`. -/
structure FpsEntry where
  Time : ℚ
  Fps : ℚ
deriving DecidableEq

/-- The anonymous struct `parseFPSResults` stores per test. -/
structure FpsStats where
  Avg : ℚ := 0
  Min : ℚ := 0
  AvgHistory : List FpsEntry := []
  MinHistory : List FpsEntry := []
deriving DecidableEq

/-- The accumulators of the row loop of `parseFPSResults`. -/
structure FpsAcc where
  avgFpsSum : ℚ := 0
  minFpsSum : ℚ := 0
  avgFpsHistory : List FpsEntry := []
  minFpsHistory : List FpsEntry := []
deriving DecidableEq

/-- The struct `BenchmarkResult` of `send.go`; `CreatedAt` is a clock reading. -/
structure BenchmarkResult where
  GpuName : String
  VramSize : String
  DriverVersion : String
  WindowsVersion : String
  UsesWine : Bool
  ButterflyScore : ℚ
  TrianglesScore : ℚ
  OceanScore : ℚ
  TotalScore : ℚ
  ButterflyAvgFps : ℚ
  ButterflyMinFps : ℚ
  TrianglesAvgFps : ℚ
  TrianglesMinFps : ℚ
  OceanAvgFps : ℚ
  OceanMinFps : ℚ
  ButterflyAvgFpsHistory : List FpsEntry
  ButterflyMinFpsHistory : List FpsEntry
  TrianglesAvgFpsHistory : List FpsEntry
  TrianglesMinFpsHistory : List FpsEntry
  OceanAvgFpsHistory : List FpsEntry
  OceanMinFpsHistory : List FpsEntry
  RamSize : String
  CpuName : String
  CreatedAt : Nat
deriving DecidableEq

/-- What `getSystemInfo`, `getWindowsVersion`, `isWineUsed` and `time.Now` report. -/
structure SystemInfo where
  gpuName : String
  vramSize : String
  driverVersion : String
  ramSize : String
  cpuName : String
  windowsVersion : String
  usesWine : Bool
  now : Nat

/-- Ways `main` of `send.go` ends without a `BenchmarkResult`. -/
inductive MainExit where
  /-- The guard `len(os.Args) < 5`. -/
  | insufficientArguments
  /-- Panic of `os.Args[i]` with `i` out of range. -/
  | argsIndex
  /-- Failure of `parseFPSResults`. -/
  | fpsFailed (e : ScoreError)
deriving DecidableEq

namespace SendGo

/-- Body of `for _, row := range rows` in `parseFPSResults`. -/
def fpsRow (acc : FpsAcc) (row : Row) : FpsAcc :=
  if row.length < 5 then acc
  else
    let timeSec := ParseFloat (row.getD 0 "")
    let avgFps := ParseFloat (row.getD 3 "")
    let minFps := ParseFloat (row.getD 4 "")
    { avgFpsSum := acc.avgFpsSum + avgFps
      minFpsSum := acc.minFpsSum + minFps
      avgFpsHistory := acc.avgFpsHistory ++ [{ Time := timeSec, Fps := avgFps }]
      minFpsHistory := acc.minFpsHistory ++ [{ Time := timeSec, Fps := minFps }] }

/-- The part of the loop body of `parseFPSResults` after `ReadAll` succeeded with `rows`;
the map is a list of key-value pairs. -/
def fpsRows (fpsResults : List (String × FpsStats)) (testName : String) (rows : List Row) :
    Except ScoreError (List (String × FpsStats)) :=
  if rows.length ≤ 1 then .error (.insufficientData testName)
  else
    let rows := rows.drop 1
    let acc := rows.foldl fpsRow {}
    let rowCount : ℚ := (rows.length : ℚ)
    if rowCount > 0 then
      .ok (fpsResults.filter (fun kv => kv.1 != testName) ++
        [(testName, { Avg := acc.avgFpsSum / rowCount, Min := acc.minFpsSum / rowCount,
                      AvgHistory := acc.avgFpsHistory, MinHistory := acc.minFpsHistory })])
    else .ok fpsResults

/-- One iteration of `for _, testName := range tests` in `parseFPSResults`. -/
def fpsTest (env : Env) (fpsResults : List (String × FpsStats)) (testName : String) :
    Except ScoreError (List (String × FpsStats)) :=
  match env.file testName with
  | .unopenable => .error (.openFailed testName)
  | .records rs =>
    match ReadAll rs with
    | none => .error (.readFailed testName)
    | some rows => fpsRows fpsResults testName rows

/-- The function `parseFPSResults` of `send.go`. -/
def parseFPSResults (env : Env) : Except ScoreError (List (String × FpsStats)) :=
  if env.executableOk then
    ["butterfly", "triangles", "ocean"].foldlM (fpsTest env) []
  else .error .executable

/-- Map read `fpsResults[testName]`: the zero value when the key is absent. -/
def fpsOf (fpsResults : List (String × FpsStats)) (testName : String) : FpsStats :=
  match fpsResults.find? (fun kv => kv.1 == testName) with
  | some kv => kv.2
  | none => {}

/-- Read of `os.Args[i]`. -/
def arg (args : List String) (i : Nat) : Except MainExit String :=
  match args[i]? with
  | some a => .ok a
  | none => .error .argsIndex

/-- The struct literal `benchmarkData := BenchmarkResult{...}` of `main` in `send.go`. -/
def benchmarkData (sys : SystemInfo) (butterflyScore trianglesScore oceanScore totalScore : ℚ)
    (fpsResults : List (String × FpsStats)) : BenchmarkResult :=
  { GpuName := sys.gpuName
    VramSize := sys.vramSize
    DriverVersion := sys.driverVersion
    WindowsVersion := sys.windowsVersion
    UsesWine := sys.usesWine
    ButterflyScore := butterflyScore
    TrianglesScore := trianglesScore
    OceanScore := oceanScore
    TotalScore := totalScore
    ButterflyAvgFps := (fpsOf fpsResults "butterfly").Avg
    ButterflyMinFps := (fpsOf fpsResults "butterfly").Min
    TrianglesAvgFps := (fpsOf fpsResults "triangles").Avg
    TrianglesMinFps := (fpsOf fpsResults "triangles").Min
    OceanAvgFps := (fpsOf fpsResults "ocean").Avg
    OceanMinFps := (fpsOf fpsResults "ocean").Min
    ButterflyAvgFpsHistory := (fpsOf fpsResults "butterfly").AvgHistory
    ButterflyMinFpsHistory := (fpsOf fpsResults "butterfly").MinHistory
    TrianglesAvgFpsHistory := (fpsOf fpsResults "triangles").AvgHistory
    TrianglesMinFpsHistory := (fpsOf fpsResults "triangles").MinHistory
    OceanAvgFpsHistory := (fpsOf fpsResults "ocean").AvgHistory
    OceanMinFpsHistory := (fpsOf fpsResults "ocean").MinHistory
    RamSize := sys.ramSize
    CpuName := sys.cpuName
    CreatedAt := sys.now }

/-- The function `main` of `send.go` up to the assembly of `benchmarkData`, the struct
it then saves and sends.  `args` is `os.Args`. -/
def main (env : Env) (sys : SystemInfo) (args : List String) : Except MainExit BenchmarkResult :=
  if args.length < 5 then .error .insufficientArguments
  else do
    let butterflyScore := ParseFloat (← arg args 1)
    let trianglesScore := ParseFloat (← arg args 2)
    let oceanScore := ParseFloat (← arg args 3)
    let totalScore := ParseFloat (← arg args 4)
    let _ ← arg args 5
    let _ ← arg args 6
    let _ ← arg args 7
    match parseFPSResults env with
    | .error e => .error (.fpsFailed e)
    | .ok fpsResults =>
      .ok (benchmarkData sys butterflyScore trianglesScore oceanScore totalScore fpsResults)

end SendGo

/-- The entry `parseFPSResults` stores for a log with the given rows. -/
def fpsStatsOf (rows : List Row) : FpsStats :=
  let data := rows.drop 1
  { Avg := (column 3 (wellFormed data)).sum / (data.length : ℚ)
    Min := (column 4 (wellFormed data)).sum / (data.length : ℚ)
    AvgHistory := (wellFormed data).map fun row =>
      { Time := ParseFloat (row.getD 0 ""), Fps := ParseFloat (row.getD 3 "") }
    MinHistory := (wellFormed data).map fun row =>
      { Time := ParseFloat (row.getD 0 ""), Fps := ParseFloat (row.getD 4 "") } }

/-- A system report used in examples. -/
def exampleSystem : SystemInfo :=
  { gpuName := "GPU", vramSize := "8192", driverVersion := "1.0", ramSize := "16384",
    cpuName := "CPU", windowsVersion := "Windows (19045)", usesWine := false, now := 0 }

/-! ## Concrete logs used as examples -/

/-- The header row `butterfly.go` writes. -/
def butterflyHeader : Row := ["Time (s)", "Stage", "Particles", "Avg FPS", "Min FPS"]

/-- The single data row of the specification's scoring example. -/
def exampleRow : Row := ["5.0", "1", "8000", "100.0", "90.0"]

/-- An environment in which the executable path resolves and the three logs hold the
given records. -/
def envOf (butterfly triangles ocean : List Row) : Env :=
  { executableOk := true
    file := fun testName =>
      if testName = "butterfly" then .records butterfly
      else if testName = "triangles" then .records triangles
      else .records ocean }

/-- A pass of the butterfly loop, half a second into the test, used in examples. -/
def exampleFrame : Frame :=
  { shouldClose := false, loopTime := 49/100, frameTime := 1/50, timeElapsed := 51/100,
    checkTime := 51/100, recordTime := 52/100 }

/-- The butterfly loop before its first pass. -/
def exampleStart : LoopState :=
  { frameTimes := [], currentStage := 0, workload := 8000, lastRecordTime := 0,
    rows := [Butterfly.config.header] }

/-- The record the butterfly loop flushes in the pass `exampleFrame` from `exampleStart`. -/
def exampleRecord : Record :=
  { timeElapsed := 51/100, stage := 1, workload := 8000, avgFPS := 50, minFPS := 50 }

/-- The butterfly loop after the pass `exampleFrame` from `exampleStart`. -/
def exampleEnd : LoopState :=
  { frameTimes := [], currentStage := 0, workload := 8000, lastRecordTime := 52/100,
    rows := [Butterfly.config.header, ["0.5", "1", "8000", "50.0", "50.0"]] }

/-! ## Lemmas on the scoring loop -/

theorem SendGo.parse_eq_main :
    SendGo.parseResultsAndCalculateScore = MainGo.parseResultsAndCalculateScore := rfl

theorem readAll_eq {rs rows : List Row} (h : ReadAll rs = some rows) : rows = rs := by
  cases rs with
  | nil =>
    simp only [ReadAll, Option.some.injEq] at h
    exact h.symm
  | cons first rest =>
    simp only [ReadAll] at h
    split at h
    · simp only [Option.some.injEq] at h
      exact h.symm
    · cases h

theorem scoreRows_eq (results : BenchmarkResults) (name : String) (nf : ℚ) (rows : List Row)
    (h : 1 < rows.length) :
    MainGo.scoreRows results name nf rows
      = .ok (MainGo.saveResult results name (rawScore nf rows)) := by
  have h1 : ¬ rows.length ≤ 1 := by omega
  have h2 : ((rows.drop 1).length : ℚ) > 0 := by
    have : 0 < (rows.drop 1).length := by simp; omega
    exact_mod_cast this
  unfold MainGo.scoreRows
  rw [if_neg h1]
  simp only [h2, if_true, rawScore]

theorem processTest_ok_iff (env : Env) (r r' : BenchmarkResults) (t : String × ℚ) :
    MainGo.processTest env r t = .ok r' ↔
      LogOk env t.1 ∧ r' = MainGo.saveResult r t.1 (rawScore t.2 (rowsOf env t.1)) := by
  unfold MainGo.processTest LogOk rowsOf
  cases hf : env.file t.1 with
  | unopenable => simp
  | records rs =>
    cases hr : ReadAll rs with
    | none => simp [hr]
    | some rows =>
      by_cases hl : 1 < rows.length
      · simp [hr, scoreRows_eq _ _ _ _ hl, hl, eq_comm]
      · have h1 : rows.length ≤ 1 := by omega
        simp [hr, MainGo.scoreRows, h1, hl]

theorem foldlM_ok_iff (env : Env) (order : List (String × ℚ)) (r r' : BenchmarkResults) :
    order.foldlM (MainGo.processTest env) r = .ok r' ↔
      (∀ t ∈ order, LogOk env t.1) ∧ r' = order.foldl (saveStep env) r := by
  induction order generalizing r with
  | nil =>
    simp only [List.foldlM_nil, List.foldl_nil, List.not_mem_nil, false_implies, implies_true,
      true_and]
    constructor
    · intro h
      cases h
      rfl
    · intro h
      rw [h]
      rfl
  | cons t rest ih =>
    rw [List.foldlM_cons]
    cases hp : MainGo.processTest env r t with
    | error e =>
      have hno : ¬ LogOk env t.1 := by
        intro hok
        have := (processTest_ok_iff env r _ t).2 ⟨hok, rfl⟩
        rw [hp] at this
        cases this
      constructor
      · intro h
        cases h
      · intro h
        exact absurd (h.1 t (List.mem_cons_self _ _)) hno
    | ok r1 =>
      have h1 := (processTest_ok_iff env r r1 t).1 hp
      have hb : ∀ g : BenchmarkResults → Except ScoreError BenchmarkResults,
          (Except.ok r1 >>= g) = g r1 := fun _ => rfl
      rw [hb, ih r1, List.foldl_cons]
      have hs : saveStep env r t = r1 := h1.2.symm
      rw [hs]
      constructor
      · rintro ⟨ha, hr⟩
        refine ⟨?_, hr⟩
        intro u hu
        rcases List.mem_cons.1 hu with rfl | hu
        · exact h1.1
        · exact ha u hu
      · rintro ⟨ha, hr⟩
        exact ⟨fun u hu => ha u (List.mem_cons_of_mem _ hu), hr⟩

theorem tests_permutations :
    tests.permutations =
      [[("butterfly", 16384000), ("ocean", 6), ("triangles", 10000000)],
       [("ocean", 6), ("butterfly", 16384000), ("triangles", 10000000)],
       [("triangles", 10000000), ("ocean", 6), ("butterfly", 16384000)],
       [("ocean", 6), ("triangles", 10000000), ("butterfly", 16384000)],
       [("triangles", 10000000), ("butterfly", 16384000), ("ocean", 6)],
       [("butterfly", 16384000), ("triangles", 10000000), ("ocean", 6)]] := by
  decide!

theorem foldl_saveStep_perm (env : Env) (order : List (String × ℚ)) (h : order.Perm tests) :
    order.foldl (saveStep env) {} =
      ⟨rawScore 16384000 (rowsOf env "butterfly"), rawScore 10000000 (rowsOf env "triangles"),
        rawScore 6 (rowsOf env "ocean"), 0⟩ := by
  have hm : order ∈ tests.permutations := List.mem_permutations.2 h
  rw [tests_permutations] at hm
  simp only [List.mem_cons, List.mem_singleton, List.not_mem_nil, or_false] at hm
  rcases hm with rfl | rfl | rfl | rfl | rfl | rfl <;>
    simp [saveStep, MainGo.saveResult]

/-- Closed form of `parseResultsAndCalculateScore` under any iteration order of the
`tests` map. -/
theorem parse_ok_iff (env : Env) (order : List (String × ℚ)) (h : order.Perm tests)
    (r : BenchmarkResults) :
    MainGo.parseResultsAndCalculateScore env order = .ok r ↔
      env.executableOk = true ∧ (∀ t ∈ tests, LogOk env t.1) ∧ r = finalResults env := by
  unfold MainGo.parseResultsAndCalculateScore
  cases he : env.executableOk with
  | false => simp
  | true =>
    simp only [if_true, true_and]
    have hmem : (∀ t ∈ order, LogOk env t.1) ↔ (∀ t ∈ tests, LogOk env t.1) :=
      ⟨fun ha t ht => ha t (h.mem_iff.2 ht), fun ha t ht => ha t (h.mem_iff.1 ht)⟩
    cases hf : order.foldlM (MainGo.processTest env) {} with
    | error e =>
      have hno : ¬ (∀ t ∈ order, LogOk env t.1) := by
        intro ha
        have := (foldlM_ok_iff env order {} _).2 ⟨ha, rfl⟩
        rw [hf] at this
        cases this
      constructor
      · intro hc
        cases hc
      · intro hc
        exact absurd (hmem.2 hc.1) hno
    | ok r1 =>
      have h1 := (foldlM_ok_iff env order {} r1).1 hf
      rw [foldl_saveStep_perm env order h] at h1
      constructor
      · intro hc
        refine ⟨hmem.1 h1.1, ?_⟩
        cases hc
        rw [h1.2]
        simp [finalResults]
      · intro hc
        rw [hc.2, h1.2]
        simp [finalResults]

theorem foldl_sumRow (data : List Row) (acc : Sums) :
    data.foldl MainGo.sumRow acc =
      ⟨acc.avgFpsSum + (column 3 (wellFormed data)).sum,
       acc.minFpsSum + (column 4 (wellFormed data)).sum,
       acc.avgLoadSum + (column 2 (wellFormed data)).sum⟩ := by
  induction data generalizing acc with
  | nil => simp [wellFormed, column]
  | cons row rest ih =>
    rw [List.foldl_cons, ih]
    by_cases h : row.length < 5
    · have h5 : ¬ 5 ≤ row.length := by omega
      simp [MainGo.sumRow, h, wellFormed, h5]
    · have h5 : 5 ≤ row.length := by omega
      simp [MainGo.sumRow, h, wellFormed, h5, column, add_assoc]

theorem wellFormed_eq_self (data : List Row) (h : ∀ row ∈ data, 5 ≤ row.length) :
    wellFormed data = data := by
  unfold wellFormed
  rw [List.filter_eq_self]
  intro row hrow
  simpa using h row hrow

theorem rawScore_cons (nf : ℚ) (hdr : Row) (data : List Row) :
    rawScore nf (hdr :: data) =
      (((column 3 (wellFormed data)).sum / (data.length : ℚ) * 0.7
          + (column 4 (wellFormed data)).sum / (data.length : ℚ) * 0.3)
        * ((column 2 (wellFormed data)).sum / (data.length : ℚ))) / nf := by
  simp [rawScore, foldl_sumRow]

theorem rowsOf_eq (env : Env) (name : String) (rs : List Row)
    (hf : env.file name = .records rs) (hok : LogOk env name) : rowsOf env name = rs := by
  obtain ⟨rs', rows, h1, h2, _⟩ := hok
  rw [hf] at h1
  cases h1
  have := readAll_eq h2
  subst this
  simp [rowsOf, hf, h2]

theorem scoreOf_finalResults (env : Env) (name : String) (nf : ℚ) (h : (name, nf) ∈ tests) :
    (finalResults env).scoreOf name = rawScore nf (rowsOf env name) := by
  simp only [tests, List.mem_cons, Prod.mk.injEq, List.mem_singleton, List.not_mem_nil,
    or_false] at h
  rcases h with ⟨rfl, rfl⟩ | ⟨rfl, rfl⟩ | ⟨rfl, rfl⟩ <;>
    simp [finalResults, BenchmarkResults.scoreOf]

theorem foldlM_error (env : Env) (order : List (String × ℚ)) (r : BenchmarkResults)
    (e : ScoreError) (h : order.foldlM (MainGo.processTest env) r = .error e) :
    ∃ t ∈ order, ∃ r', MainGo.processTest env r' t = .error e := by
  induction order generalizing r with
  | nil => cases h
  | cons t rest ih =>
    rw [List.foldlM_cons] at h
    cases hp : MainGo.processTest env r t with
    | error e' =>
      rw [hp] at h
      cases h
      exact ⟨t, List.mem_cons_self _ _, r, hp⟩
    | ok r1 =>
      rw [hp] at h
      obtain ⟨u, hu, r', hr'⟩ := ih r1 h
      exact ⟨u, List.mem_cons_of_mem _ hu, r', hr'⟩

theorem logOk_iff (env : Env) (name : String) (rs : List Row)
    (hf : env.file name = .records rs) (hr : ReadAll rs ≠ none) :
    LogOk env name ↔ 1 < rs.length := by
  obtain ⟨rows, hrows⟩ := Option.ne_none_iff_exists'.1 hr
  have := readAll_eq hrows
  subst this
  constructor
  · rintro ⟨rs', rows', h1, h2, h3⟩
    rw [hf] at h1
    cases h1
    rw [hrows] at h2
    cases h2
    exact h3
  · intro h
    exact ⟨rows, rows, hf, hrows, h⟩

theorem parse_cases (env : Env) (order : List (String × ℚ)) :
    (∃ e, MainGo.parseResultsAndCalculateScore env order = .error e) ↔
      ¬ ∃ r, MainGo.parseResultsAndCalculateScore env order = .ok r := by
  cases h : MainGo.parseResultsAndCalculateScore env order with
  | error e => simp
  | ok r => simp

/-! ## Claims on the scoring engine -/

/-- C1: when every row after the header has at least five fields, a successful run
of `parseResultsAndCalculateScore` (the copy of `main.go` and the copy of `send.go`,
under any iteration order of the `tests` map) leaves in that test's score field the value
`((meanAvgFps * 0.7 + meanMinFps * 0.3) * meanWorkload) / normalizeFactor`, the
means being the unweighted arithmetic means of columns 3, 4 and 2 over all data
rows (a run that succeeds has at least one data row in every log). -/
theorem score_is_weighted_mean_formula (env : Env) (order : List (String × ℚ))
    (r : BenchmarkResults) (name : String) (nf : ℚ) (hdr : Row) (data : List Row)
    (horder : order.Perm tests) (htest : (name, nf) ∈ tests)
    (hfile : env.file name = .records (hdr :: data))
    (hwf : ∀ row ∈ data, 5 ≤ row.length)
    (hrun : MainGo.parseResultsAndCalculateScore env order = .ok r) :
    SendGo.parseResultsAndCalculateScore env order = .ok r ∧
    r.scoreOf name =
      ((mean (column 3 data) * 0.7 + mean (column 4 data) * 0.3) * mean (column 2 data)) / nf := by
  refine ⟨by rw [SendGo.parse_eq_main]; exact hrun, ?_⟩
  obtain ⟨_, hlogs, rfl⟩ := (parse_ok_iff env order horder r).1 hrun
  have hok : LogOk env name := hlogs (name, nf) htest
  rw [scoreOf_finalResults env name nf htest, rowsOf_eq env name _ hfile hok, rawScore_cons,
    wellFormed_eq_self data hwf]
  simp [mean, column]

theorem score_is_weighted_mean_formula_witness :
    SendGo.parseResultsAndCalculateScore
        (envOf [butterflyHeader, exampleRow] [butterflyHeader, exampleRow]
          [butterflyHeader, exampleRow]) tests
      = .ok ⟨97/2048, 97/1250, 388000/3, 97/2048 + 97/1250 + 388000/3⟩ ∧
    (BenchmarkResults.mk (97/2048) (97/1250) (388000/3) (97/2048 + 97/1250 + 388000/3)).scoreOf
        "butterfly" =
      ((mean (column 3 [exampleRow]) * 0.7 + mean (column 4 [exampleRow]) * 0.3)
        * mean (column 2 [exampleRow])) / 16384000 :=
  score_is_weighted_mean_formula
    (envOf [butterflyHeader, exampleRow] [butterflyHeader, exampleRow]
      [butterflyHeader, exampleRow]) tests
    ⟨97/2048, 97/1250, 388000/3, 97/2048 + 97/1250 + 388000/3⟩ "butterfly" 16384000
    butterflyHeader [exampleRow] (List.Perm.refl _) (by decide!) rfl (by decide) (by decide!)

theorem rawScore_example : rawScore 16384000 [butterflyHeader, exampleRow] = 97 / 2048 := by
  decide!

/-- C2 (amended): for the butterfly log made of the header and the single data row
`(5.0, 1, 8000, 100.0, 90.0)`, scored with normalize factor 16384000, a successful
run stores the butterfly score `((100*0.7+90*0.3)*8000)/16384000`, and that value
rounded to five decimal places is 0.04736. -/
theorem butterfly_example_score (env : Env) (order : List (String × ℚ)) (r : BenchmarkResults)
    (horder : order.Perm tests)
    (hfile : env.file "butterfly" = .records [butterflyHeader, exampleRow])
    (hrun : MainGo.parseResultsAndCalculateScore env order = .ok r) :
    r.ButterflyScore = ((100 * 0.7 + 90 * 0.3) * 8000) / 16384000 ∧
    roundTo 5 r.ButterflyScore = 0.04736 := by
  obtain ⟨_, hlogs, rfl⟩ := (parse_ok_iff env order horder r).1 hrun
  have hok : LogOk env "butterfly" := hlogs ("butterfly", 16384000) (by decide!)
  have hb : (finalResults env).ButterflyScore = 97 / 2048 := by
    show rawScore 16384000 (rowsOf env "butterfly") = 97 / 2048
    rw [rowsOf_eq env "butterfly" _ hfile hok, rawScore_example]
  rw [hb]
  constructor
  · norm_num
  · decide!

theorem butterfly_example_score_witness :
    (BenchmarkResults.mk (97/2048) (97/1250) (388000/3)
        (97/2048 + 97/1250 + 388000/3)).ButterflyScore
      = ((100 * 0.7 + 90 * 0.3) * 8000) / 16384000 ∧
    roundTo 5 (BenchmarkResults.mk (97/2048) (97/1250) (388000/3)
        (97/2048 + 97/1250 + 388000/3)).ButterflyScore = 0.04736 :=
  butterfly_example_score
    (envOf [butterflyHeader, exampleRow] [butterflyHeader, exampleRow]
      [butterflyHeader, exampleRow]) tests
    ⟨97/2048, 97/1250, 388000/3, 97/2048 + 97/1250 + 388000/3⟩
    (List.Perm.refl _) rfl (by decide!)

/-- C2 (as stated, refuted): on the example log the run succeeds with butterfly score
`97/2048 = 0.04736328125`; it is the value of the formula, but its rounding to five
decimal places is not 0.04768 (it is even more than 0.0003 away from 0.04768). -/
theorem butterfly_example_not_04768 :
    MainGo.parseResultsAndCalculateScore
        (envOf [butterflyHeader, exampleRow] [butterflyHeader, exampleRow]
          [butterflyHeader, exampleRow]) tests
      = .ok ⟨97/2048, 97/1250, 388000/3, 97/2048 + 97/1250 + 388000/3⟩ ∧
    ¬ ((97/2048 : ℚ) = ((100 * 0.7 + 90 * 0.3) * 8000) / 16384000 ∧
        roundTo 5 (97/2048) = 0.04768) ∧
    (0.0003 : ℚ) < |97/2048 - 0.04768| := by
  refine ⟨by decide!, ?_, ?_⟩
  · rintro ⟨_, h⟩
    revert h
    decide!
  · rw [abs_of_neg (by norm_num)]
    norm_num

/-- C3: given three readable record logs (each opens and `ReadAll` succeeds on it),
`parseResultsAndCalculateScore` of `main.go`, and equally the copy of `send.go`, returns
an error if and only if at least one log has one row or fewer, and the error then is
the insufficient-data error; so a header-only log never yields a successful run. -/
theorem error_iff_some_log_short (env : Env) (order : List (String × ℚ))
    (rb rt ro : List Row)
    (horder : order.Perm tests) (hexe : env.executableOk = true)
    (hb : env.file "butterfly" = .records rb) (ht : env.file "triangles" = .records rt)
    (ho : env.file "ocean" = .records ro)
    (hrb : ReadAll rb ≠ none) (hrt : ReadAll rt ≠ none) (hro : ReadAll ro ≠ none) :
    SendGo.parseResultsAndCalculateScore env order
      = MainGo.parseResultsAndCalculateScore env order ∧
    ((∃ e, MainGo.parseResultsAndCalculateScore env order = .error e) ↔
      (rb.length ≤ 1 ∨ rt.length ≤ 1 ∨ ro.length ≤ 1)) ∧
    (∀ e, MainGo.parseResultsAndCalculateScore env order = .error e →
      ∃ name, e = .insufficientData name) := by
  have hB := logOk_iff env "butterfly" rb hb hrb
  have hT := logOk_iff env "triangles" rt ht hrt
  have hO := logOk_iff env "ocean" ro ho hro
  have hall : (∀ t ∈ tests, LogOk env t.1) ↔ (1 < rb.length ∧ 1 < rt.length ∧ 1 < ro.length) := by
    simp only [tests, List.mem_cons, List.mem_singleton, List.not_mem_nil, or_false,
      forall_eq_or_imp, forall_eq, hB, hO, hT]
    tauto
  refine ⟨by rw [SendGo.parse_eq_main], ?_, ?_⟩
  · rw [parse_cases]
    constructor
    · intro hno
      by_contra hc
      apply hno
      refine ⟨finalResults env, (parse_ok_iff env order horder _).2 ⟨hexe, hall.2 ?_, rfl⟩⟩
      omega
    · rintro hshort ⟨r, hr⟩
      have := hall.1 ((parse_ok_iff env order horder r).1 hr).2.1
      omega
  · intro e he
    unfold MainGo.parseResultsAndCalculateScore at he
    rw [hexe] at he
    simp only [if_true] at he
    cases hf : order.foldlM (MainGo.processTest env) {} with
    | ok r1 =>
      rw [hf] at he
      cases he
    | error e' =>
      rw [hf] at he
      cases he
      obtain ⟨t, htm, r', hr'⟩ := foldlM_error env order {} e hf
      have hfile : ∃ rs, env.file t.1 = .records rs ∧ ReadAll rs ≠ none := by
        have htm' := horder.mem_iff.1 htm
        simp only [tests, List.mem_cons, List.mem_singleton, List.not_mem_nil, or_false] at htm'
        rcases htm' with rfl | rfl | rfl
        · exact ⟨rb, hb, hrb⟩
        · exact ⟨ro, ho, hro⟩
        · exact ⟨rt, ht, hrt⟩
      obtain ⟨rs, hfs, hrs⟩ := hfile
      obtain ⟨rows, hrows⟩ := Option.ne_none_iff_exists'.1 hrs
      unfold MainGo.processTest at hr'
      simp only [hfs, hrows] at hr'
      by_cases hl : 1 < rows.length
      · rw [scoreRows_eq _ _ _ _ hl] at hr'
        cases hr'
      · have h1 : rows.length ≤ 1 := by omega
        unfold MainGo.scoreRows at hr'
        rw [if_pos h1] at hr'
        cases hr'
        exact ⟨t.1, rfl⟩

theorem error_iff_some_log_short_witness :
    SendGo.parseResultsAndCalculateScore
        (envOf [butterflyHeader] [butterflyHeader, exampleRow] [butterflyHeader, exampleRow]) tests
      = MainGo.parseResultsAndCalculateScore
        (envOf [butterflyHeader] [butterflyHeader, exampleRow] [butterflyHeader, exampleRow]) tests ∧
    ((∃ e, MainGo.parseResultsAndCalculateScore
        (envOf [butterflyHeader] [butterflyHeader, exampleRow] [butterflyHeader, exampleRow]) tests
          = .error e) ↔
      ([butterflyHeader].length ≤ 1 ∨ [butterflyHeader, exampleRow].length ≤ 1 ∨
        [butterflyHeader, exampleRow].length ≤ 1)) ∧
    (∀ e, MainGo.parseResultsAndCalculateScore
        (envOf [butterflyHeader] [butterflyHeader, exampleRow] [butterflyHeader, exampleRow]) tests
          = .error e → ∃ name, e = .insufficientData name) :=
  error_iff_some_log_short
    (envOf [butterflyHeader] [butterflyHeader, exampleRow] [butterflyHeader, exampleRow]) tests
    [butterflyHeader] [butterflyHeader, exampleRow] [butterflyHeader, exampleRow]
    (List.Perm.refl _) rfl rfl rfl rfl (by decide) (by decide) (by decide)

/-- C4 (the code at a failing input): a butterfly log with the header, one well-formed
row and one two-field row.  `ReadAll` rejects the file for its uneven field count, so
the run of `main.go` and of `send.go` fails with a read error instead of skipping the
short row.  Were the same rows to reach the averaging loop, the short row would be left
out of the sums but still counted in the divisor: the score would be `97/8192`, a
quarter of the `97/2048` obtained with the short row removed. -/
theorem short_row_is_fatal_and_counted :
    MainGo.parseResultsAndCalculateScore
        (envOf [butterflyHeader, exampleRow, ["5.5", "1"]] [butterflyHeader, exampleRow]
          [butterflyHeader, exampleRow]) tests = .error (.readFailed "butterfly") ∧
    SendGo.parseResultsAndCalculateScore
        (envOf [butterflyHeader, exampleRow, ["5.5", "1"]] [butterflyHeader, exampleRow]
          [butterflyHeader, exampleRow]) tests = .error (.readFailed "butterfly") ∧
    MainGo.scoreRows {} "butterfly" 16384000 [butterflyHeader, exampleRow, ["5.5", "1"]]
      = .ok ⟨97/8192, 0, 0, 0⟩ ∧
    MainGo.scoreRows {} "butterfly" 16384000 [butterflyHeader, exampleRow]
      = .ok ⟨97/2048, 0, 0, 0⟩ := by
  refine ⟨by decide!, by decide!, by decide!, by decide!⟩

/-- C5: whenever `parseResultsAndCalculateScore` (of `main.go` or of `send.go`)
succeeds, the returned `TotalScore` is `ButterflyScore + TrianglesScore + OceanScore`
of the same returned struct. -/
theorem total_is_sum_of_scores (env : Env) (order : List (String × ℚ)) (r : BenchmarkResults)
    (h : MainGo.parseResultsAndCalculateScore env order = .ok r ∨
      SendGo.parseResultsAndCalculateScore env order = .ok r) :
    r.TotalScore = r.ButterflyScore + r.TrianglesScore + r.OceanScore := by
  have hm : MainGo.parseResultsAndCalculateScore env order = .ok r := by
    rcases h with h | h
    · exact h
    · rw [SendGo.parse_eq_main] at h
      exact h
  unfold MainGo.parseResultsAndCalculateScore at hm
  split at hm
  · split at hm
    · cases hm
    · cases hm
      rfl
  · cases hm

theorem total_is_sum_of_scores_witness :
    (BenchmarkResults.mk (97/2048) (97/1250) (388000/3)
        (97/2048 + 97/1250 + 388000/3)).TotalScore
      = (BenchmarkResults.mk (97/2048) (97/1250) (388000/3)
          (97/2048 + 97/1250 + 388000/3)).ButterflyScore
        + (BenchmarkResults.mk (97/2048) (97/1250) (388000/3)
          (97/2048 + 97/1250 + 388000/3)).TrianglesScore
        + (BenchmarkResults.mk (97/2048) (97/1250) (388000/3)
          (97/2048 + 97/1250 + 388000/3)).OceanScore :=
  total_is_sum_of_scores
    (envOf [butterflyHeader, exampleRow] [butterflyHeader, exampleRow]
      [butterflyHeader, exampleRow]) tests
    ⟨97/2048, 97/1250, 388000/3, 97/2048 + 97/1250 + 388000/3⟩ (Or.inl (by decide!))

/-- C7: for every three logs on which scoring succeeds, the struct returned by
`parseResultsAndCalculateScore` (the three scores and `TotalScore`) is the same for
every order in which the `tests` map is iterated. -/
theorem result_independent_of_map_order (env : Env) (order₁ order₂ : List (String × ℚ))
    (r : BenchmarkResults) (h₁ : order₁.Perm tests) (h₂ : order₂.Perm tests)
    (hrun : MainGo.parseResultsAndCalculateScore env order₁ = .ok r) :
    MainGo.parseResultsAndCalculateScore env order₂ = .ok r :=
  (parse_ok_iff env order₂ h₂ r).2 ((parse_ok_iff env order₁ h₁ r).1 hrun)

theorem result_independent_of_map_order_witness :
    MainGo.parseResultsAndCalculateScore
        (envOf [butterflyHeader, exampleRow] [butterflyHeader, exampleRow]
          [butterflyHeader, exampleRow])
        [("triangles", 10000000), ("ocean", 6), ("butterfly", 16384000)]
      = .ok ⟨97/2048, 97/1250, 388000/3, 97/2048 + 97/1250 + 388000/3⟩ :=
  result_independent_of_map_order
    (envOf [butterflyHeader, exampleRow] [butterflyHeader, exampleRow]
      [butterflyHeader, exampleRow])
    tests [("triangles", 10000000), ("ocean", 6), ("butterfly", 16384000)]
    ⟨97/2048, 97/1250, 388000/3, 97/2048 + 97/1250 + 388000/3⟩
    (List.Perm.refl _) (by decide!) (by decide!)

/-! ## Lemmas on the sampling window -/

theorem totalFrameTime_eq_sum (frameTimes : List ℚ) :
    totalFrameTime frameTimes = frameTimes.sum := by
  unfold totalFrameTime
  rw [List.sum_eq_foldl]

theorem foldl_max_ge_init (l : List ℚ) (a : ℚ) :
    a ≤ l.foldl (fun max ft => if ft > max then ft else max) a := by
  induction l generalizing a with
  | nil => exact le_refl a
  | cons x rest ih =>
    rw [List.foldl_cons]
    by_cases h : x > a
    · rw [if_pos h]
      exact le_trans (le_of_lt h) (ih x)
    · rw [if_neg h]
      exact ih a

theorem foldl_max_ge_mem (l : List ℚ) (a : ℚ) :
    ∀ ft ∈ l, ft ≤ l.foldl (fun max ft => if ft > max then ft else max) a := by
  induction l generalizing a with
  | nil => intro ft h; cases h
  | cons x rest ih =>
    intro ft hft
    rw [List.foldl_cons]
    rcases List.mem_cons.1 hft with rfl | hrest
    · by_cases h : ft > a
      · rw [if_pos h]
        exact foldl_max_ge_init rest ft
      · rw [if_neg h]
        exact le_trans (not_lt.1 h) (foldl_max_ge_init rest a)
    · exact ih _ ft hrest

theorem foldl_max_mem (l : List ℚ) (a : ℚ) :
    l.foldl (fun max ft => if ft > max then ft else max) a ∈ a :: l := by
  induction l generalizing a with
  | nil => simp
  | cons x rest ih =>
    rw [List.foldl_cons]
    by_cases h : x > a
    · rw [if_pos h]
      exact List.mem_cons_of_mem _ (ih x)
    · rw [if_neg h]
      rcases List.mem_cons.1 (ih a) with h1 | h1
      · rw [h1]
        exact List.mem_cons_self _ _
      · exact List.mem_cons_of_mem _ (List.mem_cons_of_mem _ h1)

theorem maxFrameTime_spec (frameTimes : List ℚ) (h : frameTimes ≠ []) :
    ∃ m, maxFrameTime frameTimes = some m ∧ m ∈ frameTimes ∧ ∀ ft ∈ frameTimes, ft ≤ m := by
  cases frameTimes with
  | nil => exact absurd rfl h
  | cons first rest =>
    refine ⟨_, rfl, ?_, ?_⟩
    · rw [List.foldl_cons]
      simp only [gt_iff_lt, lt_self_iff_false, if_false]
      exact foldl_max_mem rest first
    · exact foldl_max_ge_mem (first :: rest) first

theorem step_flush (cfg : Config) (s s' : LoopState) (f : Frame) (fl : Flush)
    (h : step cfg s f = .ok (s', some fl)) :
    fl.window = s.frameTimes ++ [f.frameTime] ∧
    fl.record.avgFPS = avgFPS fl.window ∧
    some fl.record.minFPS = minFPS fl.window := by
  unfold step at h
  cases hsu : stageUpdate cfg s.currentStage s.workload f.timeElapsed with
  | error e =>
    rw [hsu] at h
    cases h
  | ok p =>
    obtain ⟨stage, load⟩ := p
    rw [hsu] at h
    by_cases hc : f.checkTime - s.lastRecordTime ≥ 0.5
    · simp only [hc, if_true] at h
      cases hm : maxFrameTime (s.frameTimes ++ [f.frameTime]) with
      | none =>
        rw [hm] at h
        cases h
      | some m =>
        rw [hm] at h
        cases hw : workloadField cfg stage load with
        | error e =>
          rw [hw] at h
          cases h
        | ok w =>
          rw [hw] at h
          simp only [Except.ok.injEq, Prod.mk.injEq, Option.some.injEq] at h
          obtain ⟨_, rfl⟩ := h
          simp [minFPS, hm]
    · simp only [hc, if_false] at h
      simp only [Except.ok.injEq, Prod.mk.injEq] at h
      cases h.2

/-! ## Claims on the sampling window -/

/-- C8: for every non-empty list of frame durations accumulated in one sampling window,
`maxFrameTime` returns the largest element of the list, and the record a flush computes
from that window has `avgFPS = (number of samples) / (sum of durations)` and
`minFPS = 1 / (largest duration)`. -/
theorem window_record_fps (frameTimes : List ℚ) (hne : frameTimes ≠ []) :
    ∃ m, maxFrameTime frameTimes = some m ∧ m ∈ frameTimes ∧ (∀ ft ∈ frameTimes, ft ≤ m) ∧
      ∀ (cfg : Config) (s s' : LoopState) (f : Frame) (fl : Flush),
        step cfg s f = .ok (s', some fl) → fl.window = frameTimes →
          fl.record.avgFPS = (frameTimes.length : ℚ) / frameTimes.sum ∧
          fl.record.minFPS = 1 / m := by
  obtain ⟨m, hm, hmem, hmax⟩ := maxFrameTime_spec frameTimes hne
  refine ⟨m, hm, hmem, hmax, ?_⟩
  intro cfg s s' f fl hstep hw
  obtain ⟨_, havg, hmin⟩ := step_flush cfg s s' f fl hstep
  rw [hw] at havg hmin
  constructor
  · rw [havg, avgFPS, totalFrameTime_eq_sum]
  · simp only [minFPS, hm, Option.map_some', Option.some.injEq] at hmin
    exact hmin

theorem window_record_fps_witness :
    ∃ m, maxFrameTime [1/100, 1/50] = some m ∧ m ∈ [(1/100 : ℚ), 1/50] ∧
      (∀ ft ∈ [(1/100 : ℚ), 1/50], ft ≤ m) ∧
      ∀ (cfg : Config) (s s' : LoopState) (f : Frame) (fl : Flush),
        step cfg s f = .ok (s', some fl) → fl.window = [1/100, 1/50] →
          fl.record.avgFPS = (([1/100, 1/50] : List ℚ).length : ℚ) / ([1/100, 1/50] : List ℚ).sum ∧
          fl.record.minFPS = 1 / m :=
  window_record_fps [1/100, 1/50] (by decide)

/-- A pass of the butterfly loop that flushes a window of two samples: the record has
`avgFPS = 2 / 0.03` and `minFPS = 1 / 0.02`. -/
theorem step_flush_example :
    step Butterfly.config
        { frameTimes := [1/100], currentStage := 0, workload := 8000, lastRecordTime := 0,
          rows := [Butterfly.config.header] }
        { shouldClose := false, loopTime := 49/100, frameTime := 1/50, timeElapsed := 51/100,
          checkTime := 51/100, recordTime := 52/100 }
      = .ok ({ frameTimes := [], currentStage := 0, workload := 8000, lastRecordTime := 52/100,
               rows := [Butterfly.config.header, ["0.5", "1", "8000", "66.7", "50.0"]] },
             some { window := [1/100, 1/50],
                    record := { timeElapsed := 51/100, stage := 1, workload := 8000,
                                avgFPS := 200/3, minFPS := 50 } }) := by
  decide!

theorem step_error (cfg : Config) (s : LoopState) (f : Frame) (e : Panic)
    (h : step cfg s f = .error e) : e = .particleCountsIndex := by
  unfold step at h
  cases hsu : stageUpdate cfg s.currentStage s.workload f.timeElapsed with
  | error e' =>
    rw [hsu] at h
    cases h
    simp only [stageUpdate] at hsu
    split at hsu
    · split at hsu
      · cases hsu
        rfl
      · cases hsu
    · cases hsu
  | ok p =>
    obtain ⟨stage, load⟩ := p
    rw [hsu] at h
    by_cases hc : f.checkTime - s.lastRecordTime ≥ 0.5
    · simp only [hc, if_true] at h
      obtain ⟨m, hm, _, _⟩ :=
        maxFrameTime_spec (s.frameTimes ++ [f.frameTime]) (by simp)
      rw [hm] at h
      cases hw : workloadField cfg stage load with
      | error e' =>
        rw [hw] at h
        cases h
        simp only [workloadField] at hw
        split at hw
        · cases hw
        · split at hw
          · cases hw
            rfl
          · cases hw
      | ok w =>
        rw [hw] at h
        cases h
    · simp only [hc, if_false] at h
      cases h

/-- C9: in every run of the render loop (butterfly or triangles configuration, any
start state, any clock readings) the read `frameTimes[0]` of `maxFrameTime` never
panics, and every flush that is made reads a window with at least one sample. -/
theorem flush_window_nonempty (cfg : Config) (s : LoopState) (frames : List Frame) :
    runLoop cfg s frames ≠ .error .frameTimesIndex ∧
    ∀ s' fls, runLoop cfg s frames = .ok (s', fls) →
      ∀ fl ∈ fls, fl.window ≠ [] ∧ 1 ≤ fl.window.length ∧ maxFrameTime fl.window ≠ none := by
  induction frames generalizing s with
  | nil =>
    refine ⟨by simp [runLoop], ?_⟩
    intro s' fls h
    simp only [runLoop, Except.ok.injEq, Prod.mk.injEq] at h
    obtain ⟨_, rfl⟩ := h
    intro fl hfl
    cases hfl
  | cons f rest ih =>
    unfold runLoop
    by_cases hc : (!f.shouldClose) = true ∧ f.loopTime < cfg.testDuration
    · rw [if_pos hc]
      cases hs : step cfg s f with
      | error e =>
        have he := step_error cfg s f e hs
        subst he
        refine ⟨by simp, ?_⟩
        intro s' fls h
        cases h
      | ok p =>
        obtain ⟨s1, fl1⟩ := p
        obtain ⟨ih1, ih2⟩ := ih s1
        cases hr : runLoop cfg s1 rest with
        | error e =>
          simp only [hr]
          refine ⟨?_, ?_⟩
          · intro h
            simp only [Except.error.injEq] at h
            rw [h] at hr
            exact ih1 hr
          · intro s' fls h
            cases h
        | ok q =>
          obtain ⟨s2, fls2⟩ := q
          simp only [hr]
          refine ⟨by simp, ?_⟩
          intro s' fls h
          simp only [Except.ok.injEq, Prod.mk.injEq] at h
          obtain ⟨_, rfl⟩ := h
          intro fl hfl
          rcases List.mem_append.1 hfl with h1 | h2
          · cases fl1 with
            | none => cases h1
            | some fl0 =>
              simp only [Option.toList_some, List.mem_singleton] at h1
              subst h1
              obtain ⟨hw, _, _⟩ := step_flush cfg s s1 f fl hs
              have hne : fl.window ≠ [] := by rw [hw]; simp
              obtain ⟨m, hm, _, _⟩ := maxFrameTime_spec fl.window hne
              refine ⟨hne, ?_, by rw [hm]; simp⟩
              rw [hw]
              simp
          · exact ih2 s2 fls2 hr fl h2
    · rw [if_neg hc]
      refine ⟨by simp, ?_⟩
      intro s' fls h
      simp only [Except.ok.injEq, Prod.mk.injEq] at h
      obtain ⟨_, rfl⟩ := h
      intro fl hfl
      cases hfl

/-! ## Claims on the stage update -/

theorem truncToInt_of_nonneg (x : ℚ) (h : 0 ≤ x) : truncToInt x = ⌊x⌋ := by
  unfold truncToInt
  rw [if_pos h]

theorem index?_of_lt (xs : List Nat) (k : Int) (h0 : 0 ≤ k) (h1 : k < (xs.length : Int)) :
    ∃ n, index? xs k = some n := by
  have hk : k.toNat < xs.length := by omega
  refine ⟨xs[k.toNat], ?_⟩
  unfold index?
  rw [if_neg (by omega)]
  exact List.getElem?_eq_getElem hk

/-- C10 (amended): the stage-update step on an iteration with elapsed test time
`e ≥ 0`, from a state whose data set has the size `particleCounts[currentStage]`.
If `floor(e / stageTime) < len(particleCounts)` the stage index becomes
`floor(e / stageTime)`, which is `min(floor(e / stageTime), len(particleCounts) - 1)`,
and the data set gets the size `particleCounts` has at that index.  If
`e ≥ stageTime * len(particleCounts)` the stage index and the data set stay what
they were before the iteration. -/
theorem stage_update_result (cfg : Config) (cur : Int) (w : Nat) (e : ℚ)
    (hst : 0 < cfg.stageTime) (he : 0 ≤ e) (hinv : index? cfg.particleCounts cur = some w) :
    (⌊e / cfg.stageTime⌋ < (cfg.particleCounts.length : Int) →
      ∃ n, stageUpdate cfg cur w e
          = .ok (min ⌊e / cfg.stageTime⌋ ((cfg.particleCounts.length : Int) - 1), n) ∧
        index? cfg.particleCounts ⌊e / cfg.stageTime⌋ = some n) ∧
    (cfg.stageTime * (cfg.particleCounts.length : ℚ) ≤ e →
      stageUpdate cfg cur w e = .ok (cur, w)) := by
  have hq : 0 ≤ e / cfg.stageTime := div_nonneg he (le_of_lt hst)
  have ht : truncToInt (e / cfg.stageTime) = ⌊e / cfg.stageTime⌋ := truncToInt_of_nonneg _ hq
  constructor
  · intro hlt
    have h0 : 0 ≤ ⌊e / cfg.stageTime⌋ := Int.floor_nonneg.2 hq
    have hmin : min ⌊e / cfg.stageTime⌋ ((cfg.particleCounts.length : Int) - 1)
        = ⌊e / cfg.stageTime⌋ := min_eq_left (by omega)
    rw [hmin]
    obtain ⟨n, hn⟩ := index?_of_lt cfg.particleCounts _ h0 hlt
    by_cases hne : ⌊e / cfg.stageTime⌋ = cur
    · refine ⟨w, ?_, by rw [hne]; exact hinv⟩
      simp only [stageUpdate, ht]
      rw [if_neg (by simp [hne]), hne]
    · refine ⟨n, ?_, hn⟩
      simp only [stageUpdate, ht]
      rw [if_pos ⟨hne, hlt⟩, hn]
  · intro hge
    have hle : (cfg.particleCounts.length : Int) ≤ ⌊e / cfg.stageTime⌋ := by
      rw [Int.le_floor]
      rw [le_div_iff₀ hst]
      simpa [mul_comm] using hge
    simp only [stageUpdate, ht]
    rw [if_neg (by omega)]

theorem stage_update_result_witness :
    (⌊(25 : ℚ) / Butterfly.config.stageTime⌋ < (Butterfly.config.particleCounts.length : Int) →
      ∃ n, stageUpdate Butterfly.config 0 8000 25
          = .ok (min ⌊(25 : ℚ) / Butterfly.config.stageTime⌋
              ((Butterfly.config.particleCounts.length : Int) - 1), n) ∧
        index? Butterfly.config.particleCounts ⌊(25 : ℚ) / Butterfly.config.stageTime⌋ = some n) ∧
    (Butterfly.config.stageTime * (Butterfly.config.particleCounts.length : ℚ) ≤ 25 →
      stageUpdate Butterfly.config 0 8000 25 = .ok (0, 8000)) :=
  stage_update_result Butterfly.config 0 8000 25 (by decide!) (by decide!) (by decide!)

/-- C10 (as stated, refuted): in the butterfly loop an iteration at elapsed time 109.99 s
puts the loop in stage 10; the next iteration, at 120.01 s (a frame of 10 s), computes
`newStage = 12`, which fails the guard `newStage < len(particleCounts)`, so the stage
index stays 10 and the data set stays at 8192000 particles, although
`120.01 ≥ stageTime * len(particleCounts)` and `min(floor(120.01 / 10), 12 - 1) = 11`. -/
theorem stage_not_clamped_after_skip :
    stageUpdate Butterfly.config 0 8000 (10999/100) = .ok (10, 8192000) ∧
    stageUpdate Butterfly.config 10 8192000 (12001/100) = .ok (10, 8192000) ∧
    ((initState Butterfly.config).toOption.bind (fun s₀ =>
        (runLoop Butterfly.config s₀
          [{ shouldClose := false, loopTime := 10998/100, frameTime := 1/100,
             timeElapsed := 10999/100, checkTime := 10999/100, recordTime := 10999/100 },
           { shouldClose := false, loopTime := 110, frameTime := 1001/100,
             timeElapsed := 12001/100, checkTime := 12001/100, recordTime := 12002/100 }]
        ).toOption)).map (fun p => (p.1.currentStage, p.1.workload)) = some (10, 8192000) ∧
    (0 : ℚ) ≤ 12001/100 ∧
    Butterfly.config.stageTime * (Butterfly.config.particleCounts.length : ℚ) ≤ 12001/100 ∧
    min ⌊(12001/100 : ℚ) / Butterfly.config.stageTime⌋
      ((Butterfly.config.particleCounts.length : Int) - 1) = 11 ∧
    (10 : Int) ≠ min ⌊(12001/100 : ℚ) / Butterfly.config.stageTime⌋
      ((Butterfly.config.particleCounts.length : Int) - 1) := by
  refine ⟨by decide!, by decide!, by decide!, by decide!, by decide!, by decide!, by decide!⟩

/-! ## Lemmas on decimal text -/

theorem digitChar_spec (d : Nat) (h : d < 10) :
    (Nat.digitChar d).isDigit = true ∧ digitVal (Nat.digitChar d) = d ∧
      Nat.digitChar d ≠ '.' ∧ Nat.digitChar d ≠ '-' ∧ Nat.digitChar d ≠ '+' := by
  interval_cases d <;> decide

theorem parseDigits_append_singleton (xs : List Char) (c : Char) :
    parseDigits (xs ++ [c]) = parseDigits xs * 10 + digitVal c := by
  simp [parseDigits, List.foldl_append]

theorem fixedDigits_length (w n : Nat) : (fixedDigits w n).length = w := by
  induction w generalizing n with
  | zero => rfl
  | succ w ih => simp [fixedDigits, ih]

theorem fixedDigits_isDigit (w n : Nat) : ∀ c ∈ fixedDigits w n, c.isDigit = true := by
  induction w generalizing n with
  | zero => intro c hc; cases hc
  | succ w ih =>
    intro c hc
    simp only [fixedDigits, List.mem_append, List.mem_singleton] at hc
    rcases hc with hc | rfl
    · exact ih _ c hc
    · exact (digitChar_spec _ (Nat.mod_lt _ (by decide))).1

theorem parseDigits_fixedDigits (w n : Nat) : parseDigits (fixedDigits w n) = n % 10 ^ w := by
  induction w generalizing n with
  | zero => simp [fixedDigits, parseDigits, Nat.mod_one]
  | succ w ih =>
    rw [fixedDigits, parseDigits_append_singleton, ih,
      (digitChar_spec _ (Nat.mod_lt _ (by decide))).2.1, pow_succ, mul_comm (10 ^ w) 10,
      Nat.mod_mul]
    ring

theorem toDigitsCore_spec (fuel n : Nat) (ds : List Char) (h : n < fuel) :
    ∃ pre, Nat.toDigitsCore 10 fuel n ds = pre ++ ds ∧ pre ≠ [] ∧
      (∀ c ∈ pre, c.isDigit = true) ∧ parseDigits pre = n := by
  induction fuel generalizing n ds with
  | zero => omega
  | succ fuel ih =>
    have hd := digitChar_spec (n % 10) (Nat.mod_lt _ (by decide))
    unfold Nat.toDigitsCore
    by_cases h0 : n / 10 = 0
    · simp only [h0, if_true]
      refine ⟨[Nat.digitChar (n % 10)], rfl, by simp, ?_, ?_⟩
      · intro c hc
        rw [List.mem_singleton.1 hc]
        exact hd.1
      · have : parseDigits [Nat.digitChar (n % 10)] = digitVal (Nat.digitChar (n % 10)) := by
          simp [parseDigits]
        rw [this, hd.2.1]
        omega
    · simp only [h0, if_false]
      obtain ⟨pre, hpre, hne, hdig, hval⟩ :=
        ih (n / 10) (Nat.digitChar (n % 10) :: ds) (by omega)
      refine ⟨pre ++ [Nat.digitChar (n % 10)], by rw [hpre]; simp, by simp, ?_, ?_⟩
      · intro c hc
        rcases List.mem_append.1 hc with hc | hc
        · exact hdig c hc
        · rw [List.mem_singleton.1 hc]
          exact hd.1
      · rw [parseDigits_append_singleton, hval, hd.2.1]
        omega

theorem toDigits_spec (n : Nat) :
    Nat.toDigits 10 n ≠ [] ∧ (∀ c ∈ Nat.toDigits 10 n, c.isDigit = true) ∧
      parseDigits (Nat.toDigits 10 n) = n := by
  obtain ⟨pre, hpre, hne, hdig, hval⟩ := toDigitsCore_spec (n + 1) n [] (Nat.lt_succ_self n)
  have : Nat.toDigits 10 n = pre := by
    unfold Nat.toDigits
    rw [hpre, List.append_nil]
  rw [this]
  exact ⟨hne, hdig, hval⟩

theorem isDigit_ne_point (c : Char) (h : c.isDigit = true) : (c != '.') = true := by
  have hne : c ≠ '.' := by
    rintro rfl
    revert h
    decide
  simpa using hne

theorem parseUnsigned_point (ip fp : List Char) (hne : ip ≠ [])
    (hip : ∀ c ∈ ip, c.isDigit = true) (hfp : ∀ c ∈ fp, c.isDigit = true) :
    parseUnsigned (ip ++ '.' :: fp)
      = some ((parseDigits ip : ℚ) + (parseDigits fp : ℚ) / (10 : ℚ) ^ fp.length) := by
  have hp : ∀ c ∈ ip, (fun c : Char => c != '.') c = true := fun c hc =>
    isDigit_ne_point c (hip c hc)
  have ht : (ip ++ '.' :: fp).takeWhile (fun c => c != '.') = ip := by
    rw [List.takeWhile_append_of_pos hp]
    simp [List.takeWhile]
  have hd : (ip ++ '.' :: fp).dropWhile (fun c => c != '.') = '.' :: fp := by
    rw [List.dropWhile_append_of_pos hp]
    simp [List.dropWhile]
  have hlen : 0 < ip.length := List.length_pos.2 hne
  unfold parseUnsigned
  simp only [ht, hd]
  rw [if_pos]
  refine ⟨Or.inl hlen, ?_, ?_⟩
  · exact List.all_eq_true.2 hip
  · exact List.all_eq_true.2 hfp

theorem parseFloat_unsigned (c : Char) (cs : List Char) (h1 : c ≠ '-') (h2 : c ≠ '+') :
    ParseFloat (String.mk (c :: cs)) = (parseUnsigned (c :: cs)).getD 0 := by
  simp [ParseFloat, h1, h2]

theorem parseFloat_minus (cs : List Char) :
    ParseFloat (String.mk ('-' :: cs)) = (parseUnsigned cs).elim 0 (fun v => -v) := by
  simp [ParseFloat]

theorem scaled_value (n p : Nat) :
    ((n / 10 ^ p : Nat) : ℚ) + ((n % 10 ^ p : Nat) : ℚ) / (10 : ℚ) ^ p
      = (n : ℚ) / (10 : ℚ) ^ p := by
  have hpos : (0 : ℚ) < (10 : ℚ) ^ p := by positivity
  have hdm : (n : ℚ) = ((n / 10 ^ p : Nat) : ℚ) * (10 : ℚ) ^ p + ((n % 10 ^ p : Nat) : ℚ) := by
    have := Nat.div_add_mod n (10 ^ p)
    have h2 : ((10 ^ p * (n / 10 ^ p) + n % 10 ^ p : Nat) : ℚ) = (n : ℚ) := by rw [this]
    push_cast at h2
    linarith
  rw [hdm]
  field_simp

theorem parseUnsigned_scaled (n p : Nat) (hp : p ≠ 0) :
    parseUnsigned (formatScaled false n p) = some ((n : ℚ) / (10 : ℚ) ^ p) := by
  obtain ⟨hne, hdig, hval⟩ := toDigits_spec (n / 10 ^ p)
  have := parseUnsigned_point (Nat.toDigits 10 (n / 10 ^ p)) (fixedDigits p (n % 10 ^ p)) hne hdig
    (fixedDigits_isDigit _ _)
  simp only [formatScaled, hp, if_false, Bool.false_eq_true]
  rw [this, hval, parseDigits_fixedDigits, fixedDigits_length, Nat.mod_mod, scaled_value]

/-- Reading back a fixed-point text gives the scaled integer it was made from. -/
theorem parseFloat_formatScaled (neg : Bool) (n p : Nat) (hp : p ≠ 0) :
    ParseFloat (String.mk (formatScaled neg n p))
      = if neg then -((n : ℚ) / (10 : ℚ) ^ p) else (n : ℚ) / (10 : ℚ) ^ p := by
  have hu := parseUnsigned_scaled n p hp
  cases neg with
  | true =>
    have : formatScaled true n p = '-' :: formatScaled false n p := by
      simp [formatScaled]
    rw [this, parseFloat_minus, hu]
    simp
  | false =>
    obtain ⟨hne, hdig, _⟩ := toDigits_spec (n / 10 ^ p)
    obtain ⟨c, cs, hcs⟩ := List.exists_cons_of_ne_nil hne
    have hc : c.isDigit = true := hdig c (by rw [hcs]; exact List.mem_cons_self _ _)
    have hshape : formatScaled false n p
        = c :: (cs ++ '.' :: fixedDigits p (n % 10 ^ p)) := by
      simp [formatScaled, hp, hcs]
    have h1 : c ≠ '-' := by
      rintro rfl
      revert hc
      decide
    have h2 : c ≠ '+' := by
      rintro rfl
      revert hc
      decide
    rw [hshape, parseFloat_unsigned _ _ h1 h2, ← hshape, hu]
    simp

theorem roundHalfEven_close (y : ℚ) : |(roundHalfEven y : ℚ) - y| ≤ 1 / 2 := by
  have h1 : ((⌊y⌋ : ℤ) : ℚ) ≤ y := Int.floor_le y
  have h2 : y < ((⌊y⌋ : ℤ) : ℚ) + 1 := Int.lt_floor_add_one y
  unfold roundHalfEven
  simp only
  split_ifs with ha hb hc
  · rw [abs_le]
    constructor <;> linarith
  · rw [abs_le]
    push_cast
    constructor <;> linarith
  · rw [abs_le]
    constructor <;> linarith
  · rw [abs_le]
    push_cast
    constructor <;> linarith

theorem roundHalfEven_nonneg (y : ℚ) (h : 0 ≤ y) : 0 ≤ roundHalfEven y := by
  have h0 : 0 ≤ ⌊y⌋ := Int.floor_nonneg.2 h
  unfold roundHalfEven
  simp only
  split_ifs <;> omega

/-- Printing with `prec ≥ 1` decimals and reading back moves a number by at most half
a unit of the last printed place. -/
theorem parseFloat_formatFloat_close (x : ℚ) (p : Nat) (hp : p ≠ 0) :
    |ParseFloat (FormatFloat x p) - x| ≤ 1 / 2 / (10 : ℚ) ^ p := by
  have hpos : (0 : ℚ) < (10 : ℚ) ^ p := by positivity
  have hy : 0 ≤ |x| * (10 : ℚ) ^ p := mul_nonneg (abs_nonneg x) (le_of_lt hpos)
  have hn := roundHalfEven_nonneg _ hy
  have hclose := roundHalfEven_close (|x| * (10 : ℚ) ^ p)
  have hcast : (((roundHalfEven (|x| * (10 : ℚ) ^ p)).toNat : Nat) : ℚ)
      = ((roundHalfEven (|x| * (10 : ℚ) ^ p) : ℤ) : ℚ) := by
    have : (((roundHalfEven (|x| * (10 : ℚ) ^ p)).toNat : Nat) : ℤ)
        = roundHalfEven (|x| * (10 : ℚ) ^ p) := Int.toNat_of_nonneg hn
    exact_mod_cast this
  have hdiv : abs ((((roundHalfEven (|x| * (10 : ℚ) ^ p)).toNat : Nat) : ℚ) / (10 : ℚ) ^ p
      - abs x) ≤ 1 / 2 / (10 : ℚ) ^ p := by
    rw [hcast]
    have : ((roundHalfEven (|x| * (10 : ℚ) ^ p) : ℤ) : ℚ) / (10 : ℚ) ^ p - |x|
        = (((roundHalfEven (|x| * (10 : ℚ) ^ p) : ℤ) : ℚ) - |x| * (10 : ℚ) ^ p) / (10 : ℚ) ^ p := by
      field_simp
      ring
    rw [this, abs_div, abs_of_pos hpos]
    exact div_le_div_of_nonneg_right hclose (le_of_lt hpos)
  have hneg : ∀ a b : ℚ, -a - b = -(a - -b) := by
    intro a b
    ring
  unfold FormatFloat
  rw [parseFloat_formatScaled _ _ _ hp]
  by_cases hx : x < 0
  · rw [decide_eq_true hx, if_pos rfl, hneg, abs_neg, ← abs_of_neg hx]
    exact hdiv
  · rw [decide_eq_false hx]
    simp only [Bool.false_eq_true, if_false]
    have hxa : x = abs x := (abs_of_nonneg (not_lt.1 hx)).symm
    calc abs ((((roundHalfEven (|x| * (10 : ℚ) ^ p)).toNat : Nat) : ℚ) / (10 : ℚ) ^ p - x)
        = abs ((((roundHalfEven (|x| * (10 : ℚ) ^ p)).toNat : Nat) : ℚ) / (10 : ℚ) ^ p
            - abs x) := by rw [← hxa]
      _ ≤ 1 / 2 / (10 : ℚ) ^ p := hdiv

/-! ## Lemmas on `float64` rounding -/

/-- Rounding to 53 significant bits moves a positive number by at most the fraction
`2^-53` of it. -/
theorem roundFloat64_abs_close (a : ℚ) (ha : 0 < a) :
    abs ((roundHalfEven (a / 2 ^ (Int.log 2 a - 52)) : ℚ) * 2 ^ (Int.log 2 a - 52) - a)
      ≤ a / 2 ^ 53 := by
  have hk : (2 : ℚ) ^ Int.log 2 a ≤ a := by
    have := Int.zpow_log_le_self (b := 2) (by norm_num) ha
    simpa using this
  have he : (0 : ℚ) < 2 ^ (Int.log 2 a - 52) := zpow_pos (by norm_num) _
  have hm := roundHalfEven_close (a / 2 ^ (Int.log 2 a - 52))
  have hsplit : (2 : ℚ) ^ (Int.log 2 a - 52) = 2 ^ Int.log 2 a / 2 ^ 52 := by
    rw [zpow_sub₀ (by norm_num)]; norm_cast
  have h1 : (roundHalfEven (a / 2 ^ (Int.log 2 a - 52)) : ℚ) * 2 ^ (Int.log 2 a - 52) - a
      = ((roundHalfEven (a / 2 ^ (Int.log 2 a - 52)) : ℚ) - a / 2 ^ (Int.log 2 a - 52))
        * 2 ^ (Int.log 2 a - 52) := by
    field_simp
  rw [h1, abs_mul, abs_of_pos he]
  calc _ ≤ 1 / 2 * (2 : ℚ) ^ (Int.log 2 a - 52) :=
          mul_le_mul_of_nonneg_right hm he.le
    _ = 2 ^ Int.log 2 a / 2 ^ 53 := by rw [hsplit]; ring
    _ ≤ a / 2 ^ 53 := by
          apply div_le_div_of_nonneg_right hk; positivity

/-- The relative error of one rounding is at most `2^-53`. -/
theorem roundFloat64_close (x : ℚ) : |roundFloat64 x - x| ≤ |x| / 2 ^ 53 := by
  unfold roundFloat64
  by_cases hx : x = 0
  · simp [hx]
  · rw [if_neg hx]
    have hkey := roundFloat64_abs_close |x| (abs_pos.mpr hx)
    simp only []
    by_cases hneg : x < 0
    · rw [if_pos hneg]
      have hax : |x| = -x := abs_of_neg hneg
      rw [hax] at hkey ⊢
      have : (-1 : ℚ) * (roundHalfEven (-x / 2 ^ (Int.log 2 (-x) - 52)) : ℚ)
            * 2 ^ (Int.log 2 (-x) - 52) - x
          = -((roundHalfEven (-x / 2 ^ (Int.log 2 (-x) - 52)) : ℚ)
            * 2 ^ (Int.log 2 (-x) - 52) - -x) := by ring
      rw [this, abs_neg]; exact hkey
    · rw [if_neg hneg]
      have hax : |x| = x := abs_of_nonneg (not_lt.mp hneg)
      rw [hax] at hkey ⊢
      rw [one_mul]; exact hkey

theorem roundFloat64_neg (x : ℚ) : roundFloat64 (-x) = -roundFloat64 x := by
  unfold roundFloat64
  by_cases hx : x = 0
  · simp [hx]
  · have hx' : -x ≠ 0 := neg_ne_zero.mpr hx
    rw [if_neg hx, if_neg hx']
    simp only [abs_neg]
    rcases lt_or_gt_of_ne hx with h | h
    · have h' : ¬ (-x < 0) := by linarith
      rw [if_pos h, if_neg h']; ring
    · have h' : (-x < 0) := by linarith
      have h'' : ¬ (x < 0) := by linarith
      rw [if_pos h', if_neg h'']; ring

theorem roundHalfEven_intCast (k : ℤ) : roundHalfEven (k : ℚ) = k := by
  unfold roundHalfEven
  simp

/-- Every natural number up to `2^53` is a `float64`. -/
theorem roundFloat64_natCast (n : ℕ) (h : n ≤ 2 ^ 53) : roundFloat64 (n : ℚ) = n := by
  unfold roundFloat64
  by_cases hn : (n : ℚ) = 0
  · simp [hn]
  · rw [if_neg hn]
    have hn0 : n ≠ 0 := by exact_mod_cast hn
    have hpos : (0 : ℚ) ≤ n := by positivity
    have hnl : ¬ ((n : ℚ) < 0) := not_lt.mpr hpos
    simp only [abs_of_nonneg hpos, if_neg hnl, one_mul]
    rw [Int.log_natCast]
    rcases Nat.lt_or_ge n (2 ^ 53) with hlt | hge
    · have hk : Nat.log 2 n ≤ 52 := by
        have := Nat.log_lt_of_lt_pow hn0 hlt
        omega
      obtain ⟨j, hj⟩ : ∃ j : ℕ, Nat.log 2 n + j = 52 := ⟨52 - Nat.log 2 n, by omega⟩
      have he : ((Nat.log 2 n : ℤ) - 52) = -(j : ℤ) := by omega
      rw [he, zpow_neg, zpow_natCast]
      have : (n : ℚ) / ((2 : ℚ) ^ j)⁻¹ = ((n * 2 ^ j : ℕ) : ℤ) := by
        push_cast; field_simp
      rw [this, roundHalfEven_intCast]
      push_cast; field_simp
    · have hn53 : n = 2 ^ 53 := le_antisymm h hge
      subst hn53
      have : Nat.log 2 (2 ^ 53) = 53 := by
        rw [Nat.log_pow (by norm_num)]
      rw [this]
      have h2 : (((2 ^ 53 : ℕ) : ℚ)) / 2 ^ (((53 : ℕ) : ℤ) - 52) = ((2 ^ 52 : ℕ) : ℤ) := by
        norm_num
      rw [h2, roundHalfEven_intCast]
      norm_num

/-- Every integer of magnitude up to `2^53` is a `float64`. -/
theorem roundFloat64_intCast (i : ℤ) (h : |i| ≤ 2 ^ 53) : roundFloat64 (i : ℚ) = i := by
  rcases le_total 0 i with hi | hi
  · obtain ⟨n, rfl⟩ := Int.eq_ofNat_of_zero_le hi
    have hn : n ≤ 2 ^ 53 := by
      rw [abs_of_nonneg hi] at h
      exact_mod_cast h
    exact_mod_cast roundFloat64_natCast n hn
  · obtain ⟨n, hn⟩ := Int.eq_ofNat_of_zero_le (neg_nonneg.mpr hi)
    have hi' : i = -(n : ℤ) := by omega
    subst hi'
    have hn' : n ≤ 2 ^ 53 := by
      rw [abs_neg, abs_of_nonneg (Int.natCast_nonneg n)] at h
      exact_mod_cast h
    push_cast
    rw [roundFloat64_neg, roundFloat64_natCast n hn']

/-- Text written with one decimal and read back as a `float64`: the decimal written is
within 0.05 of the original and the reader rounds it once. -/
theorem parseFloat64_formatFloat_close (x : ℚ) :
    |ParseFloat64 (FormatFloat x 1) - x| ≤ 1 / 20 + (|x| + 1 / 20) / 2 ^ 53 := by
  have hd := parseFloat_formatFloat_close x 1 (by decide)
  have hb : (1 : ℚ) / 2 / 10 ^ 1 = 1 / 20 := by norm_num
  rw [hb] at hd
  have hr := roundFloat64_close (ParseFloat (FormatFloat x 1))
  have habs : |ParseFloat (FormatFloat x 1)| ≤ |x| + 1 / 20 := by
    have := abs_sub_abs_le_abs_sub (ParseFloat (FormatFloat x 1)) x
    linarith
  unfold ParseFloat64
  have htri : |roundFloat64 (ParseFloat (FormatFloat x 1)) - x|
      ≤ |roundFloat64 (ParseFloat (FormatFloat x 1)) - ParseFloat (FormatFloat x 1)|
        + |ParseFloat (FormatFloat x 1) - x| := abs_sub_le _ _ _
  have hdiv : |ParseFloat (FormatFloat x 1)| / 2 ^ 53 ≤ (|x| + 1 / 20) / 2 ^ 53 :=
    div_le_div_of_nonneg_right habs (by positivity)
  linarith

theorem roundFloat64_le (y : ℚ) (hy : 0 ≤ y) : roundFloat64 y ≤ y * (1 + 1 / 2 ^ 53) := by
  have h := roundFloat64_close y
  rw [abs_of_nonneg hy] at h
  have := (abs_le.mp h).2
  linarith

theorem roundFloat64_ge (y : ℚ) (hy : 0 ≤ y) : y * (1 - 1 / 2 ^ 53) ≤ roundFloat64 y := by
  have h := roundFloat64_close y
  rw [abs_of_nonneg hy] at h
  have := (abs_le.mp h).1
  linarith

theorem roundFloat64_pos (y : ℚ) (hy : 0 < y) : 0 < roundFloat64 y := by
  have h := roundFloat64_ge y hy.le
  have : 0 < y * (1 - 1 / 2 ^ 53) := mul_pos hy (by norm_num)
  linarith

/-- Rounded running sum of positive terms: positive, and at most the exact sum times
one rounding factor per addition. -/
theorem foldl_add64_bound (l : List ℚ) (hpos : ∀ ft ∈ l, 0 < ft) (acc : ℚ) (hacc : 0 < acc) :
    0 < l.foldl (fun total ft => roundFloat64 (total + ft)) acc ∧
    l.foldl (fun total ft => roundFloat64 (total + ft)) acc
      ≤ (acc + l.sum) * (1 + 1 / 2 ^ 53) ^ l.length := by
  induction l generalizing acc with
  | nil => simp [hacc]
  | cons x rest ih =>
    have hx : 0 < x := hpos x (List.mem_cons_self _ _)
    have hrest : ∀ ft ∈ rest, 0 < ft := fun ft h => hpos ft (List.mem_cons_of_mem _ h)
    have hs : 0 < acc + x := by linarith
    have hr := roundFloat64_pos (acc + x) hs
    obtain ⟨h1, h2⟩ := ih hrest (roundFloat64 (acc + x)) hr
    simp only [List.foldl_cons, List.sum_cons, List.length_cons]
    refine ⟨h1, h2.trans ?_⟩
    have hsum : 0 ≤ rest.sum := List.sum_nonneg (fun ft h => (hrest ft h).le)
    have hu : (1 : ℚ) ≤ 1 + 1 / 2 ^ 53 := by norm_num
    have hp : (0 : ℚ) < (1 + 1 / 2 ^ 53) ^ rest.length := by positivity
    have hle := roundFloat64_le (acc + x) hs.le
    rw [pow_succ (1 + 1 / 2 ^ 53 : ℚ) rest.length]
    have : roundFloat64 (acc + x) + rest.sum ≤ (acc + (x + rest.sum)) * (1 + 1 / 2 ^ 53) := by
      nlinarith
    calc (roundFloat64 (acc + x) + rest.sum) * (1 + 1 / 2 ^ 53) ^ rest.length
        ≤ ((acc + (x + rest.sum)) * (1 + 1 / 2 ^ 53)) * (1 + 1 / 2 ^ 53) ^ rest.length :=
          mul_le_mul_of_nonneg_right this hp.le
      _ = (acc + (x + rest.sum)) * ((1 + 1 / 2 ^ 53) ^ rest.length * (1 + 1 / 2 ^ 53)) := by ring

/-! ## Claims on the hand-over to `send.go` -/

theorem fpsTest_ok (env : Env) (acc : List (String × FpsStats)) (name : String) (rs : List Row)
    (hf : env.file name = .records rs) (hr : ReadAll rs ≠ none) (hl : 1 < rs.length) :
    ∃ acc', SendGo.fpsTest env acc name = .ok acc' := by
  obtain ⟨rows, hrows⟩ := Option.ne_none_iff_exists'.1 hr
  have := readAll_eq hrows
  subst this
  have h1 : ¬ rows.length ≤ 1 := by omega
  have h2 : ((rows.drop 1).length : ℚ) > 0 := by
    have : 0 < (rows.drop 1).length := by simp; omega
    exact_mod_cast this
  unfold SendGo.fpsTest
  simp only [hf, hrows]
  unfold SendGo.fpsRows
  rw [if_neg h1]
  simp only [h2, if_true]
  exact ⟨_, rfl⟩

theorem parseFPSResults_ok (env : Env) (rb rt ro : List Row) (hexe : env.executableOk = true)
    (hb : env.file "butterfly" = .records rb) (ht : env.file "triangles" = .records rt)
    (ho : env.file "ocean" = .records ro)
    (hrb : ReadAll rb ≠ none) (hrt : ReadAll rt ≠ none) (hro : ReadAll ro ≠ none)
    (hlb : 1 < rb.length) (hlt : 1 < rt.length) (hlo : 1 < ro.length) :
    ∃ fps, SendGo.parseFPSResults env = .ok fps := by
  obtain ⟨a1, h1⟩ := fpsTest_ok env [] "butterfly" rb hb hrb hlb
  obtain ⟨a2, h2⟩ := fpsTest_ok env a1 "triangles" rt ht hrt hlt
  obtain ⟨a3, h3⟩ := fpsTest_ok env a2 "ocean" ro ho hro hlo
  refine ⟨a3, ?_⟩
  unfold SendGo.parseFPSResults
  rw [hexe, if_pos rfl]
  simp only [List.foldlM_cons, List.foldlM_nil, h1]
  show (SendGo.fpsTest env a1 "triangles" >>= fun b => _) = _
  rw [h2]
  show (SendGo.fpsTest env a2 "ocean" >>= fun b => _) = _
  rw [h3]
  rfl

theorem main_total (env : Env) (sys : SystemInfo) (sendPath gpuName vramSize openGLVersion : String)
    (r : BenchmarkResults) (fps : List (String × FpsStats))
    (hfps : SendGo.parseFPSResults env = .ok fps) :
    SendGo.main env sys (MainGo.sendArgs sendPath r gpuName vramSize openGLVersion)
      = .ok (SendGo.benchmarkData sys (ParseFloat (SprintfF r.ButterflyScore))
          (ParseFloat (SprintfF r.TrianglesScore)) (ParseFloat (SprintfF r.OceanScore))
          (ParseFloat (SprintfF r.TotalScore)) fps) := by
  unfold SendGo.main
  simp only [MainGo.sendArgs, List.length_cons, List.length_nil]
  rw [if_neg (by decide)]
  simp only [SendGo.arg, hfps]
  rfl

/-- C6: end to end, for three readable record logs with one data row each.  The run of
`main.go` yields scores `r`; `send.go`, started with the argument vector `main.go`
builds from `r` with `%f`, assembles a `BenchmarkResult` whose `TotalScore` differs by
less than `1e-6` from the sum of the three scores computed one by one from the three
logs. -/
theorem end_to_end_total_close (env : Env) (order : List (String × ℚ)) (sys : SystemInfo)
    (sendPath gpuName vramSize openGLVersion : String) (hb db ht dt ho dO : Row)
    (hexe : env.executableOk = true) (horder : order.Perm tests)
    (hfb : env.file "butterfly" = .records [hb, db])
    (hft : env.file "triangles" = .records [ht, dt])
    (hfo : env.file "ocean" = .records [ho, dO])
    (hrb : ReadAll [hb, db] ≠ none) (hrt : ReadAll [ht, dt] ≠ none)
    (hro : ReadAll [ho, dO] ≠ none) :
    ∃ r br sb st so,
      MainGo.parseResultsAndCalculateScore env order = .ok r ∧
      SendGo.main env sys (MainGo.sendArgs sendPath r gpuName vramSize openGLVersion) = .ok br ∧
      MainGo.scoreRows {} "butterfly" 16384000 [hb, db] = .ok sb ∧
      MainGo.scoreRows {} "triangles" 10000000 [ht, dt] = .ok st ∧
      MainGo.scoreRows {} "ocean" 6 [ho, dO] = .ok so ∧
      |br.TotalScore - (sb.ButterflyScore + st.TrianglesScore + so.OceanScore)| < 1e-6 := by
  have hlen : ∀ a b : Row, 1 < [a, b].length := fun _ _ => by simp
  have hB := (logOk_iff env "butterfly" _ hfb hrb).2 (hlen _ _)
  have hT := (logOk_iff env "triangles" _ hft hrt).2 (hlen _ _)
  have hO := (logOk_iff env "ocean" _ hfo hro).2 (hlen _ _)
  have hall : ∀ t ∈ tests, LogOk env t.1 := by
    simp only [tests, List.mem_cons, List.mem_singleton, List.not_mem_nil, or_false,
      forall_eq_or_imp, forall_eq]
    exact ⟨hB, hO, hT⟩
  have hrun := (parse_ok_iff env order horder (finalResults env)).2 ⟨hexe, hall, rfl⟩
  obtain ⟨fps, hfps⟩ := parseFPSResults_ok env _ _ _ hexe hfb hft hfo hrb hrt hro
    (hlen _ _) (hlen _ _) (hlen _ _)
  have hbr :=
    main_total env sys sendPath gpuName vramSize openGLVersion (finalResults env) fps hfps
  have htot : (SendGo.benchmarkData sys (ParseFloat (SprintfF (finalResults env).ButterflyScore))
      (ParseFloat (SprintfF (finalResults env).TrianglesScore))
      (ParseFloat (SprintfF (finalResults env).OceanScore))
      (ParseFloat (SprintfF (finalResults env).TotalScore)) fps).TotalScore
      = ParseFloat (FormatFloat (finalResults env).TotalScore 6) := rfl
  refine ⟨finalResults env, _, _, _, _, hrun, hbr, scoreRows_eq _ _ _ _ (hlen _ _),
    scoreRows_eq _ _ _ _ (hlen _ _), scoreRows_eq _ _ _ _ (hlen _ _), ?_⟩
  have hsum : (MainGo.saveResult {} "butterfly" (rawScore 16384000 [hb, db])).ButterflyScore
      + (MainGo.saveResult {} "triangles" (rawScore 10000000 [ht, dt])).TrianglesScore
      + (MainGo.saveResult {} "ocean" (rawScore 6 [ho, dO])).OceanScore
      = (finalResults env).TotalScore := by
    simp [MainGo.saveResult, finalResults, rowsOf_eq env _ _ hfb hB, rowsOf_eq env _ _ hft hT,
      rowsOf_eq env _ _ hfo hO]
  rw [hsum, htot]
  have hclose := parseFloat_formatFloat_close (finalResults env).TotalScore 6 (by decide)
  have : (1 : ℚ) / 2 / 10 ^ 6 < 1e-6 := by norm_num
  exact lt_of_le_of_lt hclose this

theorem end_to_end_total_close_witness :
    ∃ r br sb st so,
      MainGo.parseResultsAndCalculateScore
        (envOf [butterflyHeader, exampleRow] [Triangles.config.header, exampleRow]
          [butterflyHeader, exampleRow]) tests = .ok r ∧
      SendGo.main
        (envOf [butterflyHeader, exampleRow] [Triangles.config.header, exampleRow]
          [butterflyHeader, exampleRow]) exampleSystem
        (MainGo.sendArgs "send.exe" r "GPU" "8192 MB VRAM" "Driver: 1.0") = .ok br ∧
      MainGo.scoreRows {} "butterfly" 16384000 [butterflyHeader, exampleRow] = .ok sb ∧
      MainGo.scoreRows {} "triangles" 10000000 [Triangles.config.header, exampleRow] = .ok st ∧
      MainGo.scoreRows {} "ocean" 6 [butterflyHeader, exampleRow] = .ok so ∧
      |br.TotalScore - (sb.ButterflyScore + st.TrianglesScore + so.OceanScore)| < 1e-6 :=
  end_to_end_total_close
    (envOf [butterflyHeader, exampleRow] [Triangles.config.header, exampleRow]
      [butterflyHeader, exampleRow]) tests exampleSystem
    "send.exe" "GPU" "8192 MB VRAM" "Driver: 1.0"
    butterflyHeader exampleRow Triangles.config.header exampleRow butterflyHeader exampleRow
    rfl (List.Perm.refl _) rfl rfl rfl (by decide) (by decide) (by decide)

/-- The example run end to end: `send.go` stores the total `129333.458297`, the exact
sum of the three scores being `129333.45829661...`. -/
theorem end_to_end_example :
    (SendGo.main
      (envOf [butterflyHeader, exampleRow] [Triangles.config.header, exampleRow]
        [butterflyHeader, exampleRow]) exampleSystem
      (MainGo.sendArgs "send.exe" ⟨97/2048, 97/1250, 388000/3, 97/2048 + 97/1250 + 388000/3⟩
        "GPU" "8192 MB VRAM" "Driver: 1.0")).toOption.map (fun b => b.TotalScore)
      = some (129333458297/1000000) := by
  decide!

/-! ## Claims on sequences of stage updates -/

/-- The stage-update step at an elapsed time `e ≥ 0` never panics: the stage becomes
`floor(e / stageTime)` when that is below `len(particleCounts)` and stays otherwise,
and a data set that had the size of its stage keeps having it. -/
theorem stageUpdate_ok (cfg : Config) (cur : Int) (w : Nat) (e : ℚ)
    (hst : 0 < cfg.stageTime) (he : 0 ≤ e) :
    ∃ w', stageUpdate cfg cur w e
        = .ok (if ⌊e / cfg.stageTime⌋ < (cfg.particleCounts.length : Int)
            then ⌊e / cfg.stageTime⌋ else cur, w') ∧
      (index? cfg.particleCounts cur = some w →
        index? cfg.particleCounts (if ⌊e / cfg.stageTime⌋ < (cfg.particleCounts.length : Int)
            then ⌊e / cfg.stageTime⌋ else cur) = some w') := by
  have hq : 0 ≤ e / cfg.stageTime := div_nonneg he (le_of_lt hst)
  have ht : truncToInt (e / cfg.stageTime) = ⌊e / cfg.stageTime⌋ := truncToInt_of_nonneg _ hq
  have h0 : 0 ≤ ⌊e / cfg.stageTime⌋ := Int.floor_nonneg.2 hq
  by_cases hlt : ⌊e / cfg.stageTime⌋ < (cfg.particleCounts.length : Int)
  · rw [if_pos hlt]
    obtain ⟨n, hn⟩ := index?_of_lt cfg.particleCounts _ h0 hlt
    by_cases hne : ⌊e / cfg.stageTime⌋ = cur
    · refine ⟨w, ?_, fun hinv => by rw [hne]; exact hinv⟩
      simp only [stageUpdate, ht]
      rw [if_neg (by simp [hne]), hne]
    · refine ⟨n, ?_, fun _ => hn⟩
      simp only [stageUpdate, ht]
      rw [if_pos ⟨hne, hlt⟩, hn]
  · rw [if_neg hlt]
    refine ⟨w, ?_, fun hinv => hinv⟩
    simp only [stageUpdate, ht]
    rw [if_neg (by tauto)]

theorem floor_div_mono (st e₁ e₂ : ℚ) (hst : 0 < st) (h : e₁ ≤ e₂) : ⌊e₁ / st⌋ ≤ ⌊e₂ / st⌋ :=
  Int.floor_mono (div_le_div_of_nonneg_right h (le_of_lt hst))

theorem stageRun_chain (cfg : Config) (hst : 0 < cfg.stageTime) (es : List ℚ) :
    ∀ (cur : Int) (w : Nat) (e₀ : ℚ),
      (⌊e₀ / cfg.stageTime⌋ < (cfg.particleCounts.length : Int) → cur = ⌊e₀ / cfg.stageTime⌋) →
      List.Chain (· ≤ ·) e₀ es → (∀ e ∈ es, 0 ≤ e) →
      ∃ stages, stageRun cfg cur w es = .ok stages ∧ stages.length = es.length ∧
        List.Chain (· ≤ ·) cur stages := by
  induction es with
  | nil =>
    intro cur w e₀ _ _ _
    exact ⟨[], rfl, rfl, List.Chain.nil⟩
  | cons e rest ih =>
    intro cur w e₀ hcur hchain hpos
    have hle : e₀ ≤ e := (List.chain_cons.1 hchain).1
    have hrest : List.Chain (· ≤ ·) e rest := (List.chain_cons.1 hchain).2
    obtain ⟨w', hupd, _⟩ := stageUpdate_ok cfg cur w e hst (hpos e (List.mem_cons_self _ _))
    have hmono := floor_div_mono cfg.stageTime e₀ e hst hle
    by_cases hlt : ⌊e / cfg.stageTime⌋ < (cfg.particleCounts.length : Int)
    · rw [if_pos hlt] at hupd
      obtain ⟨stages, hrun, hlen, hch⟩ := ih ⌊e / cfg.stageTime⌋ w' e (fun _ => rfl) hrest
        (fun x hx => hpos x (List.mem_cons_of_mem _ hx))
      refine ⟨⌊e / cfg.stageTime⌋ :: stages, ?_, by simp [hlen], ?_⟩
      · simp only [stageRun, hupd, hrun]
      · refine List.Chain.cons ?_ hch
        rw [hcur (lt_of_le_of_lt hmono hlt)]
        exact hmono
    · rw [if_neg hlt] at hupd
      obtain ⟨stages, hrun, hlen, hch⟩ := ih cur w' e (fun h => absurd h hlt) hrest
        (fun x hx => hpos x (List.mem_cons_of_mem _ hx))
      refine ⟨cur :: stages, ?_, by simp [hlen], ?_⟩
      · simp only [stageRun, hupd, hrun]
      · exact List.Chain.cons (le_refl cur) hch

/-- C11: the stage-update step fed, in order, a non-decreasing sequence of non-negative
elapsed times (from any stage and data set, with a positive stage duration) never
panics and leaves after each pass a stage index that is at least the one left by the
pass before: the sequence of active stage indices is non-decreasing. -/
theorem stage_sequence_monotone (cfg : Config) (cur : Int) (w : Nat) (es : List ℚ)
    (hst : 0 < cfg.stageTime) (hsorted : es.Chain' (· ≤ ·)) (hpos : ∀ e ∈ es, 0 ≤ e) :
    ∃ stages, stageRun cfg cur w es = .ok stages ∧ stages.length = es.length ∧
      stages.Chain' (· ≤ ·) := by
  cases es with
  | nil => exact ⟨[], rfl, rfl, List.chain'_nil⟩
  | cons e rest =>
    obtain ⟨w', hupd, _⟩ := stageUpdate_ok cfg cur w e hst (hpos e (List.mem_cons_self _ _))
    have hrest : List.Chain (· ≤ ·) e rest := hsorted
    obtain ⟨stages, hrun, hlen, hch⟩ := stageRun_chain cfg hst rest
      (if ⌊e / cfg.stageTime⌋ < (cfg.particleCounts.length : Int)
        then ⌊e / cfg.stageTime⌋ else cur) w' e
      (fun h => by rw [if_pos h]) hrest (fun x hx => hpos x (List.mem_cons_of_mem _ hx))
    refine ⟨(if ⌊e / cfg.stageTime⌋ < (cfg.particleCounts.length : Int)
        then ⌊e / cfg.stageTime⌋ else cur) :: stages, ?_, by simp [hlen], ?_⟩
    · simp only [stageRun, hupd, hrun]
    · exact hch

theorem stageRun_congr (cfg cfg' : Config) (h1 : cfg.stageTime = cfg'.stageTime)
    (h2 : cfg.particleCounts = cfg'.particleCounts) (es : List ℚ) :
    ∀ (cur : Int) (w : Nat), stageRun cfg cur w es = stageRun cfg' cur w es := by
  induction es with
  | nil => intro cur w; rfl
  | cons e rest ih =>
    intro cur w
    have hu : stageUpdate cfg cur w e = stageUpdate cfg' cur w e := by
      simp only [stageUpdate, h1, h2]
    simp only [stageRun, hu]
    cases stageUpdate cfg' cur w e with
    | error e => rfl
    | ok p =>
      obtain ⟨c, l⟩ := p
      simp only [ih c l]

theorem stage_sequence_monotone_witness :
    ∃ stages, stageRun Butterfly.config 0 8000 [0, 5, 12, 12, 119, 130] = .ok stages ∧
      stages.length = ([0, 5, 12, 12, 119, 130] : List ℚ).length ∧ stages.Chain' (· ≤ ·) :=
  stage_sequence_monotone Butterfly.config 0 8000 [0, 5, 12, 12, 119, 130]
    (by decide!) (by simp [List.Chain']; norm_num) (by decide!)

/-- C12: the stage-update step with start stage 0, stage duration 10 and schedule
`[100, 200, 300]`, run over the elapsed times 0, 9.999, 10.0, 25.0, 35.0 in that order,
yields the stage indices 0, 0, 1, 2, 2 (whatever the test kind, test duration and
header of the configuration). -/
theorem stage_boundary_scenario (kind : TestKind) (testDuration : ℚ) (hdr : Row) :
    stageRun { kind := kind, stageTime := 10, testDuration := testDuration,
               particleCounts := [100, 200, 300], header := hdr }
        0 100 [0, 9999/1000, 10, 25, 35]
      = .ok [0, 0, 1, 2, 2] := by
  rw [stageRun_congr ⟨kind, 10, testDuration, [100, 200, 300], hdr⟩
    ⟨.butterfly, 10, 0, [100, 200, 300], []⟩ rfl rfl]
  decide!

/-! ## Claims on the record-log format -/

theorem parseUnsigned_digits (ds : List Char) (hne : ds ≠ [])
    (hdig : ∀ c ∈ ds, c.isDigit = true) : parseUnsigned ds = some (parseDigits ds : ℚ) := by
  have hp : ∀ c ∈ ds, (fun c : Char => c != '.') c = true := fun c hc =>
    isDigit_ne_point c (hdig c hc)
  have ht : ds.takeWhile (fun c => c != '.') = ds := List.takeWhile_eq_self_iff.2 hp
  have hd : ds.dropWhile (fun c => c != '.') = [] := List.dropWhile_eq_nil_iff.2 hp
  have hlen : 0 < ds.length := List.length_pos.2 hne
  unfold parseUnsigned
  simp only [ht, hd]
  rw [if_pos ⟨hlen, List.all_eq_true.2 hdig⟩]

theorem parseFloat_toDigits (n : Nat) : ParseFloat (String.mk (Nat.toDigits 10 n)) = (n : ℚ) := by
  obtain ⟨hne, hdig, hval⟩ := toDigits_spec n
  obtain ⟨c, cs, hcs⟩ := List.exists_cons_of_ne_nil hne
  have hc : c.isDigit = true := hdig c (by rw [hcs]; exact List.mem_cons_self _ _)
  have h1 : c ≠ '-' := by
    rintro rfl
    revert hc
    decide
  have h2 : c ≠ '+' := by
    rintro rfl
    revert hc
    decide
  rw [hcs, parseFloat_unsigned _ _ h1 h2, ← hcs, parseUnsigned_digits _ hne hdig, hval]
  rfl

/-- Reading the text of an integer gives the integer back. -/
theorem parseFloat_itoa (i : Int) : ParseFloat (Itoa i) = (i : ℚ) := by
  unfold Itoa
  by_cases h : i < 0
  · rw [if_pos h, parseFloat_minus]
    obtain ⟨hne, hdig, hval⟩ := toDigits_spec (-i).toNat
    rw [parseUnsigned_digits _ hne hdig, hval]
    have : (((-i).toNat : Nat) : ℤ) = -i := Int.toNat_of_nonneg (by omega)
    have hq : (((-i).toNat : Nat) : ℚ) = -(i : ℚ) := by exact_mod_cast this
    simp [hq]
  · rw [if_neg h, parseFloat_toDigits]
    have : ((i.toNat : Nat) : ℤ) = i := Int.toNat_of_nonneg (by omega)
    exact_mod_cast this

theorem toRow_fields (r : Record) :
    r.toRow.length = 5 ∧
    r.toRow.getD 0 "" = FormatFloat r.timeElapsed 1 ∧
    r.toRow.getD 1 "" = Itoa r.stage ∧
    r.toRow.getD 2 "" = Itoa r.workload ∧
    r.toRow.getD 3 "" = FormatFloat r.avgFPS 1 ∧
    r.toRow.getD 4 "" = FormatFloat r.minFPS 1 :=
  ⟨rfl, rfl, rfl, rfl, rfl, rfl⟩

theorem sumRow_toRow (acc : Sums) (r : Record) :
    MainGo.sumRow acc r.toRow =
      ⟨acc.avgFpsSum + ParseFloat (FormatFloat r.avgFPS 1),
       acc.minFpsSum + ParseFloat (FormatFloat r.minFPS 1),
       acc.avgLoadSum + (r.workload : ℚ)⟩ := by
  have h5 : ¬ r.toRow.length < 5 := by
    rw [(toRow_fields r).1]
    decide
  unfold MainGo.sumRow
  rw [if_neg h5]
  simp only [(toRow_fields r).2.2.2.1, (toRow_fields r).2.2.2.2.1, (toRow_fields r).2.2.2.2.2,
    parseFloat_itoa]

theorem fpsRow_toRow (acc : FpsAcc) (r : Record) :
    SendGo.fpsRow acc r.toRow =
      ⟨acc.avgFpsSum + ParseFloat (FormatFloat r.avgFPS 1),
       acc.minFpsSum + ParseFloat (FormatFloat r.minFPS 1),
       acc.avgFpsHistory ++ [⟨ParseFloat (FormatFloat r.timeElapsed 1),
          ParseFloat (FormatFloat r.avgFPS 1)⟩],
       acc.minFpsHistory ++ [⟨ParseFloat (FormatFloat r.timeElapsed 1),
          ParseFloat (FormatFloat r.minFPS 1)⟩]⟩ := by
  have h5 : ¬ r.toRow.length < 5 := by
    rw [(toRow_fields r).1]
    decide
  unfold SendGo.fpsRow
  rw [if_neg h5]
  simp only [(toRow_fields r).2.1, (toRow_fields r).2.2.2.2.1, (toRow_fields r).2.2.2.2.2]

/-- C13 (amended): a record whose five values are `float64` values (every integer
of magnitude up to `2^53` is one), written as the runner writes a data row and read
back field by field as the scorer reads it, with `strconv.ParseFloat`.  The stage
index and the workload size come back unchanged.  Elapsed seconds, avg FPS and min
FPS each come back within `0.05 + (|x| + 0.05) / 2^53` of the original `x`: 0.05 is
half a unit of the one decimal the runner writes, the rest is the one rounding of the
decimal to the `float64` the reader returns. -/
theorem record_roundtrip (r : Record)
    (hrep : roundFloat64 r.timeElapsed = r.timeElapsed ∧
      roundFloat64 (r.stage : ℚ) = (r.stage : ℚ) ∧
      roundFloat64 (r.workload : ℚ) = (r.workload : ℚ) ∧
      roundFloat64 r.avgFPS = r.avgFPS ∧ roundFloat64 r.minFPS = r.minFPS) :
    r.toRow.length = 5 ∧
    ParseFloat64 (r.toRow.getD 1 "") = (r.stage : ℚ) ∧
    ParseFloat64 (r.toRow.getD 2 "") = (r.workload : ℚ) ∧
    |ParseFloat64 (r.toRow.getD 0 "") - r.timeElapsed|
      ≤ 1 / 20 + (|r.timeElapsed| + 1 / 20) / 2 ^ 53 ∧
    |ParseFloat64 (r.toRow.getD 3 "") - r.avgFPS| ≤ 1 / 20 + (|r.avgFPS| + 1 / 20) / 2 ^ 53 ∧
    |ParseFloat64 (r.toRow.getD 4 "") - r.minFPS| ≤ 1 / 20 + (|r.minFPS| + 1 / 20) / 2 ^ 53 := by
  obtain ⟨h5, h0, h1, h2, h3, h4⟩ := toRow_fields r
  refine ⟨h5, ?_, ?_, ?_, ?_, ?_⟩
  · rw [h1, ParseFloat64, parseFloat_itoa, hrep.2.1]
  · rw [h2, ParseFloat64, parseFloat_itoa, hrep.2.2.1]
  · rw [h0]
    exact parseFloat64_formatFloat_close _
  · rw [h3]
    exact parseFloat64_formatFloat_close _
  · rw [h4]
    exact parseFloat64_formatFloat_close _

theorem record_roundtrip_witness :
    (Record.toRow ⟨3/4, 1, 8000, 5/4, 7/4⟩).length = 5 ∧
    ParseFloat64 ((Record.toRow ⟨3/4, 1, 8000, 5/4, 7/4⟩).getD 1 "") = ((1 : ℤ) : ℚ) ∧
    ParseFloat64 ((Record.toRow ⟨3/4, 1, 8000, 5/4, 7/4⟩).getD 2 "") = ((8000 : ℤ) : ℚ) ∧
    |ParseFloat64 ((Record.toRow ⟨3/4, 1, 8000, 5/4, 7/4⟩).getD 0 "") - 3/4|
      ≤ 1 / 20 + (|(3/4 : ℚ)| + 1 / 20) / 2 ^ 53 ∧
    |ParseFloat64 ((Record.toRow ⟨3/4, 1, 8000, 5/4, 7/4⟩).getD 3 "") - 5/4|
      ≤ 1 / 20 + (|(5/4 : ℚ)| + 1 / 20) / 2 ^ 53 ∧
    |ParseFloat64 ((Record.toRow ⟨3/4, 1, 8000, 5/4, 7/4⟩).getD 4 "") - 7/4|
      ≤ 1 / 20 + (|(7/4 : ℚ)| + 1 / 20) / 2 ^ 53 :=
  record_roundtrip ⟨3/4, 1, 8000, 5/4, 7/4⟩
    ⟨by decide!, roundFloat64_intCast 1 (by decide), roundFloat64_intCast 8000 (by decide),
      by decide!, by decide!⟩

/-- The bound of 0.05 alone does not hold for the value read back.  The `float64`
0.75 lies halfway between two one-decimal numbers and is written `0.8`; the `float64`
nearest to 0.8 lies above 0.8, so the value read back is `0.05 + 2^-51 / 10` away from
0.75.  The same happens at 1.25 (written `1.2`) and 1.75 (written `1.8`). -/
theorem tie_read_back_beyond_half_unit :
    roundFloat64 (3/4) = 3/4 ∧
    Record.toRow ⟨3/4, 1, 8000, 5/4, 7/4⟩ = ["0.8", "1", "8000", "1.2", "1.8"] ∧
    ParseFloat64 "0.8" - 3/4 = 1/20 + 1/22517998136852480 ∧
    ¬ (|ParseFloat64 "0.8" - 3/4| ≤ (0.05 : ℚ)) ∧
    ¬ (|ParseFloat64 "1.2" - 5/4| ≤ (0.05 : ℚ)) ∧
    ¬ (|ParseFloat64 "1.8" - 7/4| ≤ (0.05 : ℚ)) := by
  refine ⟨by decide!, by decide!, by decide!, by decide!, by decide!, by decide!⟩

/-- Every integer the runner can write as a stage or a workload is a `float64`, so the
reader returns it unchanged. -/
theorem parseFloat64_itoa (i : Int) (h : |i| ≤ 2 ^ 53) : ParseFloat64 (Itoa i) = (i : ℚ) := by
  rw [ParseFloat64, parseFloat_itoa, roundFloat64_intCast i h]

/-- C13 (as stated, refuted): the record `(0.51, 1, 8000, 200/3, 50)`, all values
non-negative, is written as the row `0.5, 1, 8000, 66.7, 50.0`.  Read back, the time
is 0.5, which is 0.01 away from 0.51, and the avg FPS is 66.7, which is 1/30 away from
200/3: neither is within `1e-6` of the original. -/
theorem record_roundtrip_not_1e6 :
    Record.toRow ⟨51/100, 1, 8000, 200/3, 50⟩ = ["0.5", "1", "8000", "66.7", "50.0"] ∧
    ParseFloat ((Record.toRow ⟨51/100, 1, 8000, 200/3, 50⟩).getD 0 "") = 1/2 ∧
    ParseFloat ((Record.toRow ⟨51/100, 1, 8000, 200/3, 50⟩).getD 3 "") = 667/10 ∧
    ¬ (|ParseFloat ((Record.toRow ⟨51/100, 1, 8000, 200/3, 50⟩).getD 0 "") - 51/100|
        < (1e-6 : ℚ)) ∧
    ¬ (|ParseFloat ((Record.toRow ⟨51/100, 1, 8000, 200/3, 50⟩).getD 3 "") - 200/3|
        < (1e-6 : ℚ)) := by
  refine ⟨by decide!, by decide!, by decide!, by decide!, by decide!⟩

/-- The same record with its rates taken as the `float64` values nearest to 0.51 and to
200/3, read back with the rounding of the reader: the row is the same and neither
value comes back within `1e-6`. -/
theorem float64_record_not_within_1e6 :
    Record.toRow ⟨roundFloat64 (51/100), 1, 8000, roundFloat64 (200/3), 50⟩
      = ["0.5", "1", "8000", "66.7", "50.0"] ∧
    ParseFloat64 "0.5" = 1/2 ∧
    ¬ (|ParseFloat64 "0.5" - roundFloat64 (51/100)| < (1e-6 : ℚ)) ∧
    ¬ (|ParseFloat64 "66.7" - roundFloat64 (200/3)| < (1e-6 : ℚ)) := by
  refine ⟨by decide!, by decide!, by decide!, by decide!⟩

theorem step_rows (cfg : Config) (s s' : LoopState) (f : Frame) (fl : Option Flush)
    (h : step cfg s f = .ok (s', fl)) :
    s'.rows = s.rows ++ fl.toList.map (fun fl => fl.record.toRow) := by
  unfold step at h
  cases hsu : stageUpdate cfg s.currentStage s.workload f.timeElapsed with
  | error e =>
    rw [hsu] at h
    cases h
  | ok p =>
    obtain ⟨stage, load⟩ := p
    rw [hsu] at h
    by_cases hc : f.checkTime - s.lastRecordTime ≥ 0.5
    · simp only [hc, if_true] at h
      cases hm : maxFrameTime (s.frameTimes ++ [f.frameTime]) with
      | none =>
        rw [hm] at h
        cases h
      | some m =>
        rw [hm] at h
        cases hw : workloadField cfg stage load with
        | error e =>
          rw [hw] at h
          cases h
        | ok w =>
          rw [hw] at h
          simp only [Except.ok.injEq, Prod.mk.injEq] at h
          obtain ⟨rfl, rfl⟩ := h
          simp
    · simp only [hc, if_false] at h
      simp only [Except.ok.injEq, Prod.mk.injEq] at h
      obtain ⟨rfl, rfl⟩ := h
      simp

theorem runLoop_rows (cfg : Config) (frames : List Frame) :
    ∀ (s s' : LoopState) (fls : List Flush), runLoop cfg s frames = .ok (s', fls) →
      s'.rows = s.rows ++ fls.map (fun fl => fl.record.toRow) := by
  induction frames with
  | nil =>
    intro s s' fls h
    simp only [runLoop, Except.ok.injEq, Prod.mk.injEq] at h
    obtain ⟨rfl, rfl⟩ := h
    simp
  | cons f rest ih =>
    intro s s' fls h
    unfold runLoop at h
    by_cases hc : (!f.shouldClose) = true ∧ f.loopTime < cfg.testDuration
    · rw [if_pos hc] at h
      cases hs : step cfg s f with
      | error e =>
        rw [hs] at h
        cases h
      | ok p =>
        obtain ⟨s1, fl1⟩ := p
        rw [hs] at h
        simp only at h
        cases hr : runLoop cfg s1 rest with
        | error e =>
          rw [hr] at h
          cases h
        | ok q =>
          obtain ⟨s2, fls2⟩ := q
          rw [hr] at h
          simp only [Except.ok.injEq, Prod.mk.injEq] at h
          obtain ⟨rfl, rfl⟩ := h
          rw [ih s1 s2 fls2 hr, step_rows cfg s s1 f fl1 hs]
          simp
    · rw [if_neg hc] at h
      simp only [Except.ok.injEq, Prod.mk.injEq] at h
      obtain ⟨rfl, rfl⟩ := h
      simp

theorem initState_rows (cfg : Config) (s₀ : LoopState) (h : initState cfg = .ok s₀) :
    s₀.rows = [cfg.header] ∧ s₀.frameTimes = [] ∧ s₀.currentStage = 0 ∧
      s₀.lastRecordTime = 0 ∧ index? cfg.particleCounts 0 = some s₀.workload := by
  unfold initState at h
  cases hi : index? cfg.particleCounts 0 with
  | none =>
    rw [hi] at h
    cases h
  | some n =>
    rw [hi] at h
    simp only [Except.ok.injEq] at h
    subst h
    exact ⟨rfl, rfl, rfl, rfl, rfl⟩

theorem readAll_uniform (hdr : Row) (data : List Row)
    (h : ∀ row ∈ data, row.length = hdr.length) : ReadAll (hdr :: data) = some (hdr :: data) := by
  simp only [ReadAll]
  rw [if_pos]
  rw [List.all_eq_true]
  intro row hrow
  simpa using h row hrow

theorem foldl_sumRow_records (records : List Record) (acc : Sums) :
    (records.map Record.toRow).foldl MainGo.sumRow acc =
      ⟨acc.avgFpsSum + (records.map fun r => ParseFloat (FormatFloat r.avgFPS 1)).sum,
       acc.minFpsSum + (records.map fun r => ParseFloat (FormatFloat r.minFPS 1)).sum,
       acc.avgLoadSum + (records.map fun r => (r.workload : ℚ)).sum⟩ := by
  induction records generalizing acc with
  | nil => simp
  | cons r rest ih =>
    rw [List.map_cons, List.foldl_cons, ih, sumRow_toRow]
    simp [add_assoc]

/-- C14: a log written by a run of the butterfly or triangles loop, read by the scorer.
The rows are the 5-field header followed by one 5-field row per flushed record, so
`ReadAll` accepts the log; and when at least one record was flushed, scoring the log
does not report insufficient data and stores the score formed from the means of the
values the records were written with: avg FPS and min FPS as printed with one decimal
(fields 3 and 4), the workload size (field 2). -/
theorem written_log_is_scored (cfg : Config) (s₀ s' : LoopState) (frames : List Frame)
    (fls : List Flush) (results : BenchmarkResults) (name : String) (nf : ℚ)
    (hcfg : cfg = Butterfly.config ∨ cfg = Triangles.config)
    (hinit : initState cfg = .ok s₀) (hrun : runLoop cfg s₀ frames = .ok (s', fls))
    (hne : fls ≠ []) :
    s'.rows = cfg.header :: fls.map (fun fl => fl.record.toRow) ∧
    cfg.header.length = 5 ∧ (∀ row ∈ s'.rows, row.length = 5) ∧
    ReadAll s'.rows = some s'.rows ∧
    MainGo.scoreRows results name nf s'.rows = .ok (MainGo.saveResult results name
      (((mean (fls.map fun fl => ParseFloat (FormatFloat fl.record.avgFPS 1)) * 0.7
          + mean (fls.map fun fl => ParseFloat (FormatFloat fl.record.minFPS 1)) * 0.3)
        * mean (fls.map fun fl => (fl.record.workload : ℚ))) / nf)) := by
  have hhdr : cfg.header.length = 5 := by
    rcases hcfg with rfl | rfl <;> rfl
  have hrows : s'.rows = cfg.header :: fls.map (fun fl => fl.record.toRow) := by
    rw [runLoop_rows cfg frames s₀ s' fls hrun, (initState_rows cfg s₀ hinit).1]
    rfl
  have hall : ∀ row ∈ s'.rows, row.length = 5 := by
    intro row hrow
    rw [hrows] at hrow
    rcases List.mem_cons.1 hrow with rfl | hrow
    · exact hhdr
    · obtain ⟨fl, _, rfl⟩ := List.mem_map.1 hrow
      rfl
  have hread : ReadAll s'.rows = some s'.rows := by
    rw [hrows]
    apply readAll_uniform
    intro row hrow
    rw [hhdr]
    exact hall row (by rw [hrows]; exact List.mem_cons_of_mem _ hrow)
  refine ⟨hrows, hhdr, hall, hread, ?_⟩
  have hlen : 1 < s'.rows.length := by
    rw [hrows]
    have : 0 < fls.length := List.length_pos.2 hne
    simp
    omega
  rw [scoreRows_eq _ _ _ _ hlen, hrows]
  have hmap : fls.map (fun fl => fl.record.toRow) = (fls.map fun fl => fl.record).map Record.toRow := by
    simp
  simp only [rawScore, List.drop_succ_cons, List.drop_zero]
  rw [hmap, foldl_sumRow_records]
  simp [mean, Function.comp_def]

theorem example_run :
    initState Butterfly.config = .ok exampleStart ∧
    step Butterfly.config exampleStart exampleFrame
      = .ok (exampleEnd, some ⟨[1/50], exampleRecord⟩) ∧
    runLoop Butterfly.config exampleStart [exampleFrame]
      = .ok (exampleEnd, [⟨[1/50], exampleRecord⟩]) := by
  refine ⟨by decide!, by decide!, by decide!⟩

theorem written_log_is_scored_witness :
    exampleEnd.rows = Butterfly.config.header ::
      [(⟨[1/50], exampleRecord⟩ : Flush)].map (fun fl => fl.record.toRow) ∧
    Butterfly.config.header.length = 5 ∧ (∀ row ∈ exampleEnd.rows, row.length = 5) ∧
    ReadAll exampleEnd.rows = some exampleEnd.rows ∧
    MainGo.scoreRows {} "butterfly" 16384000 exampleEnd.rows
      = .ok (MainGo.saveResult {} "butterfly"
        (((mean ([(⟨[1/50], exampleRecord⟩ : Flush)].map
              fun fl => ParseFloat (FormatFloat fl.record.avgFPS 1)) * 0.7
            + mean ([(⟨[1/50], exampleRecord⟩ : Flush)].map
              fun fl => ParseFloat (FormatFloat fl.record.minFPS 1)) * 0.3)
          * mean ([(⟨[1/50], exampleRecord⟩ : Flush)].map
              fun fl => (fl.record.workload : ℚ))) / 16384000)) :=
  written_log_is_scored Butterfly.config exampleStart exampleEnd [exampleFrame]
    [⟨[1/50], exampleRecord⟩] {} "butterfly" 16384000 (Or.inl rfl) (by decide!) (by decide!)
    (by decide)

/-! ## Claims on the two copies of the scorer -/

theorem rawScore_div (nf : ℚ) (rows : List Row) : rawScore nf rows = rawScore 1 rows / nf := by
  simp [rawScore]

/-- C15: in a successful run of `parseResultsAndCalculateScore`, of `main.go` or of
`send.go`, under any iteration order of the `tests` map, the butterfly score is the
unnormalized score of the butterfly log divided by 16384000, the triangles score the
one of the triangles log divided by 10000000, and the ocean score the one of the ocean
log divided by 6; the map pairs exactly these three names with these factors. -/
theorem normalize_factors_used (env : Env) (order : List (String × ℚ)) (r : BenchmarkResults)
    (horder : order.Perm tests)
    (hrun : MainGo.parseResultsAndCalculateScore env order = .ok r ∨
      SendGo.parseResultsAndCalculateScore env order = .ok r) :
    r.ButterflyScore = rawScore 1 (rowsOf env "butterfly") / 16384000 ∧
    r.TrianglesScore = rawScore 1 (rowsOf env "triangles") / 10000000 ∧
    r.OceanScore = rawScore 1 (rowsOf env "ocean") / 6 ∧
    (∀ name nf, (name, nf) ∈ order ↔
      (name = "butterfly" ∧ nf = 16384000) ∨ (name = "triangles" ∧ nf = 10000000) ∨
        (name = "ocean" ∧ nf = 6)) := by
  have hm : MainGo.parseResultsAndCalculateScore env order = .ok r := by
    rcases hrun with h | h
    · exact h
    · rw [SendGo.parse_eq_main] at h
      exact h
  obtain ⟨_, _, rfl⟩ := (parse_ok_iff env order horder r).1 hm
  refine ⟨?_, ?_, ?_, ?_⟩
  · exact rawScore_div _ _
  · exact rawScore_div _ _
  · exact rawScore_div _ _
  · intro name nf
    rw [horder.mem_iff]
    simp only [tests, List.mem_cons, Prod.mk.injEq, List.mem_singleton, List.not_mem_nil,
      or_false]
    tauto

theorem normalize_factors_used_witness :
    (BenchmarkResults.mk (97/2048) (97/1250) (388000/3)
        (97/2048 + 97/1250 + 388000/3)).ButterflyScore
      = rawScore 1 (rowsOf (envOf [butterflyHeader, exampleRow] [butterflyHeader, exampleRow]
          [butterflyHeader, exampleRow]) "butterfly") / 16384000 ∧
    (BenchmarkResults.mk (97/2048) (97/1250) (388000/3)
        (97/2048 + 97/1250 + 388000/3)).TrianglesScore
      = rawScore 1 (rowsOf (envOf [butterflyHeader, exampleRow] [butterflyHeader, exampleRow]
          [butterflyHeader, exampleRow]) "triangles") / 10000000 ∧
    (BenchmarkResults.mk (97/2048) (97/1250) (388000/3)
        (97/2048 + 97/1250 + 388000/3)).OceanScore
      = rawScore 1 (rowsOf (envOf [butterflyHeader, exampleRow] [butterflyHeader, exampleRow]
          [butterflyHeader, exampleRow]) "ocean") / 6 ∧
    (∀ name nf, (name, nf) ∈ tests ↔
      (name = "butterfly" ∧ nf = 16384000) ∨ (name = "triangles" ∧ nf = 10000000) ∨
        (name = "ocean" ∧ nf = 6)) :=
  normalize_factors_used
    (envOf [butterflyHeader, exampleRow] [butterflyHeader, exampleRow]
      [butterflyHeader, exampleRow]) tests
    ⟨97/2048, 97/1250, 388000/3, 97/2048 + 97/1250 + 388000/3⟩
    (List.Perm.refl _) (Or.inr (by decide!))

/-- C18: for every three record logs and every two iteration orders of the `tests` maps,
`parseResultsAndCalculateScore` of `main.go` and the one of `send.go` succeed on the
same inputs with the same four score values and fail on the same inputs; run with the
same iteration order they return the same outcome, the kind of error included. -/
theorem main_and_send_scorers_agree (env : Env) (order₁ order₂ : List (String × ℚ))
    (h₁ : order₁.Perm tests) (h₂ : order₂.Perm tests) :
    (∀ r, MainGo.parseResultsAndCalculateScore env order₁ = .ok r ↔
      SendGo.parseResultsAndCalculateScore env order₂ = .ok r) ∧
    ((∃ e, MainGo.parseResultsAndCalculateScore env order₁ = .error e) ↔
      ∃ e, SendGo.parseResultsAndCalculateScore env order₂ = .error e) ∧
    SendGo.parseResultsAndCalculateScore env order₁
      = MainGo.parseResultsAndCalculateScore env order₁ := by
  have hok : ∀ r, MainGo.parseResultsAndCalculateScore env order₁ = .ok r ↔
      SendGo.parseResultsAndCalculateScore env order₂ = .ok r := by
    intro r
    rw [SendGo.parse_eq_main, parse_ok_iff env order₁ h₁ r, parse_ok_iff env order₂ h₂ r]
  refine ⟨hok, ?_, by rw [SendGo.parse_eq_main]⟩
  have hs := parse_cases env order₂
  rw [parse_cases env order₁]
  rw [SendGo.parse_eq_main, hs]
  constructor
  · rintro hno ⟨r, hr⟩
    exact hno ⟨r, (hok r).2 (by rw [SendGo.parse_eq_main]; exact hr)⟩
  · rintro hno ⟨r, hr⟩
    exact hno ⟨r, by have := (hok r).1 hr; rw [SendGo.parse_eq_main] at this; exact this⟩

theorem main_and_send_scorers_agree_witness :
    (∀ r, MainGo.parseResultsAndCalculateScore
        (envOf [butterflyHeader, exampleRow] [butterflyHeader] [butterflyHeader, exampleRow])
        tests = .ok r ↔
      SendGo.parseResultsAndCalculateScore
        (envOf [butterflyHeader, exampleRow] [butterflyHeader] [butterflyHeader, exampleRow])
        [("triangles", 10000000), ("ocean", 6), ("butterfly", 16384000)] = .ok r) ∧
    ((∃ e, MainGo.parseResultsAndCalculateScore
        (envOf [butterflyHeader, exampleRow] [butterflyHeader] [butterflyHeader, exampleRow])
        tests = .error e) ↔
      ∃ e, SendGo.parseResultsAndCalculateScore
        (envOf [butterflyHeader, exampleRow] [butterflyHeader] [butterflyHeader, exampleRow])
        [("triangles", 10000000), ("ocean", 6), ("butterfly", 16384000)] = .error e) ∧
    SendGo.parseResultsAndCalculateScore
        (envOf [butterflyHeader, exampleRow] [butterflyHeader] [butterflyHeader, exampleRow])
        tests
      = MainGo.parseResultsAndCalculateScore
        (envOf [butterflyHeader, exampleRow] [butterflyHeader] [butterflyHeader, exampleRow])
        tests :=
  main_and_send_scorers_agree
    (envOf [butterflyHeader, exampleRow] [butterflyHeader] [butterflyHeader, exampleRow])
    tests [("triangles", 10000000), ("ocean", 6), ("butterfly", 16384000)]
    (List.Perm.refl _) (by decide!)

/-! ## Claims on `parseFPSResults` -/

theorem foldl_fpsRow (data : List Row) (acc : FpsAcc) :
    data.foldl SendGo.fpsRow acc =
      ⟨acc.avgFpsSum + (column 3 (wellFormed data)).sum,
       acc.minFpsSum + (column 4 (wellFormed data)).sum,
       acc.avgFpsHistory ++ (wellFormed data).map (fun row =>
          { Time := ParseFloat (row.getD 0 ""), Fps := ParseFloat (row.getD 3 "") }),
       acc.minFpsHistory ++ (wellFormed data).map (fun row =>
          { Time := ParseFloat (row.getD 0 ""), Fps := ParseFloat (row.getD 4 "") })⟩ := by
  induction data generalizing acc with
  | nil => simp [wellFormed, column]
  | cons row rest ih =>
    rw [List.foldl_cons, ih]
    by_cases h : row.length < 5
    · have h5 : ¬ 5 ≤ row.length := by omega
      simp [SendGo.fpsRow, h, wellFormed, h5]
    · have h5 : 5 ≤ row.length := by omega
      simp [SendGo.fpsRow, h, wellFormed, h5, column, add_assoc]

theorem fpsRows_eq (acc : List (String × FpsStats)) (name : String) (rows : List Row)
    (h : 1 < rows.length) :
    SendGo.fpsRows acc name rows
      = .ok (acc.filter (fun kv => kv.1 != name) ++ [(name, fpsStatsOf rows)]) := by
  have h1 : ¬ rows.length ≤ 1 := by omega
  have h2 : ((rows.drop 1).length : ℚ) > 0 := by
    have : 0 < (rows.drop 1).length := by simp; omega
    exact_mod_cast this
  unfold SendGo.fpsRows
  rw [if_neg h1]
  simp only [h2, if_true, foldl_fpsRow, fpsStatsOf]
  simp

theorem fpsTest_ok_iff (env : Env) (acc acc' : List (String × FpsStats)) (name : String) :
    SendGo.fpsTest env acc name = .ok acc' ↔
      LogOk env name ∧
        acc' = acc.filter (fun kv => kv.1 != name) ++ [(name, fpsStatsOf (rowsOf env name))] := by
  unfold SendGo.fpsTest LogOk rowsOf
  cases hf : env.file name with
  | unopenable => simp
  | records rs =>
    cases hr : ReadAll rs with
    | none => simp [hr]
    | some rows =>
      by_cases hl : 1 < rows.length
      · simp [hr, fpsRows_eq _ _ _ hl, hl, eq_comm]
      · have h1 : rows.length ≤ 1 := by omega
        simp [hr, SendGo.fpsRows, h1, hl]

theorem fpsTest_cases (env : Env) (acc : List (String × FpsStats)) (name : String) :
    (LogOk env name ∧ SendGo.fpsTest env acc name
        = .ok (acc.filter (fun kv => kv.1 != name) ++ [(name, fpsStatsOf (rowsOf env name))])) ∨
    (¬ LogOk env name ∧ ∃ e, SendGo.fpsTest env acc name = .error e) := by
  cases h : SendGo.fpsTest env acc name with
  | error e =>
    right
    refine ⟨fun hok => ?_, e, rfl⟩
    have := (fpsTest_ok_iff env acc _ name).2 ⟨hok, rfl⟩
    rw [h] at this
    cases this
  | ok a =>
    left
    obtain ⟨hok, rfl⟩ := (fpsTest_ok_iff env acc a name).1 h
    exact ⟨hok, rfl⟩

theorem parseFPSResults_ok_iff (env : Env) (fps : List (String × FpsStats)) :
    SendGo.parseFPSResults env = .ok fps ↔
      env.executableOk = true ∧ LogOk env "butterfly" ∧ LogOk env "triangles" ∧
        LogOk env "ocean" ∧
        fps = [("butterfly", fpsStatsOf (rowsOf env "butterfly")),
               ("triangles", fpsStatsOf (rowsOf env "triangles")),
               ("ocean", fpsStatsOf (rowsOf env "ocean"))] := by
  unfold SendGo.parseFPSResults
  cases he : env.executableOk with
  | false => simp
  | true =>
    simp only [if_true, true_and, List.foldlM_cons, List.foldlM_nil]
    have hb : ∀ (x : List (String × FpsStats))
        (g : List (String × FpsStats) → Except ScoreError (List (String × FpsStats))),
        (Except.ok x >>= g) = g x := fun _ _ => rfl
    have hbe : ∀ (e : ScoreError)
        (g : List (String × FpsStats) → Except ScoreError (List (String × FpsStats))),
        (Except.error e >>= g) = Except.error e := fun _ _ => rfl
    rcases fpsTest_cases env [] "butterfly" with ⟨hB, h1⟩ | ⟨hB, e, h1⟩
    · rw [h1, hb]
      rcases fpsTest_cases env
          (List.filter (fun kv => kv.1 != "butterfly") []
            ++ [("butterfly", fpsStatsOf (rowsOf env "butterfly"))]) "triangles"
        with ⟨hT, h2⟩ | ⟨hT, e, h2⟩
      · rw [h2, hb]
        rcases fpsTest_cases env
            (List.filter (fun kv => kv.1 != "triangles")
              (List.filter (fun kv => kv.1 != "butterfly") []
                ++ [("butterfly", fpsStatsOf (rowsOf env "butterfly"))])
              ++ [("triangles", fpsStatsOf (rowsOf env "triangles"))]) "ocean"
          with ⟨hO, h3⟩ | ⟨hO, e, h3⟩
        · rw [h3, hb]
          simp [hB, hT, hO, pure, Except.pure, eq_comm]
        · rw [h3, hbe]
          simp [hO]
      · rw [h2, hbe]
        simp [hT]
    · rw [h1, hbe]
      simp [hB]

theorem fpsOf_result (env : Env) (name : String)
    (hname : name = "butterfly" ∨ name = "triangles" ∨ name = "ocean") :
    SendGo.fpsOf [("butterfly", fpsStatsOf (rowsOf env "butterfly")),
        ("triangles", fpsStatsOf (rowsOf env "triangles")),
        ("ocean", fpsStatsOf (rowsOf env "ocean"))] name
      = fpsStatsOf (rowsOf env name) := by
  rcases hname with rfl | rfl | rfl <;> simp [SendGo.fpsOf, List.find?]

/-- C16: when `parseFPSResults` succeeds, the entry it returns for a test whose log is
the header followed by `data` has an `AvgHistory` and a `MinHistory` with one entry per
data row of at least 5 fields, in log order: the entry of a row carries the row's time
field as `Time` and its avg-FPS (respectively min-FPS) field as `Fps`; the two
histories have the same length and the same timestamps position by position. -/
theorem fps_histories (env : Env) (fps : List (String × FpsStats)) (name : String)
    (hdr : Row) (data : List Row)
    (hname : name = "butterfly" ∨ name = "triangles" ∨ name = "ocean")
    (hfile : env.file name = .records (hdr :: data))
    (hrun : SendGo.parseFPSResults env = .ok fps) :
    (SendGo.fpsOf fps name).AvgHistory = (wellFormed data).map (fun row =>
      { Time := ParseFloat (row.getD 0 ""), Fps := ParseFloat (row.getD 3 "") }) ∧
    (SendGo.fpsOf fps name).MinHistory = (wellFormed data).map (fun row =>
      { Time := ParseFloat (row.getD 0 ""), Fps := ParseFloat (row.getD 4 "") }) ∧
    (SendGo.fpsOf fps name).AvgHistory.length = (SendGo.fpsOf fps name).MinHistory.length ∧
    (SendGo.fpsOf fps name).AvgHistory.map FpsEntry.Time
      = (SendGo.fpsOf fps name).MinHistory.map FpsEntry.Time ∧
    data ≠ [] := by
  obtain ⟨_, hB, hT, hO, rfl⟩ := (parseFPSResults_ok_iff env fps).1 hrun
  have hok : LogOk env name := by
    rcases hname with rfl | rfl | rfl
    · exact hB
    · exact hT
    · exact hO
  have hrows : rowsOf env name = hdr :: data := rowsOf_eq env name _ hfile hok
  have hdata : data ≠ [] := by
    obtain ⟨rs, rows, h1, h2, h3⟩ := hok
    rw [hfile] at h1
    cases h1
    have := readAll_eq h2
    subst this
    intro hnil
    rw [hnil] at h3
    simp at h3
  rw [fpsOf_result env name hname, hrows]
  refine ⟨rfl, rfl, ?_, ?_, hdata⟩
  · simp [fpsStatsOf]
  · simp [fpsStatsOf, Function.comp_def]

theorem fps_histories_witness :
    (SendGo.fpsOf
        [("butterfly", ⟨50, 50, [⟨1/2, 50⟩], [⟨1/2, 50⟩]⟩),
         ("triangles", ⟨100, 90, [⟨5, 100⟩], [⟨5, 90⟩]⟩),
         ("ocean", ⟨100, 90, [⟨5, 100⟩], [⟨5, 90⟩]⟩)] "butterfly").AvgHistory
      = (wellFormed [["0.5", "1", "8000", "50.0", "50.0"]]).map (fun row =>
        { Time := ParseFloat (row.getD 0 ""), Fps := ParseFloat (row.getD 3 "") }) ∧
    (SendGo.fpsOf
        [("butterfly", ⟨50, 50, [⟨1/2, 50⟩], [⟨1/2, 50⟩]⟩),
         ("triangles", ⟨100, 90, [⟨5, 100⟩], [⟨5, 90⟩]⟩),
         ("ocean", ⟨100, 90, [⟨5, 100⟩], [⟨5, 90⟩]⟩)] "butterfly").MinHistory
      = (wellFormed [["0.5", "1", "8000", "50.0", "50.0"]]).map (fun row =>
        { Time := ParseFloat (row.getD 0 ""), Fps := ParseFloat (row.getD 4 "") }) ∧
    (SendGo.fpsOf
        [("butterfly", ⟨50, 50, [⟨1/2, 50⟩], [⟨1/2, 50⟩]⟩),
         ("triangles", ⟨100, 90, [⟨5, 100⟩], [⟨5, 90⟩]⟩),
         ("ocean", ⟨100, 90, [⟨5, 100⟩], [⟨5, 90⟩]⟩)] "butterfly").AvgHistory.length
      = (SendGo.fpsOf
        [("butterfly", ⟨50, 50, [⟨1/2, 50⟩], [⟨1/2, 50⟩]⟩),
         ("triangles", ⟨100, 90, [⟨5, 100⟩], [⟨5, 90⟩]⟩),
         ("ocean", ⟨100, 90, [⟨5, 100⟩], [⟨5, 90⟩]⟩)] "butterfly").MinHistory.length ∧
    (SendGo.fpsOf
        [("butterfly", ⟨50, 50, [⟨1/2, 50⟩], [⟨1/2, 50⟩]⟩),
         ("triangles", ⟨100, 90, [⟨5, 100⟩], [⟨5, 90⟩]⟩),
         ("ocean", ⟨100, 90, [⟨5, 100⟩], [⟨5, 90⟩]⟩)] "butterfly").AvgHistory.map FpsEntry.Time
      = (SendGo.fpsOf
        [("butterfly", ⟨50, 50, [⟨1/2, 50⟩], [⟨1/2, 50⟩]⟩),
         ("triangles", ⟨100, 90, [⟨5, 100⟩], [⟨5, 90⟩]⟩),
         ("ocean", ⟨100, 90, [⟨5, 100⟩], [⟨5, 90⟩]⟩)] "butterfly").MinHistory.map FpsEntry.Time ∧
    [["0.5", "1", "8000", "50.0", "50.0"]] ≠ ([] : List Row) :=
  fps_histories
    (envOf exampleEnd.rows [Triangles.config.header, exampleRow] [butterflyHeader, exampleRow])
    [("butterfly", ⟨50, 50, [⟨1/2, 50⟩], [⟨1/2, 50⟩]⟩),
     ("triangles", ⟨100, 90, [⟨5, 100⟩], [⟨5, 90⟩]⟩),
     ("ocean", ⟨100, 90, [⟨5, 100⟩], [⟨5, 90⟩]⟩)]
    "butterfly" Butterfly.config.header [["0.5", "1", "8000", "50.0", "50.0"]]
    (Or.inl rfl) rfl (by decide!)

/-! ## Claims on runs of the render loop -/

theorem step_ok_inv (cfg : Config) (s : LoopState) (f : Frame)
    (hst : 0 < cfg.stageTime) (he : 0 ≤ f.timeElapsed)
    (hinv : index? cfg.particleCounts s.currentStage = some s.workload) :
    ∃ s' fl, step cfg s f = .ok (s', fl) ∧
      index? cfg.particleCounts s'.currentStage = some s'.workload ∧
      ∀ x, fl = some x → x.record.stage = s'.currentStage + 1 ∧
        x.record.workload = (s'.workload : Int) := by
  obtain ⟨w', hupd, hw'⟩ := stageUpdate_ok cfg s.currentStage s.workload f.timeElapsed hst he
  have hidx := hw' hinv
  generalize (if ⌊f.timeElapsed / cfg.stageTime⌋ < (cfg.particleCounts.length : Int)
    then ⌊f.timeElapsed / cfg.stageTime⌋ else s.currentStage) = c at hupd hidx
  obtain ⟨m, hm, _, _⟩ := maxFrameTime_spec (s.frameTimes ++ [f.frameTime]) (by simp)
  have hwf : workloadField cfg c w' = .ok (w' : Int) := by
    unfold workloadField
    cases cfg.kind with
    | butterfly => rfl
    | triangles => simp only [hidx]
  unfold step
  rw [hupd]
  by_cases hc : f.checkTime - s.lastRecordTime ≥ 0.5
  · simp only [hc, if_true, hm, hwf]
    refine ⟨_, _, rfl, hidx, ?_⟩
    intro x hx
    simp only [Option.some.injEq] at hx
    subst hx
    exact ⟨rfl, rfl⟩
  · simp only [hc, if_false]
    refine ⟨_, _, rfl, hidx, ?_⟩
    intro x hx
    cases hx

theorem index?_bounds (xs : List Nat) (i : Int) (n : Nat) (h : index? xs i = some n) :
    0 ≤ i ∧ i < (xs.length : Int) := by
  unfold index? at h
  split at h
  · cases h
  · rename_i hi
    have hlt : i.toNat < xs.length := by
      by_contra hge
      rw [List.getElem?_eq_none (by omega)] at h
      cases h
    omega

theorem runLoop_ok_inv (cfg : Config) (hst : 0 < cfg.stageTime) (frames : List Frame) :
    ∀ s : LoopState, (∀ f ∈ frames, 0 ≤ f.timeElapsed) →
      index? cfg.particleCounts s.currentStage = some s.workload →
      ∃ s' fls, runLoop cfg s frames = .ok (s', fls) ∧
        index? cfg.particleCounts s'.currentStage = some s'.workload ∧
        ∀ x ∈ fls, ∃ n, index? cfg.particleCounts (x.record.stage - 1) = some n ∧
          x.record.workload = (n : Int) := by
  induction frames with
  | nil =>
    intro s _ hinv
    exact ⟨s, [], rfl, hinv, fun x hx => by cases hx⟩
  | cons f rest ih =>
    intro s hpos hinv
    unfold runLoop
    by_cases hc : (!f.shouldClose) = true ∧ f.loopTime < cfg.testDuration
    · rw [if_pos hc]
      obtain ⟨s1, fl1, hstep, hinv1, hrec⟩ :=
        step_ok_inv cfg s f hst (hpos f (List.mem_cons_self _ _)) hinv
      obtain ⟨s2, fls2, hrun, hinv2, hall⟩ :=
        ih s1 (fun g hg => hpos g (List.mem_cons_of_mem _ hg)) hinv1
      refine ⟨s2, fl1.toList ++ fls2, by simp only [hstep, hrun], hinv2, ?_⟩
      intro x hx
      rcases List.mem_append.1 hx with h1 | h2
      · cases fl1 with
        | none => cases h1
        | some x0 =>
          simp only [Option.toList_some, List.mem_singleton] at h1
          subst h1
          obtain ⟨hs, hw⟩ := hrec x rfl
          refine ⟨s1.workload, ?_, hw⟩
          rw [hs]
          simpa using hinv1
      · exact hall x h2
    · rw [if_neg hc]
      exact ⟨s, [], rfl, hinv, fun x hx => by cases hx⟩

/-- C17: every run of the butterfly or of the triangles loop, from the start of the
main test and over any passes with non-negative elapsed times, ends without a panic
in a state whose stage index lies in `0 .. len(particleCounts) - 1` and whose data set
has the size `particleCounts[currentStage]`; every record it flushed has a stage field
in `1 .. len(particleCounts)` and a workload field equal to `particleCounts` at the
stage field minus one; and in every pass that flushes, the record's stage field is
`currentStage + 1`. -/
theorem stage_stays_in_bounds (cfg : Config) (s₀ : LoopState) (frames : List Frame)
    (hcfg : cfg = Butterfly.config ∨ cfg = Triangles.config)
    (hinit : initState cfg = .ok s₀) (hpos : ∀ f ∈ frames, 0 ≤ f.timeElapsed) :
    ∃ s' fls, runLoop cfg s₀ frames = .ok (s', fls) ∧
      0 ≤ s'.currentStage ∧ s'.currentStage < (cfg.particleCounts.length : Int) ∧
      index? cfg.particleCounts s'.currentStage = some s'.workload ∧
      (∀ x ∈ fls, 1 ≤ x.record.stage ∧ x.record.stage ≤ (cfg.particleCounts.length : Int) ∧
        ∃ n, index? cfg.particleCounts (x.record.stage - 1) = some n ∧
          x.record.workload = (n : Int)) ∧
      ∀ (s s₁ : LoopState) (f : Frame) (x : Flush), step cfg s f = .ok (s₁, some x) →
        x.record.stage = s₁.currentStage + 1 := by
  have hst : 0 < cfg.stageTime := by
    rcases hcfg with rfl | rfl <;> decide!
  obtain ⟨_, _, hstage, _, hidx⟩ := initState_rows cfg s₀ hinit
  have hinv : index? cfg.particleCounts s₀.currentStage = some s₀.workload := by
    rw [hstage]
    exact hidx
  obtain ⟨s', fls, hrun, hinv', hall⟩ := runLoop_ok_inv cfg hst frames s₀ hpos hinv
  have hb := index?_bounds _ _ _ hinv'
  refine ⟨s', fls, hrun, hb.1, hb.2, hinv', ?_, ?_⟩
  · intro x hx
    obtain ⟨n, hn, hw⟩ := hall x hx
    have hbx := index?_bounds _ _ _ hn
    exact ⟨by omega, by omega, n, hn, hw⟩
  · intro s s₁ f x hstep
    unfold step at hstep
    cases hsu : stageUpdate cfg s.currentStage s.workload f.timeElapsed with
    | error e =>
      rw [hsu] at hstep
      cases hstep
    | ok p =>
      obtain ⟨stage, load⟩ := p
      rw [hsu] at hstep
      by_cases hc : f.checkTime - s.lastRecordTime ≥ 0.5
      · simp only [hc, if_true] at hstep
        cases hm : maxFrameTime (s.frameTimes ++ [f.frameTime]) with
        | none =>
          rw [hm] at hstep
          cases hstep
        | some m =>
          rw [hm] at hstep
          cases hw : workloadField cfg stage load with
          | error e =>
            rw [hw] at hstep
            cases hstep
          | ok w =>
            rw [hw] at hstep
            simp only [Except.ok.injEq, Prod.mk.injEq, Option.some.injEq] at hstep
            obtain ⟨rfl, rfl⟩ := hstep
            rfl
      · simp only [hc, if_false] at hstep
        simp only [Except.ok.injEq, Prod.mk.injEq] at hstep
        cases hstep.2

theorem stage_stays_in_bounds_witness :
    ∃ s' fls, runLoop Butterfly.config exampleStart [exampleFrame] = .ok (s', fls) ∧
      0 ≤ s'.currentStage ∧ s'.currentStage < (Butterfly.config.particleCounts.length : Int) ∧
      index? Butterfly.config.particleCounts s'.currentStage = some s'.workload ∧
      (∀ x ∈ fls, 1 ≤ x.record.stage ∧
        x.record.stage ≤ (Butterfly.config.particleCounts.length : Int) ∧
        ∃ n, index? Butterfly.config.particleCounts (x.record.stage - 1) = some n ∧
          x.record.workload = (n : Int)) ∧
      ∀ (s s₁ : LoopState) (f : Frame) (x : Flush),
        step Butterfly.config s f = .ok (s₁, some x) →
          x.record.stage = s₁.currentStage + 1 :=
  stage_stays_in_bounds Butterfly.config exampleStart [exampleFrame] (Or.inl rfl)
    (by decide!) (by decide!)

/-- The triangles loop starts like the butterfly loop, with its own first data set. -/
theorem triangles_initState :
    initState Triangles.config
      = .ok { frameTimes := [], currentStage := 0, workload := 10000, lastRecordTime := 0,
              rows := [Triangles.config.header] } := by
  decide!

/-- C19: one pass of the render loop writes a record exactly when at least 0.5 s have
passed since `lastRecordTime` (the test start before the first record).  A pass that
writes appends one row, empties `frameTimes` and sets `lastRecordTime` to the clock; a
pass that does not write keeps the rows and the interval and keeps accumulating.  When
the loop condition fails, by window close or by the test duration, the loop ends with
the state unchanged: the accumulated samples go into no row, and the rows of a run are
the rows before it plus exactly one per flush. -/
theorem flush_exactly_when_due (cfg : Config) (s s' : LoopState) (f : Frame)
    (fl : Option Flush) (h : step cfg s f = .ok (s', fl)) :
    (fl.isSome = true ↔ f.checkTime - s.lastRecordTime ≥ 0.5) ∧
    (∀ x, fl = some x → x.window = s.frameTimes ++ [f.frameTime] ∧ s'.frameTimes = [] ∧
      s'.lastRecordTime = f.recordTime ∧ s'.rows = s.rows ++ [x.record.toRow]) ∧
    (fl = none → s'.frameTimes = s.frameTimes ++ [f.frameTime] ∧
      s'.lastRecordTime = s.lastRecordTime ∧ s'.rows = s.rows) ∧
    (∀ (g : Frame) (rest : List Frame),
      (g.shouldClose = true ∨ cfg.testDuration ≤ g.loopTime) →
        runLoop cfg s' (g :: rest) = .ok (s', [])) ∧
    (∀ (frames : List Frame) (s'' : LoopState) (fls : List Flush),
      runLoop cfg s' frames = .ok (s'', fls) →
        s''.rows = s'.rows ++ fls.map (fun x => x.record.toRow)) ∧
    (∀ s₀, initState cfg = .ok s₀ → s₀.lastRecordTime = 0 ∧ s₀.frameTimes = []) := by
  have hend : ∀ (g : Frame) (rest : List Frame),
      (g.shouldClose = true ∨ cfg.testDuration ≤ g.loopTime) →
        runLoop cfg s' (g :: rest) = .ok (s', []) := by
    intro g rest hg
    unfold runLoop
    rw [if_neg]
    rintro ⟨h1, h2⟩
    rcases hg with hg | hg
    · rw [hg] at h1
      cases h1
    · exact absurd h2 (not_lt.2 hg)
  have hinit : ∀ s₀, initState cfg = .ok s₀ → s₀.lastRecordTime = 0 ∧ s₀.frameTimes = [] :=
    fun s₀ h₀ => ⟨(initState_rows cfg s₀ h₀).2.2.2.1, (initState_rows cfg s₀ h₀).2.1⟩
  refine ⟨?_, ?_, ?_, hend, fun frames s'' fls hr => runLoop_rows cfg frames s' s'' fls hr,
    hinit⟩
  all_goals
    unfold step at h
    cases hsu : stageUpdate cfg s.currentStage s.workload f.timeElapsed with
    | error e =>
      rw [hsu] at h
      cases h
    | ok p =>
      obtain ⟨stage, load⟩ := p
      rw [hsu] at h
      by_cases hc : f.checkTime - s.lastRecordTime ≥ 0.5
      · simp only [hc, if_true] at h
        cases hm : maxFrameTime (s.frameTimes ++ [f.frameTime]) with
        | none =>
          rw [hm] at h
          cases h
        | some m =>
          rw [hm] at h
          cases hw : workloadField cfg stage load with
          | error e =>
            rw [hw] at h
            cases h
          | ok w =>
            rw [hw] at h
            simp only [Except.ok.injEq, Prod.mk.injEq] at h
            obtain ⟨rfl, rfl⟩ := h
            first
              | exact ⟨fun _ => hc, fun _ => rfl⟩
              | (intro x hx
                 simp only [Option.some.injEq] at hx
                 subst hx
                 exact ⟨rfl, rfl, rfl, rfl⟩)
              | (intro hx
                 cases hx)
      · simp only [hc, if_false] at h
        simp only [Except.ok.injEq, Prod.mk.injEq] at h
        obtain ⟨rfl, rfl⟩ := h
        first
          | exact ⟨fun hx => by simp at hx, fun hx => absurd hx hc⟩
          | (intro x hx
             cases hx)
          | (intro _
             exact ⟨rfl, rfl, rfl⟩)

theorem flush_exactly_when_due_witness :
    ((some (⟨[1/50], exampleRecord⟩ : Flush)).isSome = true ↔
      exampleFrame.checkTime - exampleStart.lastRecordTime ≥ 0.5) ∧
    (∀ x, some (⟨[1/50], exampleRecord⟩ : Flush) = some x →
      x.window = exampleStart.frameTimes ++ [exampleFrame.frameTime] ∧
      exampleEnd.frameTimes = [] ∧ exampleEnd.lastRecordTime = exampleFrame.recordTime ∧
      exampleEnd.rows = exampleStart.rows ++ [x.record.toRow]) ∧
    (some (⟨[1/50], exampleRecord⟩ : Flush) = none →
      exampleEnd.frameTimes = exampleStart.frameTimes ++ [exampleFrame.frameTime] ∧
      exampleEnd.lastRecordTime = exampleStart.lastRecordTime ∧
      exampleEnd.rows = exampleStart.rows) ∧
    (∀ (g : Frame) (rest : List Frame),
      (g.shouldClose = true ∨ Butterfly.config.testDuration ≤ g.loopTime) →
        runLoop Butterfly.config exampleEnd (g :: rest) = .ok (exampleEnd, [])) ∧
    (∀ (frames : List Frame) (s'' : LoopState) (fls : List Flush),
      runLoop Butterfly.config exampleEnd frames = .ok (s'', fls) →
        s''.rows = exampleEnd.rows ++ fls.map (fun x => x.record.toRow)) ∧
    (∀ s₀, initState Butterfly.config = .ok s₀ → s₀.lastRecordTime = 0 ∧ s₀.frameTimes = []) :=
  flush_exactly_when_due Butterfly.config exampleStart exampleEnd exampleFrame
    (some ⟨[1/50], exampleRecord⟩) (by decide!)

/-- Two passes of the butterfly loop, the second of which finds the window closed: the
first pass does not flush (0.3 s since the start), the loop then ends, and the one
accumulated sample stays in `frameTimes` while the log holds the header only. -/
theorem partial_window_discarded :
    runLoop Butterfly.config exampleStart
        [{ shouldClose := false, loopTime := 1/4, frameTime := 1/50, timeElapsed := 3/10,
           checkTime := 3/10, recordTime := 3/10 },
         { shouldClose := true, loopTime := 31/100, frameTime := 1/50, timeElapsed := 4/10,
           checkTime := 4/10, recordTime := 4/10 }]
      = .ok ({ frameTimes := [1/50], currentStage := 0, workload := 8000, lastRecordTime := 0,
               rows := [Butterfly.config.header] }, []) := by
  decide!

/-! ## Claims on the ordering of the two rates -/

/-- The rounded sum of a window of positive `float64` durations: the first addition
`0 + ft` is exact, each later one rounds once. -/
theorem totalFrameTime64_bound (frameTimes : List ℚ) (hne : frameTimes ≠ [])
    (hfloat : ∀ ft ∈ frameTimes, roundFloat64 ft = ft) (hpos : ∀ ft ∈ frameTimes, 0 < ft) :
    0 < totalFrameTime64 frameTimes ∧
    totalFrameTime64 frameTimes
      ≤ frameTimes.sum * (1 + 1 / 2 ^ 53) ^ (frameTimes.length - 1) := by
  obtain ⟨x, rest, rfl⟩ := List.exists_cons_of_ne_nil hne
  have hx : 0 < x := hpos x (List.mem_cons_self _ _)
  have hrest : ∀ ft ∈ rest, 0 < ft := fun ft h => hpos ft (List.mem_cons_of_mem _ h)
  have h0 : roundFloat64 (0 + x) = x := by
    rw [zero_add]; exact hfloat x (List.mem_cons_self _ _)
  unfold totalFrameTime64
  simp only [List.foldl_cons, h0, List.sum_cons, List.length_cons, Nat.add_sub_cancel]
  exact foldl_add64_bound rest hrest x hx

/-- The exact sum of a window is at most its length times its largest duration. -/
theorem sum_le_length_mul_max (frameTimes : List ℚ) (m : ℚ)
    (hmax : ∀ ft ∈ frameTimes, ft ≤ m) : frameTimes.sum ≤ (frameTimes.length : ℚ) * m := by
  have := List.sum_le_card_nsmul frameTimes m hmax
  simpa [nsmul_eq_mul] using this

/-- Before rounding the two rates are ordered: for a non-empty window of positive
durations the exact quotient `1 / largest` is at most the exact quotient
`count / sum`. -/
theorem minFPS_le_avgFPS_exact (frameTimes : List ℚ) (hne : frameTimes ≠ [])
    (hpos : ∀ ft ∈ frameTimes, 0 < ft) :
    ∃ m, minFPS frameTimes = some m ∧ m ≤ avgFPS frameTimes := by
  obtain ⟨m, hm, hmem, hmax⟩ := maxFrameTime_spec frameTimes hne
  have hmpos : 0 < m := hpos m hmem
  have hsum : 0 < frameTimes.sum := List.sum_pos frameTimes hpos hne
  have hle := sum_le_length_mul_max frameTimes m hmax
  refine ⟨1 / m, by simp [minFPS, hm], ?_⟩
  rw [avgFPS, totalFrameTime_eq_sum, div_le_div_iff₀ hmpos hsum]
  linarith

/-- C20 (amended): a non-empty sampling window of at most `2^53` frame durations, each
a `float64` between `2^-30` and `2^34` seconds (every positive `time.Duration` gives
such a value, and within these bounds no operation of the loop overflows or
underflows).  For the `float64` values the loop computes, `minFPS` (1 / largest
duration) is at most `avgFPS` (count / sum of durations) up to the rounding of the
sum and of the two quotients: `minFPS * (1 - 2^-53) ≤ avgFPS * (1 + 2^-53) ^ count`. -/
theorem min_fps_le_avg_fps (frameTimes : List ℚ) (hne : frameTimes ≠ [])
    (hfloat : ∀ ft ∈ frameTimes, roundFloat64 ft = ft)
    (hrange : ∀ ft ∈ frameTimes, 1 / 2 ^ 30 ≤ ft ∧ ft ≤ 2 ^ 34)
    (hcount : frameTimes.length ≤ 2 ^ 53) :
    ∃ m, minFPS64 frameTimes = some m ∧
      m * (1 - 1 / 2 ^ 53) ≤ avgFPS64 frameTimes * (1 + 1 / 2 ^ 53) ^ frameTimes.length := by
  have hpos : ∀ ft ∈ frameTimes, 0 < ft := fun ft h =>
    lt_of_lt_of_le (by norm_num) (hrange ft h).1
  obtain ⟨M, hM, hmem, hmax⟩ := maxFrameTime_spec frameTimes hne
  have hMpos : 0 < M := hpos M hmem
  obtain ⟨hT, hTle⟩ := totalFrameTime64_bound frameTimes hne hfloat hpos
  have hS : frameTimes.sum ≤ (frameTimes.length : ℚ) * M := sum_le_length_mul_max frameTimes M hmax
  have hlen : 0 < frameTimes.length := List.length_pos.2 hne
  have hn : (0 : ℚ) < frameTimes.length := by exact_mod_cast hlen
  refine ⟨roundFloat64 (1 / M), by simp [minFPS64, hM], ?_⟩
  unfold avgFPS64
  rw [roundFloat64_natCast _ hcount]
  set T := totalFrameTime64 frameTimes with hTdef
  set n : ℚ := (frameTimes.length : ℚ) with hndef
  set u : ℚ := 1 / 2 ^ 53 with hu
  have hu0 : 0 < u := by rw [hu]; positivity
  have hu1 : u < 1 := by rw [hu]; norm_num
  have hmin : roundFloat64 (1 / M) ≤ 1 / M * (1 + u) :=
    roundFloat64_le (1 / M) (by positivity)
  have havg : n / T * (1 - u) ≤ roundFloat64 (n / T) :=
    roundFloat64_ge (n / T) (by positivity)
  have hpow : (1 + u) ^ frameTimes.length = (1 + u) ^ (frameTimes.length - 1) * (1 + u) := by
    rw [← pow_succ]; congr 1; omega
  have hP : (0 : ℚ) < (1 + u) ^ (frameTimes.length - 1) := by positivity
  -- 1 / M * (1 + u) ≤ n / T * (1 + u) ^ length
  have hkey : 1 / M * (1 + u) ≤ n / T * (1 + u) ^ frameTimes.length := by
    rw [hpow]
    have h1 : 1 / M ≤ n / T * (1 + u) ^ (frameTimes.length - 1) := by
      rw [div_mul_eq_mul_div, div_le_div_iff₀ hMpos hT]
      calc 1 * T ≤ frameTimes.sum * (1 + u) ^ (frameTimes.length - 1) := by rw [one_mul]; exact hTle
        _ ≤ (n * M) * (1 + u) ^ (frameTimes.length - 1) := mul_le_mul_of_nonneg_right hS hP.le
        _ = n * (1 + u) ^ (frameTimes.length - 1) * M := by ring
    calc 1 / M * (1 + u) ≤ (n / T * (1 + u) ^ (frameTimes.length - 1)) * (1 + u) :=
          mul_le_mul_of_nonneg_right h1 (by linarith)
      _ = n / T * ((1 + u) ^ (frameTimes.length - 1) * (1 + u)) := by ring
  have hPn : (0 : ℚ) < (1 + u) ^ frameTimes.length := by positivity
  calc roundFloat64 (1 / M) * (1 - u) ≤ (1 / M * (1 + u)) * (1 - u) :=
        mul_le_mul_of_nonneg_right hmin (by linarith)
    _ ≤ (n / T * (1 + u) ^ frameTimes.length) * (1 - u) :=
        mul_le_mul_of_nonneg_right hkey (by linarith)
    _ = (n / T * (1 - u)) * (1 + u) ^ frameTimes.length := by ring
    _ ≤ roundFloat64 (n / T) * (1 + u) ^ frameTimes.length :=
        mul_le_mul_of_nonneg_right havg hPn.le

theorem min_fps_le_avg_fps_witness :
    ∃ m, minFPS64 [tenth, tenth, tenth] = some m ∧
      m * (1 - 1 / 2 ^ 53)
        ≤ avgFPS64 [tenth, tenth, tenth] * (1 + 1 / 2 ^ 53) ^ [tenth, tenth, tenth].length :=
  min_fps_le_avg_fps [tenth, tenth, tenth] (by decide) (by decide!) (by decide!) (by decide)

/-- C20 (as stated, refuted): a window of three frames of 0.1 s each (the `float64`
that `0.1` denotes), non-empty and all durations strictly positive.  The rounded sum
is 0.30000000000000004, so `avgFPS` is `3 / 0.30000000000000004`, which rounds to
`10 - 2^-49` = 9.999999999999998, while `minFPS` is `1 / 0.1`, which rounds to 10:
`minFPS` is greater than `avgFPS`. -/
theorem min_fps_exceeds_avg_fps :
    [tenth, tenth, tenth] ≠ [] ∧ (∀ ft ∈ [tenth, tenth, tenth], 0 < ft) ∧
    roundFloat64 (1 / 10) = tenth ∧
    totalFrameTime64 [tenth, tenth, tenth] = 5404319552844596 / 2 ^ 54 ∧
    avgFPS64 [tenth, tenth, tenth] = 10 - 1 / 2 ^ 49 ∧
    minFPS64 [tenth, tenth, tenth] = some 10 ∧
    ¬ ((10 : ℚ) ≤ avgFPS64 [tenth, tenth, tenth]) := by
  refine ⟨by decide, by decide!, by decide!, by decide!, by decide!, by decide!, by decide!⟩

/-! ## Claims on the argument vector of `send.go` -/

theorem main_short_args (env : Env) (sys : SystemInfo) (args : List String)
    (h5 : 5 ≤ args.length) (h8 : args.length < 8) :
    SendGo.main env sys args = .error .argsIndex := by
  rcases args with _ | ⟨a0, _ | ⟨a1, _ | ⟨a2, _ | ⟨a3, _ | ⟨a4, rest⟩⟩⟩⟩⟩
  all_goals simp only [List.length_cons, List.length_nil] at h5
  all_goals try omega
  rcases rest with _ | ⟨a5, _ | ⟨a6, _ | ⟨a7, rest⟩⟩⟩
  · rfl
  · rfl
  · rfl
  · simp only [List.length_cons] at h8
    omega

theorem main_reads_in_bounds (args : List String) (h8 : 8 ≤ args.length) :
    ∀ i, 1 ≤ i → i ≤ 7 → ∃ a, SendGo.arg args i = .ok a := by
  intro i _ hi
  have hlt : i < args.length := by omega
  refine ⟨args[i], ?_⟩
  unfold SendGo.arg
  rw [List.getElem?_eq_getElem hlt]

/-- C21 (the code at a failing input): `send.exe` started with four arguments.  The
argument vector has length 5, so the guard `len(os.Args) < 5` lets it pass; the reads
of `os.Args[1]` to `os.Args[4]` succeed and the read of `os.Args[5]` panics with an
index out of range.  The same holds for every argument vector of length 5, 6 or 7;
only from length 8 on are all seven reads in bounds. -/
theorem main_panics_on_four_arguments :
    ¬ (["send.exe", "0.047363", "0.077600", "129333.333333", "129333.458297"].length < 5) ∧
    SendGo.arg ["send.exe", "0.047363", "0.077600", "129333.333333", "129333.458297"] 4
      = .ok "129333.458297" ∧
    SendGo.arg ["send.exe", "0.047363", "0.077600", "129333.333333", "129333.458297"] 5
      = .error .argsIndex ∧
    SendGo.main
        (envOf [butterflyHeader, exampleRow] [butterflyHeader, exampleRow]
          [butterflyHeader, exampleRow]) exampleSystem
        ["send.exe", "0.047363", "0.077600", "129333.333333", "129333.458297"]
      = .error .argsIndex ∧
    (∀ (env : Env) (sys : SystemInfo) (args : List String),
      5 ≤ args.length → args.length < 8 → SendGo.main env sys args = .error .argsIndex) ∧
    (∀ args : List String, 8 ≤ args.length →
      ∀ i, 1 ≤ i → i ≤ 7 → ∃ a, SendGo.arg args i = .ok a) := by
  refine ⟨by decide, by decide, by decide, by decide!, main_short_args, main_reads_in_bounds⟩

/-! ## Claims on logs whose rows are all short -/

theorem wellFormed_eq_nil (data : List Row) (h : ∀ row ∈ data, row.length < 5) :
    wellFormed data = [] := by
  unfold wellFormed
  rw [List.filter_eq_nil_iff]
  intro row hrow
  have := h row hrow
  simp only [decide_eq_true_eq]
  omega

theorem rawScore_short (nf : ℚ) (hdr : Row) (data : List Row)
    (h : ∀ row ∈ data, row.length < 5) : rawScore nf (hdr :: data) = 0 := by
  rw [rawScore_cons, wellFormed_eq_nil data h]
  simp [column]

theorem fpsStatsOf_short (hdr : Row) (data : List Row)
    (h : ∀ row ∈ data, row.length < 5) : fpsStatsOf (hdr :: data) = ⟨0, 0, [], []⟩ := by
  simp [fpsStatsOf, wellFormed_eq_nil data h, column]

/-- What the row loops do with a log of short rows that reaches them: a record log that
`ReadAll` accepts (every record, the header included, has the same number of fields),
with at least one data row and with data rows that all have fewer than 5 fields.  If
the other two logs are fine, `parseResultsAndCalculateScore` (of `main.go` and of
`send.go`, any iteration order) succeeds with that test's score exactly 0, and
`parseFPSResults` succeeds and reports `Avg = 0`, `Min = 0` and empty histories for
it.  The log of the runners, with its five-field header, is not such a log. -/
theorem all_short_rows_score_zero (env : Env) (order : List (String × ℚ)) (name : String)
    (nf : ℚ) (hdr : Row) (data : List Row)
    (hexe : env.executableOk = true) (horder : order.Perm tests)
    (htest : (name, nf) ∈ tests)
    (hfile : env.file name = .records (hdr :: data))
    (hread : ReadAll (hdr :: data) ≠ none)
    (hdata : data ≠ []) (hshort : ∀ row ∈ data, row.length < 5)
    (hothers : ∀ t ∈ tests, t.1 ≠ name → LogOk env t.1) :
    ∃ r fps,
      MainGo.parseResultsAndCalculateScore env order = .ok r ∧
      SendGo.parseResultsAndCalculateScore env order = .ok r ∧
      r.scoreOf name = 0 ∧
      SendGo.parseFPSResults env = .ok fps ∧
      SendGo.fpsOf fps name = ⟨0, 0, [], []⟩ := by
  have hlen : 1 < (hdr :: data).length := by
    have : 0 < data.length := List.length_pos.2 hdata
    simp only [List.length_cons]
    omega
  have hok : LogOk env name := (logOk_iff env name _ hfile hread).2 hlen
  have hall : ∀ t ∈ tests, LogOk env t.1 := by
    intro t ht
    by_cases hn : t.1 = name
    · rw [hn]
      exact hok
    · exact hothers t ht hn
  have hrun := (parse_ok_iff env order horder (finalResults env)).2 ⟨hexe, hall, rfl⟩
  have hrows : rowsOf env name = hdr :: data := rowsOf_eq env name _ hfile hok
  have hname : name = "butterfly" ∨ name = "triangles" ∨ name = "ocean" := by
    simp only [tests, List.mem_cons, Prod.mk.injEq, List.mem_singleton, List.not_mem_nil,
      or_false] at htest
    rcases htest with ⟨h, _⟩ | ⟨h, _⟩ | ⟨h, _⟩
    · exact Or.inl h
    · exact Or.inr (Or.inr h)
    · exact Or.inr (Or.inl h)
  have hfps := (parseFPSResults_ok_iff env _).2
    ⟨hexe, hall ("butterfly", 16384000) (by decide!), hall ("triangles", 10000000) (by decide!),
      hall ("ocean", 6) (by decide!), rfl⟩
  refine ⟨finalResults env, _, hrun, by rw [SendGo.parse_eq_main]; exact hrun, ?_, hfps, ?_⟩
  · rw [scoreOf_finalResults env name nf htest, hrows, rawScore_short nf hdr data hshort]
  · rw [fpsOf_result env name hname, hrows, fpsStatsOf_short hdr data hshort]

theorem all_short_rows_score_zero_witness :
    ∃ r fps,
      MainGo.parseResultsAndCalculateScore
        (envOf [["Time (s)", "Stage"], ["5.5", "1"]] [butterflyHeader, exampleRow]
          [butterflyHeader, exampleRow]) tests = .ok r ∧
      SendGo.parseResultsAndCalculateScore
        (envOf [["Time (s)", "Stage"], ["5.5", "1"]] [butterflyHeader, exampleRow]
          [butterflyHeader, exampleRow]) tests = .ok r ∧
      r.scoreOf "butterfly" = 0 ∧
      SendGo.parseFPSResults
        (envOf [["Time (s)", "Stage"], ["5.5", "1"]] [butterflyHeader, exampleRow]
          [butterflyHeader, exampleRow]) = .ok fps ∧
      SendGo.fpsOf fps "butterfly" = ⟨0, 0, [], []⟩ :=
  all_short_rows_score_zero
    (envOf [["Time (s)", "Stage"], ["5.5", "1"]] [butterflyHeader, exampleRow]
      [butterflyHeader, exampleRow]) tests "butterfly" 16384000
    ["Time (s)", "Stage"] [["5.5", "1"]] rfl (List.Perm.refl _) (by decide!) rfl
    (by decide) (by decide) (by decide)
    (by
      intro t ht hn
      simp only [tests, List.mem_cons, List.mem_singleton, List.not_mem_nil, or_false] at ht
      rcases ht with rfl | rfl | rfl
      · exact absurd rfl hn
      · exact ⟨[butterflyHeader, exampleRow], [butterflyHeader, exampleRow], rfl, by decide,
          by decide⟩
      · exact ⟨[butterflyHeader, exampleRow], [butterflyHeader, exampleRow], rfl, by decide,
          by decide⟩)

/-- C22 (the code at a failing input): the butterfly log with the five-field header the
runner writes and the single data row `5.5,1` has one data row and all its data rows
have fewer than 5 fields.  The loops guard with `len(row) < 5` and so mean to skip
such rows, but the rows never reach them: `ReadAll` rejects the uneven field counts,
and both `parseResultsAndCalculateScore` and `parseFPSResults` return the read error
instead of a score of 0.  This is the defect of C4, met at another input. -/
theorem short_rows_under_full_header_fail :
    [["5.5", "1"]] ≠ ([] : List Row) ∧ (∀ row ∈ [["5.5", "1"]], List.length row < 5) ∧
    MainGo.parseResultsAndCalculateScore
        (envOf [butterflyHeader, ["5.5", "1"]] [butterflyHeader, exampleRow]
          [butterflyHeader, exampleRow]) tests = .error (.readFailed "butterfly") ∧
    SendGo.parseResultsAndCalculateScore
        (envOf [butterflyHeader, ["5.5", "1"]] [butterflyHeader, exampleRow]
          [butterflyHeader, exampleRow]) tests = .error (.readFailed "butterfly") ∧
    SendGo.parseFPSResults
        (envOf [butterflyHeader, ["5.5", "1"]] [butterflyHeader, exampleRow]
          [butterflyHeader, exampleRow]) = .error (.readFailed "butterfly") := by
  refine ⟨by decide, by decide, by decide!, by decide!, by decide!⟩

/-! ## Claims on `createGeometry` -/

theorem vertexLoop_length (rand : Nat → ℚ) (n : Nat) : (vertexLoop rand n).length = 3 * n := by
  induction n with
  | zero => rfl
  | succ n ih =>
    simp only [vertexLoop, List.length_append, ih, List.length_cons, List.length_nil]
    omega

theorem toUint32_natCast (k : Nat) : toUint32 (k : Int) = k % 4294967296 := by
  unfold toUint32
  have : ((k : Int) % 4294967296) = ((k % 4294967296 : Nat) : Int) := by
    norm_cast
  rw [this, Int.toNat_ofNat]

theorem indexLoop_spec (N : Nat) (fuel : Nat) :
    ∀ (j : Nat) (acc : List Nat), j ≤ N / 3 → N / 3 - j ≤ fuel →
      indexLoop (N : Int) fuel ((3 * j : Nat) : Int) acc
        = some (acc ++ (List.range' (3 * j) (3 * (N / 3 - j))).map (fun k => k % 4294967296)) := by
  induction fuel with
  | zero =>
    intro j acc hj hfuel
    have hjm : j = N / 3 := by omega
    have hcond : ¬ (((3 * j : Nat) : Int) < (N : Int) - 2) := by
      push_cast
      omega
    simp only [indexLoop, if_neg hcond]
    have h0 : N / 3 - j = 0 := by omega
    simp [h0]
  | succ fuel ih =>
    intro j acc hj hfuel
    by_cases hlt : j < N / 3
    · have hcond : ((3 * j : Nat) : Int) < (N : Int) - 2 := by
        push_cast
        omega
      have hnext : ((3 * j : Nat) : Int) + 3 = ((3 * (j + 1) : Nat) : Int) := by
        push_cast
        ring
      have h1 : ((3 * j : Nat) : Int) + 1 = ((3 * j + 1 : Nat) : Int) := by push_cast; ring
      have h2 : ((3 * j : Nat) : Int) + 2 = ((3 * j + 2 : Nat) : Int) := by push_cast; ring
      simp only [indexLoop, if_pos hcond]
      rw [hnext, ih (j + 1) _ (by omega) (by omega), h1, h2, toUint32_natCast,
        toUint32_natCast, toUint32_natCast]
      have hcount : 3 * (N / 3 - j) = 3 * (N / 3 - (j + 1)) + 1 + 1 + 1 := by omega
      rw [hcount, List.range'_succ, List.range'_succ, List.range'_succ]
      simp only [List.map_cons, List.append_assoc, List.cons_append, List.nil_append]
      have hs : 3 * j + 1 + 1 + 1 = 3 * (j + 1) := by ring
      rw [hs]
    · have hcond : ¬ (((3 * j : Nat) : Int) < (N : Int) - 2) := by
        push_cast
        omega
      simp only [indexLoop, if_neg hcond]
      have h0 : N / 3 - j = 0 := by omega
      simp [h0]

/-- What `createGeometry` returns on a non-negative number of points: three
coordinates per point, and the indices `0, 1, 2, ...` up to the last full triple, each
reduced modulo `2 ^ 32` by the conversion to `uint32`. -/
theorem createGeometry_spec (rand : Nat → ℚ) (N : Nat) :
    createGeometry rand (N : Int)
      = .ok (vertexLoop rand N, (List.range (3 * (N / 3))).map (fun k => k % 4294967296)) := by
  have hcap : ¬ ((N : Int) * 3 < 0) := by omega
  have hloop := indexLoop_spec N (N + 1) 0 [] (Nat.zero_le _) (by omega)
  simp only [Nat.mul_zero, Nat.cast_zero, Nat.sub_zero, List.nil_append] at hloop
  unfold createGeometry
  rw [if_neg hcap]
  simp only [Int.toNat_ofNat, hloop, List.range_eq_range']

/-- C23 (amended): for every `numPoints` with `0 ≤ numPoints ≤ 2 ^ 32 + 1`,
`createGeometry` returns a vertex list of length `3 * numPoints` and an index list of
length `3 * floor(numPoints / 3)` whose `k`-th entry is `k`; so every index is below
`numPoints`, and entries `3j`, `3j + 1`, `3j + 2` are the three consecutive points of
the `j`-th triple. -/
theorem createGeometry_indices (rand : Nat → ℚ) (numPoints : Int)
    (h0 : 0 ≤ numPoints) (hmax : numPoints ≤ 4294967297) :
    ∃ vertices indices, createGeometry rand numPoints = .ok (vertices, indices) ∧
      (vertices.length : Int) = 3 * numPoints ∧
      (indices.length : Int) = 3 * (numPoints / 3) ∧
      (∀ k, k < indices.length → indices[k]? = some k) ∧
      (∀ idx ∈ indices, (idx : Int) < numPoints) ∧
      (∀ j, 3 * j + 2 < indices.length →
        indices[3 * j]? = some (3 * j) ∧ indices[3 * j + 1]? = some (3 * j + 1) ∧
          indices[3 * j + 2]? = some (3 * j + 2)) := by
  obtain ⟨N, rfl⟩ := Int.eq_ofNat_of_zero_le h0
  have hN : N ≤ 4294967297 := by omega
  have hlen : ((List.range (3 * (N / 3))).map (fun k => k % 4294967296)).length
      = 3 * (N / 3) := by simp
  have hentry : ∀ k, k < 3 * (N / 3) →
      ((List.range (3 * (N / 3))).map (fun k => k % 4294967296))[k]? = some k := by
    intro k hk
    rw [List.getElem?_map, List.getElem?_range hk]
    have : k % 4294967296 = k := Nat.mod_eq_of_lt (by omega)
    simp [this]
  refine ⟨_, _, createGeometry_spec rand N, ?_, ?_, ?_, ?_, ?_⟩
  · rw [vertexLoop_length]
    push_cast
    ring
  · rw [hlen]
    push_cast
    omega
  · intro k hk
    rw [hlen] at hk
    exact hentry k hk
  · intro idx hidx
    obtain ⟨k, hk, rfl⟩ := List.mem_map.1 hidx
    have hk' : k < 3 * (N / 3) := List.mem_range.1 hk
    have : k % 4294967296 ≤ k := Nat.mod_le _ _
    have : (k % 4294967296 : Nat) < N := by omega
    exact_mod_cast this
  · intro j hj
    rw [hlen] at hj
    exact ⟨hentry _ (by omega), hentry _ (by omega), hentry _ hj⟩

theorem createGeometry_indices_witness :
    ∃ vertices indices, createGeometry (fun _ => 1/2) 7 = .ok (vertices, indices) ∧
      (vertices.length : Int) = 3 * 7 ∧
      (indices.length : Int) = 3 * (7 / 3) ∧
      (∀ k, k < indices.length → indices[k]? = some k) ∧
      (∀ idx ∈ indices, (idx : Int) < 7) ∧
      (∀ j, 3 * j + 2 < indices.length →
        indices[3 * j]? = some (3 * j) ∧ indices[3 * j + 1]? = some (3 * j + 1) ∧
          indices[3 * j + 2]? = some (3 * j + 2)) :=
  createGeometry_indices (fun _ => 1/2) 7 (by decide) (by decide)

/-- The function on seven points: 21 coordinates and the two triples `0 1 2`, `3 4 5`;
on two points no triple; on a negative count the allocation panics. -/
theorem createGeometry_examples :
    createGeometry (fun _ => 1/2) 7 = .ok (List.replicate 21 0, [0, 1, 2, 3, 4, 5]) ∧
    createGeometry (fun _ => 1/2) 2 = .ok (List.replicate 6 0, []) ∧
    createGeometry (fun _ => 1/2) (-1) = .error .capOutOfRange := by
  refine ⟨by decide!, by decide!, by decide!⟩

/-- C23 (as stated, refuted): for `numPoints = 2 ^ 32 + 2` the function returns an
index list of length `3 * floor(numPoints / 3) = 2 ^ 32 + 2` whose entry at position
`2 ^ 32` is 0, not `2 ^ 32`: the conversion `uint32(i + 1)` of the last pass, where
`i = 2 ^ 32 - 1`, wraps around. -/
theorem createGeometry_index_wraps :
    ∃ vertices indices,
      createGeometry (fun _ => 1/2) 4294967298 = .ok (vertices, indices) ∧
      indices.length = 4294967298 ∧
      indices[4294967296]? = some 0 ∧
      indices[4294967296]? ≠ some 4294967296 := by
  have hspec := createGeometry_spec (fun _ => 1/2) 4294967298
  have hdiv : 3 * (4294967298 / 3) = 4294967298 := by norm_num
  rw [hdiv] at hspec
  have hentry : ((List.range 4294967298).map (fun k => k % 4294967296))[4294967296]?
      = some 0 := by
    rw [List.getElem?_map, List.getElem?_range (by norm_num)]
    rfl
  refine ⟨_, _, hspec, ?_, hentry, ?_⟩
  · rw [List.length_map, List.length_range]
  · rw [hentry]
    intro h
    cases h

end GLTest
